import Mathlib

/-!
Hypervisor ethernet interface: BIOS-table synchronisation.

A shallow embedding of `src/ibm/hypervisor-network-mgr-src/hyp_ethernet_interface.cpp`
(`HypEthInterface`): the client mutation path (`ip`, `dhcpEnabled`, `disableDHCP`,
`isDHCPEnabled`) and the table-change handler installed by `watchBaseBiosTable`.

Conventions of the embedding
* `std::map<std::string, V>` is an association list in iteration (key) order;
  `StdMap.Sorted` states the ordering invariant where a theorem needs it.
* `std::shared_ptr` targets are held by value: distinct map entries never alias.
* `uint8_t` is `Fin 256`; `int64_t` payloads of a variant are `Int`.
* exceptions carry the state reached when they are thrown, because the
  mutations performed before a `throw` persist.
* remote calls that stage BIOS attributes are recorded in a trace (`staged`).
-/

namespace HypNet

/-! ## Strings -/

/-- Byte-wise lexicographic order of `std::string`, the order of `std::map` keys. -/
def keyLt (a b : String) : Bool := decide (a.data < b.data)

/-- The C++20 member `std::string::ends_with`. -/
def ends_with (s suffix : String) : Bool := suffix.data.isSuffixOf s.data

/-- Whether `pat` occurs in `cs` as a contiguous block (lists of characters). -/
def hasInfix (pat : List Char) : List Char → Bool
  | [] => pat.isEmpty
  | c :: cs => pat.isPrefixOf (c :: cs) || hasInfix pat cs

/-- The test `s.find(c) != std::string::npos` for a character `c`. -/
def findChar (s : String) (c : Char) : Bool := s.data.contains c

/-- The test `s.find(pat) != std::string::npos` for a string `pat`. -/
def findStr (s pat : String) : Bool := hasInfix pat.data s.data

/-! ## `std::map<std::string, V>` -/

/-- Entries of a `std::map<std::string, V>` in iteration order. -/
abbrev StdMap (V : Type) := List (String × V)

namespace StdMap

variable {V : Type}

/-- Strictly increasing keys: the representation invariant of a `std::map`. -/
def Sorted (m : StdMap V) : Prop := m.Pairwise (fun a b => keyLt a.1 b.1 = true)

/-- The lookup `m.find(k)`; `none` stands for `m.end()`. -/
def find (m : StdMap V) (k : String) : Option V :=
  match m with
  | [] => none
  | (k', v) :: t => if k' = k then some v else find t k

/-- The assignment `m[k] = v` (equally `insert_or_assign`). -/
def insert_or_assign (m : StdMap V) (k : String) (v : V) : StdMap V :=
  match m with
  | [] => [(k, v)]
  | (k', v') :: t =>
    if k' = k then (k, v) :: t
    else if keyLt k k' then (k, v) :: (k', v') :: t
    else (k', v') :: insert_or_assign t k v

/-- The removal `m.erase(m.find(k))`, also the effect of dropping the node
handle returned by `m.extract(k)`. -/
def erase (m : StdMap V) (k : String) : StdMap V :=
  match m with
  | [] => []
  | (k', v') :: t => if k' = k then t else (k', v') :: erase t k

/-- The call `m.emplace(k, v)`: inserts only when `k` is not yet a key. -/
def emplace (m : StdMap V) (k : String) (v : V) : StdMap V :=
  match find m k with
  | some _ => m
  | none => insert_or_assign m k v

/-- In-place update of the object stored under `k` (the key is untouched). -/
def modify (m : StdMap V) (k : String) (f : V → V) : StdMap V :=
  match m with
  | [] => []
  | (k', v') :: t => if k' = k then (k', f v') :: t else (k', v') :: modify t k f

end StdMap

/-! ## Data model -/

/-- The enumeration `HypIP::Protocol`. -/
inductive Protocol where
  | IPv4
  | IPv6
  deriving DecidableEq, Repr

/-- The enumeration `HypIP::AddressOrigin` (the two values this file uses). -/
inductive AddressOrigin where
  | Static
  | DHCP
  deriving DecidableEq, Repr

/-- The enumeration `HypEthInterface::DHCPConf`. -/
inductive DHCPConf where
  | both
  | v4
  | v6
  | none
  deriving DecidableEq, Repr

/-- The payload type `std::variant<std::string, int64_t>` of BIOS attributes. -/
inductive AttrValue where
  | str (s : String)
  | int (n : Int)
  deriving DecidableEq, Repr

/-- The type `uint8_t`. -/
abbrev uint8_t := Fin 256

/-- The conversion `static_cast<uint8_t>(n)` of an `int64_t`. -/
def toUint8 (n : Int) : uint8_t := ⟨(n % 256).toNat, by omega⟩

/-- Modelled from the spec: the class `HypIPAddress` (declared in
`hyp_ip_interface.hpp`, not part of the sources at hand). The spec's
AddressRecord is {protocol, address, prefixLength, gateway, origin}; the
constructor call in `ip` additionally passes the object path and the interface
label. The base-class setters `HypIP::address`, `HypIP::gateway` and
`HypIP::prefixLength` replace the field of the same name. -/
structure HypIPAddress where
  type : Protocol
  address : String
  origin : AddressOrigin
  prefixLength : uint8_t
  gateway : String
  objectPath : String
  intf : String
  deriving DecidableEq, Repr

/-- The map type `PendingAttributesType`: attribute name to (type tag, value). -/
abbrev PendingAttributesType := StdMap (String × AttrValue)

/-- Remote calls issued through an address object. `updateBiosPendingAttrs`
stages a set of attribute writes. Modelled from the spec:
`resetBaseBiosTableAttrs` (defined in `hyp_ip_interface.cpp`, absent here)
"instructs the address record to reset any auxiliary staged attributes it
owns"; it is recorded as an event and leaves the record's fields alone. -/
inductive BiosCall where
  | updateBiosPendingAttrs (objPath : String) (attrs : PendingAttributesType)
  | resetBaseBiosTableAttrs (objPath : String)
  deriving DecidableEq, Repr

/-- State of one `HypEthInterface`: its object path, the `DHCPEnabled`
property (read by `HypEthernetIntf::dhcpEnabled()`), the member `addrs`, and
the trace of staging calls made through its address objects. -/
structure HypEthInterface where
  objectPath : String
  dhcpConf : DHCPConf
  addrs : StdMap HypIPAddress
  staged : List BiosCall
  deriving DecidableEq, Repr

/-- Collaborators that `hyp_ethernet_interface.cpp` uses but does not define. -/
structure Env where
  /-- The utility `isValidIP(addressFamily, address)`. -/
  isValidIP : Int → String → Bool
  /-- The utility `isValidPrefix(addressFamily, prefixLength)`. -/
  isValidPrefix : Int → uint8_t → Bool
  /-- The member `HypIPAddress::mapDbusToBiosAttr(dbusProp)`. -/
  mapDbusToBiosAttr : HypIPAddress → String → String
  /-- The default of `ignoreProtocol` in the declaration of `isDHCPEnabled`. -/
  ignoreProtocol : Bool

def AF_INET : Int := 2

def AF_INET6 : Int := 10

def biosStrType : String := "xyz.openbmc_project.BIOSConfig.Manager.AttributeType.String"

def biosIntType : String := "xyz.openbmc_project.BIOSConfig.Manager.AttributeType.Integer"

def biosEnumType : String := "xyz.openbmc_project.BIOSConfig.Manager.AttributeType.Enumeration"

/-! ## Client mutation path -/

namespace HypEthInterface

/-- The method `HypEthInterface::getIntfLabel`: `if0`/`if1` from the last
segment of the object path, the empty label otherwise. -/
def getIntfLabel (self : HypEthInterface) : String :=
  let ethIntfLabel : String := ⟨(self.objectPath.data.reverse.takeWhile (fun c => c != '/')).reverse⟩
  if ethIntfLabel = "eth0" then "if0"
  else if ethIntfLabel = "eth1" then "if1"
  else ""

/-- The method `HypEthInterface::isDHCPEnabled(family, ignoreProtocol)`. -/
def isDHCPEnabled (self : HypEthInterface) (family : Protocol) (ignoreProtocol : Bool) : Bool :=
  (self.dhcpConf == DHCPConf.both) ||
  ((self.dhcpConf == DHCPConf.v6) && ((family == Protocol.IPv6) || ignoreProtocol)) ||
  ((self.dhcpConf == DHCPConf.v4) && ((family == Protocol.IPv4) || ignoreProtocol))

/-- The origin string chosen in `dhcpEnabled(value)` from the record's type. -/
def originMethod (ipObj : HypIPAddress) (dhcp : Bool) : String :=
  match ipObj.type, dhcp with
  | Protocol.IPv4, true => "IPv4DHCP"
  | Protocol.IPv6, true => "IPv6DHCP"
  | Protocol.IPv4, false => "IPv4Static"
  | Protocol.IPv6, false => "IPv6Static"

/-- The calls made on the first address object by `dhcpEnabled(value)`; both
loops of the source leave at the end of their first iteration. -/
def originCalls (env : Env) (value : DHCPConf) (addrs : StdMap HypIPAddress) : List BiosCall :=
  match addrs with
  | [] => []
  | (_, ipObj) :: _ =>
    let pendingAttributes : PendingAttributesType :=
      StdMap.insert_or_assign [] (env.mapDbusToBiosAttr ipObj "origin")
        (biosEnumType, AttrValue.str (originMethod ipObj (value != DHCPConf.none)))
    if value != DHCPConf.none then
      [BiosCall.updateBiosPendingAttrs ipObj.objectPath pendingAttributes]
    else
      [BiosCall.updateBiosPendingAttrs ipObj.objectPath pendingAttributes,
       BiosCall.resetBaseBiosTableAttrs ipObj.objectPath]

/-- The setter `HypEthInterface::dhcpEnabled(value)`; the returned mode is
always `value`, so only the resulting state is kept. -/
def dhcpEnabled (env : Env) (self : HypEthInterface) (value : DHCPConf) : HypEthInterface :=
  if value = self.dhcpConf then self
  else
    { self with dhcpConf := value, staged := self.staged ++ originCalls env value self.addrs }

/-- The method `HypEthInterface::disableDHCP(protocol)`. -/
def disableDHCP (env : Env) (self : HypEthInterface) (protocol : Protocol) : HypEthInterface :=
  let dhcpState := self.dhcpConf
  if dhcpState = DHCPConf.both then
    match protocol with
    | Protocol.IPv4 => dhcpEnabled env self DHCPConf.v6
    | Protocol.IPv6 => dhcpEnabled env self DHCPConf.v4
  else if dhcpState = DHCPConf.v4 ∧ protocol = Protocol.IPv4 then
    dhcpEnabled env self DHCPConf.none
  else if dhcpState = DHCPConf.v6 ∧ protocol = Protocol.IPv6 then
    dhcpEnabled env self DHCPConf.none
  else self

/-- Outcome of `ip`: the returned object path, or the `InvalidArgument` raised
by `elog`, each with the interface state reached at that point. -/
inductive IpResult where
  | ok (objPath : String) (st : HypEthInterface)
  | InvalidArgument (argumentName argumentValue : String) (st : HypEthInterface)
  deriving DecidableEq, Repr

/-- State carried by an outcome of `ip`. -/
def IpResult.state : IpResult → HypEthInterface
  | IpResult.ok _ st => st
  | IpResult.InvalidArgument _ _ st => st

/-- Whether the call failed with `InvalidArgument`. -/
def IpResult.failed : IpResult → Bool
  | IpResult.ok _ _ => false
  | IpResult.InvalidArgument _ _ _ => true

/-- The key of the first entry of `addrs` whose object has type `protType`:
the entry at which the search loop of `ip` stops. -/
def firstOfType (protType : Protocol) : StdMap HypIPAddress → Option String
  | [] => none
  | (k, ipObj) :: t => if ipObj.type = protType then some k else firstOfType protType t

/-- The three attribute writes that `ip` stages for the new object. -/
def ipPending (env : Env) (ipObj : HypIPAddress) (ipaddress : String) (prefixLength : uint8_t)
    (gateway : String) : PendingAttributesType :=
  let p0 : PendingAttributesType := []
  let p1 := StdMap.insert_or_assign p0 (env.mapDbusToBiosAttr ipObj "address")
    (biosStrType, AttrValue.str ipaddress)
  let p2 := StdMap.insert_or_assign p1 (env.mapDbusToBiosAttr ipObj "gateway")
    (biosStrType, AttrValue.str gateway)
  StdMap.insert_or_assign p2 (env.mapDbusToBiosAttr ipObj "prefixLength")
    (biosIntType, AttrValue.int prefixLength.val)

/-- First step of `ip`: when `isDHCPEnabled(protType)` holds, DHCP is
switched off for that protocol; this runs before any argument is validated. -/
def ipEntry (env : Env) (self : HypEthInterface) (protType : Protocol) : HypEthInterface :=
  if isDHCPEnabled self protType env.ignoreProtocol then disableDHCP env self protType
  else self

/-- The part of `ip` after validation: the entry found for `protType` is
extracted (and dropped), a new object is stored under `ipaddress`, and the
three attribute writes are staged. Yields the object path and the new state. -/
def ipStore (env : Env) (s1 : HypEthInterface) (protType : Protocol) (ipaddress : String)
    (prefixLength : uint8_t) (gateway : String) : String × HypEthInterface :=
  let origin := AddressOrigin.Static
  let intfLabel := getIntfLabel s1
  let ipObjId := "addr0"
  let protocol := match protType with
    | Protocol.IPv4 => "ipv4"
    | Protocol.IPv6 => "ipv6"
  let objPath := s1.objectPath ++ "/" ++ protocol ++ "/" ++ ipObjId
  let addrs1 := match firstOfType protType s1.addrs with
    | some k => StdMap.erase s1.addrs k
    | none => s1.addrs
  let ipObj : HypIPAddress :=
    { type := protType, address := ipaddress, origin := origin,
      prefixLength := prefixLength, gateway := gateway,
      objectPath := objPath, intf := intfLabel }
  let addrs2 := StdMap.insert_or_assign addrs1 ipaddress ipObj
  (objPath,
    { s1 with
      addrs := addrs2
      staged := s1.staged ++
        [BiosCall.updateBiosPendingAttrs ipObj.objectPath
          (ipPending env ipObj ipaddress prefixLength gateway)] })

/-- The method `HypEthInterface::ip(protType, ipaddress, prefixLength, gateway)`. -/
def ip (env : Env) (self : HypEthInterface) (protType : Protocol) (ipaddress : String)
    (prefixLength : uint8_t) (gateway : String) : IpResult :=
  let s1 := ipEntry env self protType
  let addressFamily := if protType = Protocol.IPv4 then AF_INET else AF_INET6
  if !env.isValidIP addressFamily ipaddress then
    IpResult.InvalidArgument "ipaddress" ipaddress s1
  else if !env.isValidIP addressFamily gateway then
    IpResult.InvalidArgument "Gateway" ipaddress s1
  else if !env.isValidPrefix addressFamily prefixLength then
    IpResult.InvalidArgument "prefixLength" (toString prefixLength.val) s1
  else
    let r := ipStore env s1 protType ipaddress prefixLength gateway
    IpResult.ok r.1 r.2

end HypEthInterface

/-! ## Table-change handler -/

/-- Modelled from the spec: the manager object (`HypNetworkMgr`, whose sources
are absent). It is the InterfaceRegistry of the spec: `getEthIntfList()`
resolves a label to its interface and `getBIOSTableAttrs()` is the locally
cached snapshot of attribute key/value pairs. -/
structure HypNetworkMgr where
  ethIntfList : StdMap HypEthInterface
  biosTableAttrs : StdMap AttrValue
  deriving DecidableEq, Repr

/-- The remote BIOS table as seen through `GetAttribute`: the current value of
an attribute, or `none` when the bus call fails with `SdBusError`. -/
abbrev BiosTable := String → Option AttrValue

/-- The method `HypEthInterface::getAttrFromBiosTable`: the current value, or
the empty string when the call failed. -/
def getAttrFromBiosTable (bios : BiosTable) (attrName : String) : AttrValue :=
  match bios attrName with
  | some currValue => currValue
  | none => AttrValue.str ""

/-- The access `std::get<std::string>(v)`; `none` is `std::bad_variant_access`. -/
def getString : AttrValue → Option String
  | AttrValue.str s => some s
  | AttrValue.int _ => none

/-- The access `std::get<int64_t>(v)`; `none` is `std::bad_variant_access`. -/
def getInt64 : AttrValue → Option Int
  | AttrValue.int n => some n
  | AttrValue.str _ => none

/-- Modelled from the spec: `manager.setBIOSTableAttr`, reached through
`setIpPropsInMap` (the manager's sources are absent): "update the cached
snapshot for that key", a single replace of the value stored under the key. -/
def setIpPropsInMap (mgr : HypNetworkMgr) (attrName : String) (attrValue : AttrValue)
    (_attrType : String) : HypNetworkMgr :=
  { mgr with biosTableAttrs := StdMap.modify mgr.biosTableAttrs attrName (fun _ => attrValue) }

/-- How far a block of the handler got: it ran to its end (`next`), executed
`return` (`ret`), or let `std::bad_variant_access` escape (`raise`); each
carries the manager state reached. -/
inductive Flow where
  | next (mgr : HypNetworkMgr)
  | ret (mgr : HypNetworkMgr)
  | raise (mgr : HypNetworkMgr)
  deriving DecidableEq, Repr

/-- Manager state carried by a flow. -/
def Flow.mgr : Flow → HypNetworkMgr
  | Flow.next m => m
  | Flow.ret m => m
  | Flow.raise m => m

/-- Whether the block ran to its end. -/
def Flow.isNext : Flow → Bool
  | Flow.next _ => true
  | _ => false

/-- A `for` loop over `l` whose body may `return` or throw. -/
def forEach {α : Type} (body : α → HypNetworkMgr → Flow) : List α → HypNetworkMgr → Flow
  | [], mgr => Flow.next mgr
  | a :: rest, mgr =>
    match body a mgr with
    | Flow.next mgr1 => forEach body rest mgr1
    | r => r

/-- The label `"if" + std::to_string(i)` built for interface number `i`. -/
def intfName (i : Nat) : String := "if" ++ toString i

/-- The label under which the handler looks the interface up: `eth0` for
`if0`, `eth1` otherwise. -/
def ethLabel (i : Nat) : String := if intfName i = "if0" then "eth0" else "eth1"

/-- The manager after the interface object registered under `label` has
changed to `ethObj` (the registry holds the object by shared pointer). -/
def setEthObj (mgr : HypNetworkMgr) (label : String) (ethObj : HypEthInterface) :
    HypNetworkMgr :=
  { mgr with ethIntfList := StdMap.modify mgr.ethIntfList label (fun _ => ethObj) }

/-- The test applied to a key of `ipAddrs` to decide that its object is the
one of `protocol`: a dot for ipv4, a double colon for ipv6. -/
def keyOfProtocol (protocol key : String) : Bool :=
  (protocol == "ipv4" && findChar key '.') || (protocol == "ipv6" && findStr key "::")

/-- The loop `for (auto addrs : ipAddrs)`: the setter `f` is applied to the
object of the first entry whose key passes `keyOfProtocol`, then the loop
breaks; `none` when no key passes. -/
def updateFirst (protocol : String) (f : HypIPAddress → HypIPAddress) :
    StdMap HypIPAddress → Option (StdMap HypIPAddress)
  | [] => none
  | (k, ipObj) :: t =>
    if keyOfProtocol protocol k then some ((k, f ipObj) :: t)
    else (updateFirst protocol f t).map (fun t1 => (k, ipObj) :: t1)

/-- What the handler does once a cached and a fresh value differ: update the
first matching address object of `ethObj` and, only then, the cached entry. -/
def applyChange (mgr : HypNetworkMgr) (ethIntfLabel : String) (ethObj : HypEthInterface)
    (protocol : String) (f : HypIPAddress → HypIPAddress) (attrName : String)
    (attrValue : AttrValue) (attrType : String) : HypNetworkMgr :=
  match updateFirst protocol f ethObj.addrs with
  | some addrs1 =>
    setIpPropsInMap (setEthObj mgr ethIntfLabel { ethObj with addrs := addrs1 })
      attrName attrValue attrType
  | none => mgr

/-- The block "Get ip address" for one entry `i` of the cached snapshot. -/
def checkIpaddr (bios : BiosTable) (intf protocol ethIntfLabel : String)
    (ethObj : HypEthInterface) (i : String × AttrValue) (mgr : HypNetworkMgr) : Flow :=
  if ends_with i.1 (intf ++ "_" ++ protocol ++ "_ipaddr") then
    match getString i.2 with
    | none => Flow.raise mgr
    | some currIpAddr =>
      if currIpAddr = "" then Flow.ret mgr
      else
        match getString (getAttrFromBiosTable bios i.1) with
        | none => Flow.raise mgr
        | some ipAddr =>
          if ipAddr ≠ currIpAddr then
            Flow.ret (applyChange mgr ethIntfLabel ethObj protocol
              (fun ipObj => { ipObj with address := ipAddr }) i.1 (AttrValue.str ipAddr) "String")
          else Flow.next mgr
  else Flow.next mgr

/-- The block "Get gateway" for one entry `i` of the cached snapshot. -/
def checkGateway (bios : BiosTable) (intf protocol ethIntfLabel : String)
    (ethObj : HypEthInterface) (i : String × AttrValue) (mgr : HypNetworkMgr) : Flow :=
  if ends_with i.1 (intf ++ "_" ++ protocol ++ "_gateway") then
    match getString i.2 with
    | none => Flow.raise mgr
    | some currGateway =>
      if currGateway = "" then Flow.ret mgr
      else
        match getString (getAttrFromBiosTable bios i.1) with
        | none => Flow.raise mgr
        | some gateway =>
          if gateway ≠ currGateway then
            Flow.ret (applyChange mgr ethIntfLabel ethObj protocol
              (fun ipObj => { ipObj with gateway := gateway }) i.1 (AttrValue.str gateway)
              "String")
          else Flow.next mgr
  else Flow.next mgr

/-- The block "Get prefix length" for one entry `i` of the cached snapshot. -/
def checkPrefixLength (bios : BiosTable) (intf protocol ethIntfLabel : String)
    (ethObj : HypEthInterface) (i : String × AttrValue) (mgr : HypNetworkMgr) : Flow :=
  if ends_with i.1 (intf ++ "_" ++ protocol ++ "_prefix_length") then
    match getInt64 i.2 with
    | none => Flow.raise mgr
    | some curr =>
      let currPrefixLen := toUint8 curr
      match getInt64 (getAttrFromBiosTable bios i.1) with
      | none => Flow.raise mgr
      | some fresh =>
        let prefixLen := toUint8 fresh
        if prefixLen ≠ currPrefixLen then
          Flow.ret (applyChange mgr ethIntfLabel ethObj protocol
            (fun ipObj => { ipObj with prefixLength := prefixLen }) i.1
            (AttrValue.int prefixLen.val) "Integer")
        else Flow.next mgr
  else Flow.next mgr

/-- Body of the loop over the cached snapshot: the three blocks in turn. -/
def checkEntry (bios : BiosTable) (intf protocol ethIntfLabel : String)
    (ethObj : HypEthInterface) (i : String × AttrValue) (mgr : HypNetworkMgr) : Flow :=
  match checkIpaddr bios intf protocol ethIntfLabel ethObj i mgr with
  | Flow.next mgr1 =>
    match checkGateway bios intf protocol ethIntfLabel ethObj i mgr1 with
    | Flow.next mgr2 => checkPrefixLength bios intf protocol ethIntfLabel ethObj i mgr2
    | r => r
  | r => r

/-- The mode adjustment made from the method attribute read for the pair at
hand; both tests compare with the IPv4 method names. -/
def syncDhcp (env : Env) (ethObj : HypEthInterface) (dhcpEnabled : String) : HypEthInterface :=
  let dhcpState := ethObj.dhcpConf
  if dhcpState = DHCPConf.none ∧ dhcpEnabled = "IPv4DHCP" then
    HypEthInterface.dhcpEnabled env ethObj DHCPConf.v4
  else if dhcpState ≠ DHCPConf.none ∧ dhcpEnabled = "IPv4Static" then
    HypEthInterface.dhcpEnabled env ethObj DHCPConf.none
  else ethObj

/-- Body of the two nested loops of the handler for interface number `i` and
`protocol`. -/
def syncPair (env : Env) (bios : BiosTable) (i : Nat) (protocol : String)
    (mgr : HypNetworkMgr) : Flow :=
  let intf := intfName i
  match getString (getAttrFromBiosTable bios ("vmi_" ++ intf ++ "_" ++ protocol ++ "_method")) with
  | none => Flow.raise mgr
  | some dhcpEnabled =>
    let ethIntfLabel := ethLabel i
    match StdMap.find mgr.ethIntfList ethIntfLabel with
    | none => Flow.ret mgr
    | some ethObj0 =>
      let ethObj := syncDhcp env ethObj0 dhcpEnabled
      let mgr1 := setEthObj mgr ethIntfLabel ethObj
      forEach (checkEntry bios intf protocol ethIntfLabel ethObj) mgr1.biosTableAttrs mgr1

def MAX_INTF_SUPPORTED : Nat := 2

/-- The handler `BIOSAttrUpdate` installed by `watchBaseBiosTable`, run on a
notification whose changed-property names are `interfacesProperties`. -/
def BIOSAttrUpdate (env : Env) (bios : BiosTable) (interfacesProperties : List String)
    (mgr : HypNetworkMgr) : Flow :=
  if !interfacesProperties.contains "BaseBIOSTable" then Flow.ret mgr
  else
    match forEach (fun i => forEach (syncPair env bios i) ["ipv4", "ipv6"])
        (List.range MAX_INTF_SUPPORTED) mgr with
    | Flow.next mgr1 => Flow.ret mgr1
    | r => r

/-! ## Binding to the attribute table, re-keying and deletion -/

namespace HypEthInterface

/-- The setter `HypEthInterface::dhcpEnabled(value)` together with the value
it returns; the state is that of `dhcpEnabled`. -/
def dhcpEnabledCall (env : Env) (self : HypEthInterface) (value : DHCPConf) :
    DHCPConf × HypEthInterface :=
  if value = self.dhcpConf then (value, self)
  else
    (value,
      { self with dhcpConf := value, staged := self.staged ++ originCalls env value self.addrs })

/-- The method `HypEthInterface::deleteObject(ipaddress)`. -/
def deleteObject (self : HypEthInterface) (ipaddress : String) : HypEthInterface :=
  match StdMap.find self.addrs ipaddress with
  | none => self
  | some _ => { self with addrs := StdMap.erase self.addrs ipaddress }

/-- The method `HypEthInterface::updateIPAddress(ip, updatedIp)`: the object
found under `ip` is removed by `deleteObject(ip)` and emplaced under
`updatedIp`. -/
def updateIPAddress (self : HypEthInterface) (ip updatedIp : String) : HypEthInterface :=
  match StdMap.find self.addrs ip with
  | some ipObj =>
    let s1 := deleteObject self ip
    { s1 with addrs := StdMap.emplace s1.addrs updatedIp ipObj }
  | none => self

/-- The locals of `createIPAddressObjects` that are declared before its loop
and so keep their value from one protocol to the next. -/
structure CreateLocals where
  ipAddr : String
  ipProtocol : Protocol
  ipOrigin : AddressOrigin
  ipPrefixLength : uint8_t
  ipGateway : String
  deriving DecidableEq, Repr

/-- Values found in the locals `ipProtocol`, `ipOrigin` and `ipPrefixLength`
of `createIPAddressObjects`, which are declared without an initialiser. -/
structure Indeterminate where
  ipProtocol : Protocol
  ipOrigin : AddressOrigin
  ipPrefixLength : uint8_t
  deriving DecidableEq, Repr

/-- How far one round of the loop of `createIPAddressObjects` got: to its end
or to a `continue` (`next`), or `std::bad_variant_access` escaped (`raise`). -/
inductive CreateFlow where
  | next (st : HypEthInterface) (loc : CreateLocals)
  | raise (st : HypEthInterface)
  deriving DecidableEq, Repr

/-- The assignment of a local from the snapshot entry `key`, when present:
`conv` is the `std::get` and conversion applied to the stored value. -/
def readAttr {α : Type} (biosTableAttrs : StdMap AttrValue) (key : String)
    (conv : AttrValue → Option α) (current : α) : Option α :=
  match StdMap.find biosTableAttrs key with
  | some v => conv v
  | none => some current

/-- One round of the loop of `createIPAddressObjects`, for `protocol`. -/
def createForProtocol (intfLabel : String) (biosTableAttrs : StdMap AttrValue)
    (protocol : String) (self : HypEthInterface) (loc : CreateLocals) : CreateFlow :=
  let vmi_pfx := "vmi_" ++ intfLabel ++ "_" ++ protocol ++ "_"
  match StdMap.find biosTableAttrs (vmi_pfx ++ "method") with
  | none => CreateFlow.next self loc
  | some method =>
    match getString method with
    | none => CreateFlow.raise self
    | some ipType =>
      let s1 : HypEthInterface :=
        if findStr ipType "Static" then { self with dhcpConf := DHCPConf.none }
        else if findStr ipType "DHCP" then
          if protocol = "ipv4" then { self with dhcpConf := DHCPConf.v4 }
          else if protocol = "ipv6" then { self with dhcpConf := DHCPConf.v6 }
          else self
        else self
      let ipOrigin :=
        if findStr ipType "Static" then AddressOrigin.Static
        else if findStr ipType "DHCP" then AddressOrigin.DHCP
        else loc.ipOrigin
      match readAttr biosTableAttrs (vmi_pfx ++ "ipaddr") getString loc.ipAddr with
      | none => CreateFlow.raise s1
      | some ipAddr =>
        match readAttr biosTableAttrs (vmi_pfx ++ "prefix_length")
            (fun v => (getInt64 v).map toUint8) loc.ipPrefixLength with
        | none => CreateFlow.raise s1
        | some ipPrefixLength =>
          match readAttr biosTableAttrs (vmi_pfx ++ "gateway") getString loc.ipGateway with
          | none => CreateFlow.raise s1
          | some ipGateway =>
            let ipObjId := "addr0"
            let ipProtocol :=
              if protocol = "ipv4" then Protocol.IPv4
              else if protocol = "ipv6" then Protocol.IPv6
              else loc.ipProtocol
            let ipObj : HypIPAddress :=
              { type := ipProtocol, address := ipAddr, origin := ipOrigin,
                prefixLength := ipPrefixLength, gateway := ipGateway,
                objectPath := s1.objectPath ++ "/" ++ protocol ++ "/" ++ ipObjId,
                intf := intfLabel }
            CreateFlow.next { s1 with addrs := StdMap.emplace s1.addrs ipAddr ipObj }
              { ipAddr := ipAddr, ipProtocol := ipProtocol, ipOrigin := ipOrigin,
                ipPrefixLength := ipPrefixLength, ipGateway := ipGateway }

/-- The loop `for (std::string protocol : {"ipv4", "ipv6"})` of
`createIPAddressObjects`. -/
def createLoop (intfLabel : String) (biosTableAttrs : StdMap AttrValue) :
    List String → HypEthInterface → CreateLocals → CreateFlow
  | [], self, loc => CreateFlow.next self loc
  | protocol :: rest, self, loc =>
    match createForProtocol intfLabel biosTableAttrs protocol self loc with
    | CreateFlow.next s1 loc1 => createLoop intfLabel biosTableAttrs rest s1 loc1
    | r => r

/-- Outcome of `createIPAddressObjects`: the interface state, the calls
`manager.setDefaultBIOSTableAttrsOnIntf(intf, protocol)` it made, in order, and
whether `std::bad_variant_access` escaped. -/
structure CreateResult where
  st : HypEthInterface
  defaults : List (String × String)
  raised : Bool
  deriving DecidableEq, Repr

/-- The two records that the bootstrap branch emplaces for the interface
`eth` (`eth0` or `eth1`). -/
def bootstrapAddrs (self : HypEthInterface) (eth intfLabel : String) : StdMap HypIPAddress :=
  let a1 := StdMap.emplace self.addrs (eth ++ "/v4")
    { type := Protocol.IPv4, address := "0.0.0.0", origin := AddressOrigin.Static,
      prefixLength := 0, gateway := "0.0.0.0",
      objectPath := self.objectPath ++ "/ipv4/addr0", intf := intfLabel }
  StdMap.emplace a1 (eth ++ "/v6")
    { type := Protocol.IPv6, address := "::", origin := AddressOrigin.Static,
      prefixLength := 128, gateway := "::",
      objectPath := self.objectPath ++ "/ipv6/addr0", intf := intfLabel }

/-- The method `HypEthInterface::createIPAddressObjects`, run with the cached
snapshot `biosTableAttrs`; `u` holds the indeterminate initial locals. -/
def createIPAddressObjects (self : HypEthInterface) (biosTableAttrs : StdMap AttrValue)
    (u : Indeterminate) : CreateResult :=
  let intfLabel := getIntfLabel self
  if intfLabel = "" then { st := self, defaults := [], raised := false }
  else if biosTableAttrs.length < 17 then
    if intfLabel = "if0" then
      { st := { self with addrs := bootstrapAddrs self "eth0" intfLabel },
        defaults := [(intfLabel, "ipv4"), (intfLabel, "ipv6")], raised := false }
    else if intfLabel = "if1" then
      { st := { self with addrs := bootstrapAddrs self "eth1" intfLabel },
        defaults := [(intfLabel, "ipv4"), (intfLabel, "ipv6")], raised := false }
    else { st := self, defaults := [], raised := false }
  else
    match createLoop intfLabel biosTableAttrs ["ipv4", "ipv6"] self
        { ipAddr := "", ipProtocol := u.ipProtocol, ipOrigin := u.ipOrigin,
          ipPrefixLength := u.ipPrefixLength, ipGateway := "" } with
    | CreateFlow.next s1 _ => { st := s1, defaults := [], raised := false }
    | CreateFlow.raise s1 => { st := s1, defaults := [], raised := true }

end HypEthInterface

/-! ## Concrete collaborators for evaluation -/

/-- A validator pair for evaluating the model on concrete inputs: it rejects
the loopback, all-zero and all-ones addresses and the empty string, and a zero
or over-long prefix length, which are the rejections the `AddIPAddress` test
expects. Attribute names follow the `vmi_<if>_<protocol>_<field>` scheme. -/
def sampleEnv : Env where
  isValidIP := fun _ a =>
    !(a == "" || a == "127.0.0.1" || a == "0.0.0.0" || a == "255.255.255.255" ||
      a == "::1" || a == "::")
  isValidPrefix := fun family l =>
    decide (0 < l.val) && (if family = AF_INET then decide (l.val ≤ 32) else decide (l.val ≤ 128))
  mapDbusToBiosAttr := fun ipObj dbusProp =>
    let proto := match ipObj.type with
      | Protocol.IPv4 => "ipv4"
      | Protocol.IPv6 => "ipv6"
    let field :=
      if dbusProp = "address" then "ipaddr"
      else if dbusProp = "gateway" then "gateway"
      else if dbusProp = "prefixLength" then "prefix_length"
      else "method"
    "vmi_" ++ ipObj.intf ++ "_" ++ proto ++ "_" ++ field
  ignoreProtocol := false

/-- An interface `eth0` in DHCP mode `both` with no address yet. -/
def eth0Both : HypEthInterface :=
  { objectPath := "/xyz/openbmc_project/network/hypervisor/eth0",
    dhcpConf := DHCPConf.both, addrs := [], staged := [] }

/-- The IPv4 record of the scenarios: 10.10.10.10/16 with an empty gateway. -/
def recV4 : HypIPAddress :=
  { type := Protocol.IPv4, address := "10.10.10.10", origin := AddressOrigin.Static,
    prefixLength := 16, gateway := "",
    objectPath := "/xyz/openbmc_project/network/hypervisor/eth0/ipv4/addr0", intf := "if0" }

/-- An interface `eth0` holding `recV4` under its address, in DHCP mode `m`. -/
def eth0With (m : DHCPConf) : HypEthInterface :=
  { objectPath := "/xyz/openbmc_project/network/hypervisor/eth0",
    dhcpConf := m, addrs := [("10.10.10.10", recV4)], staged := [] }

/-- An address object of interface label `intf` on `eth`. -/
def mkRec (eth intf proto : String) (type : Protocol) (address : String) (l : uint8_t)
    (gateway : String) : HypIPAddress :=
  { type := type, address := address, origin := AddressOrigin.Static, prefixLength := l,
    gateway := gateway,
    objectPath := "/xyz/openbmc_project/network/hypervisor/" ++ eth ++ "/" ++ proto ++ "/addr0",
    intf := intf }

/-- Interface `eth0` in mode `m`: `recV4` and an IPv6 record `fe80::1/64`. -/
def sampleEth0 (m : DHCPConf) : HypEthInterface :=
  { objectPath := "/xyz/openbmc_project/network/hypervisor/eth0", dhcpConf := m,
    addrs := [("10.10.10.10", recV4),
      ("fe80::1", mkRec "eth0" "if0" "ipv6" Protocol.IPv6 "fe80::1" 64 "fe80::fe")],
    staged := [] }

/-- Interface `eth1` in mode `m` with one record per protocol. -/
def sampleEth1 (m : DHCPConf) : HypEthInterface :=
  { objectPath := "/xyz/openbmc_project/network/hypervisor/eth1", dhcpConf := m,
    addrs := [("10.20.20.20", mkRec "eth1" "if1" "ipv4" Protocol.IPv4 "10.20.20.20" 24 "10.20.20.1"),
      ("fe80::2", mkRec "eth1" "if1" "ipv6" Protocol.IPv6 "fe80::2" 64 "fe80::fe")],
    staged := [] }

/-- A complete cached snapshot for two static interfaces (17 entries). -/
def sampleAttrs : StdMap AttrValue :=
  [("vmi_hostname", AttrValue.str "host"),
   ("vmi_if0_ipv4_gateway", AttrValue.str "10.10.10.1"),
   ("vmi_if0_ipv4_ipaddr", AttrValue.str "10.10.10.10"),
   ("vmi_if0_ipv4_method", AttrValue.str "IPv4Static"),
   ("vmi_if0_ipv4_prefix_length", AttrValue.int 16),
   ("vmi_if0_ipv6_gateway", AttrValue.str "fe80::fe"),
   ("vmi_if0_ipv6_ipaddr", AttrValue.str "fe80::1"),
   ("vmi_if0_ipv6_method", AttrValue.str "IPv6Static"),
   ("vmi_if0_ipv6_prefix_length", AttrValue.int 64),
   ("vmi_if1_ipv4_gateway", AttrValue.str "10.20.20.1"),
   ("vmi_if1_ipv4_ipaddr", AttrValue.str "10.20.20.20"),
   ("vmi_if1_ipv4_method", AttrValue.str "IPv4Static"),
   ("vmi_if1_ipv4_prefix_length", AttrValue.int 24),
   ("vmi_if1_ipv6_gateway", AttrValue.str "fe80::fe"),
   ("vmi_if1_ipv6_ipaddr", AttrValue.str "fe80::2"),
   ("vmi_if1_ipv6_method", AttrValue.str "IPv6Static"),
   ("vmi_if1_ipv6_prefix_length", AttrValue.int 64)]

/-- The manager with `sampleEth0 m0`, `sampleEth1 m1` and snapshot `attrs`. -/
def sampleMgr (m0 m1 : DHCPConf) (attrs : StdMap AttrValue) : HypNetworkMgr :=
  { ethIntfList := [("eth0", sampleEth0 m0), ("eth1", sampleEth1 m1)], biosTableAttrs := attrs }

/-- A remote table that answers every read from the entries `t`. -/
def tableOf (t : StdMap AttrValue) : BiosTable := fun k => StdMap.find t k

/-- The remote table `t` after an external write of `v` to attribute `k`. -/
def tableSet (t : BiosTable) (k : String) (v : AttrValue) : BiosTable :=
  fun k' => if k' = k then some v else t k'

/-- The remote table `t` with the read of attribute `k` failing. -/
def tableFail (t : BiosTable) (k : String) : BiosTable :=
  fun k' => if k' = k then none else t k'

/-- The snapshot `t` with the cached value of key `k` replaced by `v`. -/
def attrsWith (t : StdMap AttrValue) (k : String) (v : AttrValue) : StdMap AttrValue :=
  StdMap.modify t k (fun _ => v)

/-- Interface `eth0` after `ip(IPv6, "2001:db8:1:2:3:4:5:6", 64, ...)`: its
IPv6 record is stored under an address written without a double colon. -/
def eth0FullV6 : HypEthInterface :=
  { objectPath := "/xyz/openbmc_project/network/hypervisor/eth0", dhcpConf := DHCPConf.none,
    addrs := [("10.10.10.10", recV4),
      ("2001:db8:1:2:3:4:5:6",
        mkRec "eth0" "if0" "ipv6" Protocol.IPv6 "2001:db8:1:2:3:4:5:6" 64 "2001:db8:1:2:3:4:5:1")],
    staged := [] }

/-- The cached snapshot that goes with `eth0FullV6`. -/
def attrsFullV6 : StdMap AttrValue :=
  attrsWith (attrsWith sampleAttrs "vmi_if0_ipv6_ipaddr" (AttrValue.str "2001:db8:1:2:3:4:5:6"))
    "vmi_if0_ipv6_gateway" (AttrValue.str "2001:db8:1:2:3:4:5:1")

/-- The manager holding `eth0FullV6`, `sampleEth1` and `attrsFullV6`. -/
def mgrFullV6 : HypNetworkMgr :=
  { ethIntfList := [("eth0", eth0FullV6), ("eth1", sampleEth1 DHCPConf.none)],
    biosTableAttrs := attrsFullV6 }

/-- Some values for the uninitialised locals of `createIPAddressObjects`. -/
def sampleIndeterminate : HypEthInterface.Indeterminate :=
  { ipProtocol := Protocol.IPv4, ipOrigin := AddressOrigin.DHCP, ipPrefixLength := 7 }

/-- Interface `eth0` whose only record is an IPv6 record stored under the
dotted string 10.10.10.10, as the table-driven binding leaves it when the
table's `vmi_if0_ipv6_ipaddr` holds that string. -/
def eth0OddV6 : HypEthInterface :=
  { objectPath := "/xyz/openbmc_project/network/hypervisor/eth0", dhcpConf := DHCPConf.none,
    addrs := [("10.10.10.10",
      mkRec "eth0" "if0" "ipv6" Protocol.IPv6 "10.10.10.10" 64 "fe80::fe")],
    staged := [] }

/-- The address family that `ip` hands to the validators. -/
def familyOf (protType : Protocol) : Int :=
  if protType = Protocol.IPv4 then AF_INET else AF_INET6

/-- Spec-side table of C3: the mode left when only the component of `p` is
cleared from mode `m`. -/
def specClearComponent (p : Protocol) (m : DHCPConf) : DHCPConf :=
  match m, p with
  | DHCPConf.both, Protocol.IPv4 => DHCPConf.v6
  | DHCPConf.both, Protocol.IPv6 => DHCPConf.v4
  | DHCPConf.v4, Protocol.IPv4 => DHCPConf.none
  | DHCPConf.v6, Protocol.IPv6 => DHCPConf.none
  | DHCPConf.v4, Protocol.IPv6 => DHCPConf.v4
  | DHCPConf.v6, Protocol.IPv4 => DHCPConf.v6
  | DHCPConf.none, _ => DHCPConf.none

/-- Spec-side reading of a mode as its component for protocol `p`. -/
def specComponent (m : DHCPConf) (p : Protocol) : Bool :=
  match m, p with
  | DHCPConf.both, _ => true
  | DHCPConf.v4, Protocol.IPv4 => true
  | DHCPConf.v6, Protocol.IPv6 => true
  | _, _ => false

/-! ## Vocabulary of the reconciliation claims -/

/-- The three sync-relevant fields of an (interface, protocol) pair. -/
inductive SyncField where
  | ipaddr
  | gateway
  | prefixLength
  deriving DecidableEq, Repr

/-- The protocol part of an attribute key. -/
def protocolName : Protocol → String
  | Protocol.IPv4 => "ipv4"
  | Protocol.IPv6 => "ipv6"

/-- The suffix that the handler tests a snapshot key against, per field. -/
def fieldSuffix (intf protocol : String) : SyncField → String
  | SyncField.ipaddr => intf ++ "_" ++ protocol ++ "_ipaddr"
  | SyncField.gateway => intf ++ "_" ++ protocol ++ "_gateway"
  | SyncField.prefixLength => intf ++ "_" ++ protocol ++ "_prefix_length"

/-- The managed key `vmi_<if>_<protocol>_<field>`. -/
def managedKey (i : Nat) (p : Protocol) (fld : SyncField) : String :=
  "vmi_" ++ fieldSuffix (intfName i) (protocolName p) fld

/-- The managed key `vmi_<if>_<protocol>_method`. -/
def methodKey (i : Nat) (p : Protocol) : String :=
  "vmi_" ++ intfName i ++ "_" ++ protocolName p ++ "_method"

/-- Position of the pair (`i`, `p`) in the order in which the handler visits
the pairs: if0/ipv4, if0/ipv6, if1/ipv4, if1/ipv6. -/
def pairIndex (i : Nat) (p : Protocol) : Nat :=
  2 * i + (match p with
    | Protocol.IPv4 => 0
    | Protocol.IPv6 => 1)

/-- The mode test of the handler does not fire for interface number `i` on the
method value read for protocol `p`: the value is a string, the interface is
registered, and it is neither `IPv4DHCP` with local mode `none` nor
`IPv4Static` with a local mode other than `none`. -/
def ModeCalm (bios : BiosTable) (mgr : HypNetworkMgr) (i : Nat) (p : Protocol) : Prop :=
  ∃ (method : String) (ethObj : HypEthInterface),
    getAttrFromBiosTable bios (methodKey i p) = AttrValue.str method ∧
    StdMap.find mgr.ethIntfList (ethLabel i) = some ethObj ∧
    ¬ (ethObj.dhcpConf = DHCPConf.none ∧ method = "IPv4DHCP") ∧
    ¬ (ethObj.dhcpConf ≠ DHCPConf.none ∧ method = "IPv4Static")

/-- The mode test of the handler has no effect for interface number `i` and
protocol `p`, possibly because the method read or the interface lookup ends
the pass there. -/
def ModeIdle (bios : BiosTable) (mgr : HypNetworkMgr) (i : Nat) (p : Protocol) : Prop :=
  ∀ (method : String) (ethObj : HypEthInterface),
    getAttrFromBiosTable bios (methodKey i p) = AttrValue.str method →
    StdMap.find mgr.ethIntfList (ethLabel i) = some ethObj →
    ¬ (ethObj.dhcpConf = DHCPConf.none ∧ method = "IPv4DHCP") ∧
    ¬ (ethObj.dhcpConf ≠ DHCPConf.none ∧ method = "IPv4Static")

/-- No divergence at snapshot entry `e` for the pair (`intf`, `protocol`): if
the key passes one of the three suffix tests, the freshly read value is the
cached one. -/
def EntrySame (bios : BiosTable) (intf protocol : String) (e : String × AttrValue) : Prop :=
  ∀ fld ∈ [SyncField.ipaddr, SyncField.gateway, SyncField.prefixLength],
    ends_with e.1 (fieldSuffix intf protocol fld) = true →
      getAttrFromBiosTable bios e.1 = e.2

instance (bios : BiosTable) (intf protocol : String) (e : String × AttrValue) :
    Decidable (EntrySame bios intf protocol e) :=
  inferInstanceAs (Decidable (∀ fld ∈ [SyncField.ipaddr, SyncField.gateway,
    SyncField.prefixLength], ends_with e.1 (fieldSuffix intf protocol fld) = true →
      getAttrFromBiosTable bios e.1 = e.2))

/-- Entry `e` lets the scan for (`intf`, `protocol`) pass on: where its key
passes a suffix test, the cached value has the field's type (a string, not
empty, for an address or gateway; an integer for a prefix length) and equals
the freshly read value. -/
def EntryQuiet (bios : BiosTable) (intf protocol : String) (e : String × AttrValue) : Prop :=
  (∀ fld ∈ [SyncField.ipaddr, SyncField.gateway],
    ends_with e.1 (fieldSuffix intf protocol fld) = true →
      (getString e.2).isSome = true ∧ e.2 ≠ AttrValue.str "" ∧
        getAttrFromBiosTable bios e.1 = e.2) ∧
  (ends_with e.1 (fieldSuffix intf protocol SyncField.prefixLength) = true →
    (getInt64 e.2).isSome = true ∧ getAttrFromBiosTable bios e.1 = e.2)

instance (bios : BiosTable) (intf protocol : String) (e : String × AttrValue) :
    Decidable (EntryQuiet bios intf protocol e) :=
  inferInstanceAs (Decidable (
    (∀ fld ∈ [SyncField.ipaddr, SyncField.gateway],
      ends_with e.1 (fieldSuffix intf protocol fld) = true →
        (getString e.2).isSome = true ∧ e.2 ≠ AttrValue.str "" ∧
          getAttrFromBiosTable bios e.1 = e.2) ∧
    (ends_with e.1 (fieldSuffix intf protocol SyncField.prefixLength) = true →
      (getInt64 e.2).isSome = true ∧ getAttrFromBiosTable bios e.1 = e.2)))

/-- The cached value `v` of a field and the freshly read value `fresh` are of
the field's type and differ where the handler compares them: as strings, with
`v` non-empty, for an address or gateway; as `uint8_t` for a prefix length. -/
def Diverges (fld : SyncField) (v fresh : AttrValue) : Prop :=
  match fld with
  | SyncField.prefixLength =>
    ∃ c f : Int, v = AttrValue.int c ∧ fresh = AttrValue.int f ∧ toUint8 f ≠ toUint8 c
  | _ => ∃ c f : String, v = AttrValue.str c ∧ c ≠ "" ∧ fresh = AttrValue.str f ∧ f ≠ c

/-- The setter the handler applies to the record for field `fld` and the
freshly read value. -/
def setField (fld : SyncField) (fresh : AttrValue) (ipObj : HypIPAddress) : HypIPAddress :=
  match fld, fresh with
  | SyncField.ipaddr, AttrValue.str a => { ipObj with address := a }
  | SyncField.gateway, AttrValue.str g => { ipObj with gateway := g }
  | SyncField.prefixLength, AttrValue.int n => { ipObj with prefixLength := toUint8 n }
  | _, _ => ipObj

/-- The value the handler stores in the cached snapshot for field `fld`: the
fresh string, or the fresh prefix length as converted to `uint8_t`. -/
def cachedAfter (fld : SyncField) (fresh : AttrValue) : AttrValue :=
  match fld, fresh with
  | SyncField.prefixLength, AttrValue.int n => AttrValue.int (toUint8 n).val
  | _, v => v

/-- The type name the handler passes to `setIpPropsInMap` for field `fld`. -/
def fieldType : SyncField → String
  | SyncField.prefixLength => "Integer"
  | _ => "String"

/-- The (interface number, protocol) pairs in the order the handler visits them. -/
def allPairs : List (Nat × Protocol) :=
  [(0, Protocol.IPv4), (0, Protocol.IPv6), (1, Protocol.IPv4), (1, Protocol.IPv6)]

/-- The pairs the handler visits before the pair (`i`, `p`). -/
def pairsBefore (i : Nat) (p : Protocol) : List (Nat × Protocol) :=
  allPairs.filter (fun q => decide (pairIndex q.1 q.2 < pairIndex i p))

/-- The pairs the handler visits after the pair (`i`, `p`). -/
def pairsAfter (i : Nat) (p : Protocol) : List (Nat × Protocol) :=
  allPairs.filter (fun q => decide (pairIndex i p < pairIndex q.1 q.2))

/-- The first key of an address set that passes the handler's protocol test. -/
def firstKey (protocol : String) : StdMap HypIPAddress → Option String
  | [] => none
  | (k, _) :: t => if keyOfProtocol protocol k then some k else firstKey protocol t

/-- The address sets of all registered interfaces, by label. -/
def recordsOf (mgr : HypNetworkMgr) : StdMap (StdMap HypIPAddress) :=
  mgr.ethIntfList.map (fun e => (e.1, e.2.addrs))

/-- A change of one of the fields address, gateway, prefix length. -/
inductive FieldChange where
  | address (a : String)
  | gateway (g : String)
  | prefixLength (l : uint8_t)
  deriving DecidableEq, Repr

/-- The record after a field change. -/
def FieldChange.apply : FieldChange → HypIPAddress → HypIPAddress
  | FieldChange.address a, r => { r with address := a }
  | FieldChange.gateway g, r => { r with gateway := g }
  | FieldChange.prefixLength l, r => { r with prefixLength := l }

/-- Address records and cached snapshot of `m1` are those of `m0`. -/
def SameData (m0 m1 : HypNetworkMgr) : Prop :=
  recordsOf m1 = recordsOf m0 ∧ m1.biosTableAttrs = m0.biosTableAttrs

/-- From `m0` to `m1`, at most one field of at most one address record has
changed, and at most one entry of the cached snapshot. -/
def AtMostOneChange (m0 m1 : HypNetworkMgr) : Prop :=
  (recordsOf m1 = recordsOf m0 ∨
    ∃ (label k : String) (ch : FieldChange),
      recordsOf m1 =
        StdMap.modify (recordsOf m0) label (fun a => StdMap.modify a k ch.apply)) ∧
  (m1.biosTableAttrs = m0.biosTableAttrs ∨
    ∃ (key : String) (val : AttrValue),
      m1.biosTableAttrs = StdMap.modify m0.biosTableAttrs key (fun _ => val))

/-- Outcomes of one block of the scan: it passes on, or it ends the pass
either without any change or after one application of `applyChange` with a
single-field setter. -/
def BlockOutcome (label : String) (ethObj : HypEthInterface) (protocol key : String)
    (m : HypNetworkMgr) (r : Flow) : Prop :=
  r = Flow.next m ∨
    (r.isNext = false ∧
      (r.mgr = m ∨
        ∃ (ch : FieldChange) (val : AttrValue) (ty : String),
          r.mgr = applyChange m label ethObj protocol ch.apply key val ty))

/-! ## Vocabulary of the address-set claims -/

/-- Every entry of the address set is stored under the address of its record. -/
def Keyed (m : StdMap HypIPAddress) : Prop := ∀ e ∈ m, e.2.address = e.1

/-- No two entries of the address set hold records with the same address. -/
def DistinctAddresses (m : StdMap HypIPAddress) : Prop :=
  m.Pairwise (fun a b => a.2.address ≠ b.2.address)

/-- The number of records of protocol `p` in the address set. -/
def countOfType (p : Protocol) (m : StdMap HypIPAddress) : Nat :=
  (m.filter (fun e => decide (e.2.type = p))).length

/-- The entries of the address set whose record is not of protocol `p`. -/
def othersOf (p : Protocol) (m : StdMap HypIPAddress) : StdMap HypIPAddress :=
  m.filter (fun e => decide (e.2.type ≠ p))

/-- The interface state carried by a round of `createIPAddressObjects`. -/
def HypEthInterface.CreateFlow.st : HypEthInterface.CreateFlow → HypEthInterface
  | HypEthInterface.CreateFlow.next s _ => s
  | HypEthInterface.CreateFlow.raise s => s

/-- One operation on an interface among those that store every record they
touch under its address: `ip`, `deleteObject`, `createIPAddressObjects` on a
snapshot of at least 17 entries (its table-driven branch), and
`updateIPAddress(ip, updatedIp)` when the record under `ip` already has the
address `updatedIp`. -/
inductive AddrStep (env : Env) : HypEthInterface → HypEthInterface → Prop where
  | ip (s : HypEthInterface) (p : Protocol) (a : String) (l : uint8_t) (g : String) :
      AddrStep env s (HypEthInterface.ip env s p a l g).state
  | deleteObject (s : HypEthInterface) (k : String) :
      AddrStep env s (HypEthInterface.deleteObject s k)
  | createIPAddressObjects (s : HypEthInterface) (attrs : StdMap AttrValue)
      (u : HypEthInterface.Indeterminate) (h : 17 ≤ attrs.length) :
      AddrStep env s (HypEthInterface.createIPAddressObjects s attrs u).st
  | updateIPAddress (s : HypEthInterface) (ip updatedIp : String)
      (h : ∀ r, StdMap.find s.addrs ip = some r → r.address = updatedIp) :
      AddrStep env s (HypEthInterface.updateIPAddress s ip updatedIp)

/-- The field name carried by an outcome of `ip` (empty on success). -/
def HypEthInterface.IpResult.argumentName : HypEthInterface.IpResult → String
  | HypEthInterface.IpResult.ok _ _ => ""
  | HypEthInterface.IpResult.InvalidArgument n _ _ => n

/-- The field value carried by an outcome of `ip` (empty on success). -/
def HypEthInterface.IpResult.argumentValue : HypEthInterface.IpResult → String
  | HypEthInterface.IpResult.ok _ _ => ""
  | HypEthInterface.IpResult.InvalidArgument _ v _ => v

/-- Spec-side reading of "the last segment of an object path": `path` is
`seg` itself, or ends in `/` followed by `seg`, where `seg` has no slash. -/
def LastSegment (path seg : String) : Prop :=
  '/' ∉ seg.data ∧ (path = seg ∨ ∃ dir : String, path = dir ++ "/" ++ seg)

/-- Spec-side pair of flags of C19 for a mode. -/
def specFlags : DHCPConf → Bool × Bool
  | DHCPConf.none => (false, false)
  | DHCPConf.v4 => (true, false)
  | DHCPConf.v6 => (false, true)
  | DHCPConf.both => (true, true)

/-- The key of snapshot entry `e` passes none of the suffix tests that the
handler applies for the managed interfaces, protocols and fields. -/
def NoSuffix (e : String × AttrValue) : Prop :=
  ∀ q ∈ allPairs, ∀ fld ∈ [SyncField.ipaddr, SyncField.gateway, SyncField.prefixLength],
    ends_with e.1 (fieldSuffix (intfName q.1) (protocolName q.2) fld) = false

/-! ## Address objects behind shared pointers -/

/-- Identity of an object owned through `std::shared_ptr`: its rank in the
order of allocation. -/
abbrev ObjId := Nat

/-- The member `addrs` with its pointers explicit: `addrs` maps a key to the
identity of the object that the stored shared pointer owns, and `heap` holds
the content of every object allocated so far, by identity, whether the map
still points to it or only another holder does. -/
structure SharedAddrs where
  addrs : StdMap ObjId
  heap : List HypIPAddress
  deriving DecidableEq, Repr

/-- The expression `std::make_shared<HypIPAddress>(...)`: a new object, whose
identity no object had before, and the heap that holds it. -/
def make_shared (heap : List HypIPAddress) (obj : HypIPAddress) : ObjId × List HypIPAddress :=
  (heap.length, heap ++ [obj])

/-- The address set read through its pointers: each key with the content of
the object stored under it. -/
def viewOf (heap : List HypIPAddress) (addrs : StdMap ObjId) : StdMap HypIPAddress :=
  addrs.filterMap (fun e => (heap[e.2]?).map (fun o => (e.1, o)))

/-- The key at which the search loop of `ip` stops, with `ipObj->type()` read
through the pointer stored in the entry. -/
def firstOfTypeShared (protType : Protocol) (heap : List HypIPAddress) :
    StdMap ObjId → Option String
  | [] => none
  | (k, id) :: t =>
    match heap[id]? with
    | some ipObj => if ipObj.type = protType then some k else firstOfTypeShared protType heap t
    | none => firstOfTypeShared protType heap t

/-- Lines 619-663 of `ip` on an interface with object path `objectPath` and
label `intfLabel`, with the pointers explicit: the node found for `protType`
is extracted and its handle dropped, and `addrs[ipaddress]` is assigned the
pointer returned by `std::make_shared`. -/
def ipStoreShared (objectPath intfLabel : String) (s : SharedAddrs) (protType : Protocol)
    (ipaddress : String) (prefixLength : uint8_t) (gateway : String) : SharedAddrs :=
  let origin := AddressOrigin.Static
  let ipObjId := "addr0"
  let protocol := match protType with
    | Protocol.IPv4 => "ipv4"
    | Protocol.IPv6 => "ipv6"
  let objPath := objectPath ++ "/" ++ protocol ++ "/" ++ ipObjId
  let addrs1 := match firstOfTypeShared protType s.heap s.addrs with
    | some k => StdMap.erase s.addrs k
    | none => s.addrs
  let made := make_shared s.heap
    { type := protType, address := ipaddress, origin := origin,
      prefixLength := prefixLength, gateway := gateway,
      objectPath := objPath, intf := intfLabel }
  { addrs := StdMap.insert_or_assign addrs1 ipaddress made.1, heap := made.2 }

/-- Every pointer of the address set owns an allocated object. -/
def SharedAddrs.Valid (s : SharedAddrs) : Prop := ∀ e ∈ s.addrs, e.2 < s.heap.length

/-- The address set of `sampleEth0` with its two objects on the heap: the
IPv4 record is object 0 and the IPv6 record is object 1. -/
def sampleShared : SharedAddrs :=
  { addrs := [("10.10.10.10", 0), ("fe80::1", 1)],
    heap := [recV4, mkRec "eth0" "if0" "ipv6" Protocol.IPv6 "fe80::1" 64 "fe80::fe"] }

/-! ## Vocabulary of the binding and key claims -/

/-- The four attributes of a managed (interface, protocol) pair. -/
inductive KeyField where
  | method
  | ipaddr
  | prefixLength
  | gateway
  deriving DecidableEq, Repr

/-- The field part of an attribute key. -/
def fieldName : KeyField → String
  | KeyField.method => "method"
  | KeyField.ipaddr => "ipaddr"
  | KeyField.prefixLength => "prefix_length"
  | KeyField.gateway => "gateway"

/-- The key `"vmi_" + intf + "_" + protocol + "_" + field` that the handler
and `createIPAddressObjects` compose. -/
def composedKey (i : Nat) (p : Protocol) (f : KeyField) : String :=
  "vmi_" ++ intfName i ++ "_" ++ protocolName p ++ "_" ++ fieldName f

/-- The suffix `intf + "_" + protocol + "_" + field` of the handler's tests. -/
def keySuffix (i : Nat) (p : Protocol) (f : KeyField) : String :=
  intfName i ++ "_" ++ protocolName p ++ "_" ++ fieldName f

/-- The 16 triples (interface number, protocol, field) of the managed keys. -/
def allTriples : List (Nat × Protocol × KeyField) :=
  allPairs.flatMap (fun q =>
    [KeyField.method, KeyField.ipaddr, KeyField.prefixLength, KeyField.gateway].map
      (fun f => (q.1, q.2, f)))

/-- Interface `eth0` in mode `m` with an empty address set. -/
def eth0Empty (m : DHCPConf) : HypEthInterface :=
  { objectPath := "/xyz/openbmc_project/network/hypervisor/eth0",
    dhcpConf := m, addrs := [], staged := [] }

/-- The snapshot `sampleAttrs` without `vmi_hostname`: exactly the 16 managed
keys. -/
def attrsManagedOnly : StdMap AttrValue := StdMap.erase sampleAttrs "vmi_hostname"

/-- The snapshot `sampleAttrs` with the method attributes of if0 set to `m4`
for ipv4 and `m6` for ipv6. -/
def attrsMethods (m4 m6 : String) : StdMap AttrValue :=
  attrsWith (attrsWith sampleAttrs "vmi_if0_ipv4_method" (AttrValue.str m4))
    "vmi_if0_ipv6_method" (AttrValue.str m6)

/-- Spec-side origin method of C24: chosen by the record's protocol and by
whether the new mode is `none`, not by which protocol the mode enables. -/
def specOriginMethod (type : Protocol) (value : DHCPConf) : String :=
  if value = DHCPConf.none then
    (if type = Protocol.IPv4 then "IPv4Static" else "IPv6Static")
  else
    (if type = Protocol.IPv4 then "IPv4DHCP" else "IPv6DHCP")

/-- The entries of a pending-attribute set are exactly the three writes of
C22: `kA`, `kG`, `kP` with the address, gateway and prefix length. -/
def ThreeWrites (pending : PendingAttributesType) (kA kG kP : String) (ipaddress : String)
    (prefixLength : uint8_t) (gateway : String) : Prop :=
  StdMap.find pending kA = some (biosStrType, AttrValue.str ipaddress) ∧
  StdMap.find pending kG = some (biosStrType, AttrValue.str gateway) ∧
  StdMap.find pending kP = some (biosIntType, AttrValue.int prefixLength.val) ∧
  pending.length = 3 ∧
  ∀ e ∈ pending, e.1 = kA ∨ e.1 = kG ∨ e.1 = kP

/-- Modelled from the spec: the key mapping `HypIPAddress::mapDbusToBiosAttr`
(defined in `hyp_ip_interface.cpp`, not part of the sources at hand) is a
"collision-free translation": for every record it sends the property names
`address`, `gateway` and `prefixLength` to three different keys. -/
def CollisionFree (env : Env) : Prop :=
  ∀ r : HypIPAddress,
    env.mapDbusToBiosAttr r "address" ≠ env.mapDbusToBiosAttr r "gateway" ∧
    env.mapDbusToBiosAttr r "address" ≠ env.mapDbusToBiosAttr r "prefixLength" ∧
    env.mapDbusToBiosAttr r "gateway" ≠ env.mapDbusToBiosAttr r "prefixLength"

/-! ## Lemmas on maps and on the mutation path -/

namespace StdMap

variable {V : Type}

theorem find_insert_or_assign_self (m : StdMap V) (k : String) (v : V) :
    find (insert_or_assign m k v) k = some v := by
  induction m with
  | nil => simp [insert_or_assign, find]
  | cons hd t ih =>
    obtain ⟨k', v'⟩ := hd
    by_cases h1 : k' = k
    · simp [insert_or_assign, find, h1]
    · by_cases h2 : keyLt k k' = true
      · simp [insert_or_assign, find, h1, h2]
      · simp [insert_or_assign, find, h1, h2, ih]

theorem modify_const_of_find (m : StdMap V) (k : String) (v : V) (h : find m k = some v) :
    modify m k (fun _ => v) = m := by
  induction m with
  | nil => rfl
  | cons hd t ih =>
    obtain ⟨k', v'⟩ := hd
    by_cases h1 : k' = k
    · simp only [find, h1, if_true, Option.some.injEq] at h
      simp [modify, h1, h]
    · simp only [find, h1, if_false] at h
      simp [modify, h1, ih h]

theorem modify_congr_of_find (m : StdMap V) (k : String) (v : V) (f g : V → V)
    (h : find m k = some v) (hfg : f v = g v) : modify m k f = modify m k g := by
  induction m with
  | nil => rfl
  | cons hd t ih =>
    obtain ⟨k', v'⟩ := hd
    by_cases h1 : k' = k
    · simp only [find, h1, if_true, Option.some.injEq] at h
      subst h
      simp [modify, h1, hfg]
    · simp only [find, h1, if_false] at h
      simp [modify, h1, ih h]

theorem find_modify (m : StdMap V) (k : String) (f : V → V) :
    find (modify m k f) k = (find m k).map f := by
  induction m with
  | nil => rfl
  | cons hd t ih =>
    obtain ⟨k', v'⟩ := hd
    by_cases h1 : k' = k
    · simp [modify, find, h1]
    · simp [modify, find, h1, ih]

theorem modify_self (m : StdMap V) (k : String) : modify m k (fun v => v) = m := by
  induction m with
  | nil => rfl
  | cons hd t ih =>
    obtain ⟨k', v'⟩ := hd
    by_cases h1 : k' = k
    · simp [modify, h1]
    · simp [modify, h1, ih]

theorem map_modify {W : Type} (m : StdMap V) (k : String) (f : V → V) (g : V → W)
    (f' : W → W) (h : ∀ v, g (f v) = f' (g v)) :
    (modify m k f).map (fun e => (e.1, g e.2)) =
      modify (m.map (fun e => (e.1, g e.2))) k f' := by
  induction m with
  | nil => rfl
  | cons hd t ih =>
    obtain ⟨k', v'⟩ := hd
    by_cases h1 : k' = k
    · simp [modify, h1, h]
    · simp [modify, h1, ih]

end StdMap

/-! ## Lemmas on loops with early exit -/

theorem forEach_stable {α : Type} (body : α → HypNetworkMgr → Flow) (l : List α)
    (m : HypNetworkMgr) (h : ∀ a ∈ l, (body a m).mgr = m) : (forEach body l m).mgr = m := by
  induction l with
  | nil => rfl
  | cons a rest ih =>
    have ha := h a (List.mem_cons_self a rest)
    have hrest : ∀ b ∈ rest, (body b m).mgr = m := fun b hb => h b (List.mem_cons_of_mem a hb)
    unfold forEach
    cases hb : body a m with
    | next m1 =>
      rw [hb] at ha
      simp only [Flow.mgr] at ha
      subst ha
      exact ih hrest
    | ret m1 => rw [hb] at ha; exact ha
    | raise m1 => rw [hb] at ha; exact ha

theorem forEach_skip {α : Type} (body : α → HypNetworkMgr → Flow) (pre rest : List α)
    (m : HypNetworkMgr) (h : ∀ a ∈ pre, body a m = Flow.next m) :
    forEach body (pre ++ rest) m = forEach body rest m := by
  induction pre with
  | nil => rfl
  | cons a pre1 ih =>
    have ha := h a (List.mem_cons_self a pre1)
    have hp : ∀ b ∈ pre1, body b m = Flow.next m := fun b hb => h b (List.mem_cons_of_mem a hb)
    simp only [List.cons_append, forEach, ha]
    exact ih hp

theorem forEach_prefix_stable {α : Type} (body : α → HypNetworkMgr → Flow) (pre rest : List α)
    (m : HypNetworkMgr) (h : ∀ a ∈ pre, (body a m).mgr = m) :
    ((forEach body (pre ++ rest) m).isNext = false ∧ (forEach body (pre ++ rest) m).mgr = m) ∨
      forEach body (pre ++ rest) m = forEach body rest m := by
  induction pre with
  | nil => exact Or.inr rfl
  | cons a pre1 ih =>
    have ha := h a (List.mem_cons_self a pre1)
    have hp : ∀ b ∈ pre1, (body b m).mgr = m := fun b hb => h b (List.mem_cons_of_mem a hb)
    simp only [List.cons_append, forEach]
    cases hb : body a m with
    | next m1 =>
      rw [hb] at ha
      simp only [Flow.mgr] at ha
      subst ha
      exact ih hp
    | ret m1 => rw [hb] at ha; exact Or.inl ⟨rfl, ha⟩
    | raise m1 => rw [hb] at ha; exact Or.inl ⟨rfl, ha⟩

theorem forEach_first_stop {α : Type} (body : α → HypNetworkMgr → Flow) (l : List α)
    (m : HypNetworkMgr) (a : α) (ha : a ∈ l)
    (hq : ∀ e ∈ l, e ≠ a → body e m = Flow.next m) (hstop : (body a m).isNext = false) :
    forEach body l m = body a m := by
  induction l with
  | nil => cases ha
  | cons b rest ih =>
    by_cases hba : b = a
    · subst hba
      unfold forEach
      cases hb : body b m with
      | next m1 => rw [hb] at hstop; cases hstop
      | ret m1 => rfl
      | raise m1 => rfl
    · have hb := hq b (List.mem_cons_self b rest) hba
      have ha' : a ∈ rest := by
        rcases List.mem_cons.mp ha with h | h
        · exact absurd h.symm hba
        · exact h
      simp only [forEach, hb]
      exact ih ha' (fun e he hne => hq e (List.mem_cons_of_mem b he) hne)

theorem forEach_cons_stop {α : Type} (body : α → HypNetworkMgr → Flow) (a : α) (rest : List α)
    (m : HypNetworkMgr) (hstop : (body a m).isNext = false) :
    forEach body (a :: rest) m = body a m := by
  unfold forEach
  cases hb : body a m with
  | next m1 => rw [hb] at hstop; cases hstop
  | ret m1 => rfl
  | raise m1 => rfl

theorem forEach_invariant {α : Type} (body : α → HypNetworkMgr → Flow)
    (I Q : HypNetworkMgr → Prop)
    (hbody : ∀ a m, I m → (∀ m1, body a m = Flow.next m1 → I m1) ∧
      ((body a m).isNext = false → Q (body a m).mgr))
    (l : List α) (m : HypNetworkMgr) (hm : I m) :
    (∀ m1, forEach body l m = Flow.next m1 → I m1) ∧
      ((forEach body l m).isNext = false → Q (forEach body l m).mgr) := by
  induction l generalizing m with
  | nil =>
    refine ⟨?_, ?_⟩
    · intro m1 h
      simp only [forEach, Flow.next.injEq] at h
      exact h ▸ hm
    · intro h
      simp [forEach, Flow.isNext] at h
  | cons a rest ih =>
    obtain ⟨h1, h2⟩ := hbody a m hm
    unfold forEach
    cases hb : body a m with
    | next m1 => exact ih m1 (h1 m1 hb)
    | ret m1 =>
      rw [hb] at h2
      exact ⟨fun _ h => (by cases h), fun _ => h2 rfl⟩
    | raise m1 =>
      rw [hb] at h2
      exact ⟨fun _ h => (by cases h), fun _ => h2 rfl⟩

/-! ## Lemmas on the scan of the cached snapshot -/

theorem firstKey_passes (protocol : String) (m : StdMap HypIPAddress) (k0 : String)
    (h : firstKey protocol m = some k0) : keyOfProtocol protocol k0 = true := by
  induction m with
  | nil => cases h
  | cons hd t ih =>
    obtain ⟨k, o⟩ := hd
    by_cases hk : keyOfProtocol protocol k = true
    · simp only [firstKey, hk, if_true, Option.some.injEq] at h
      exact h ▸ hk
    · simp only [firstKey, hk] at h
      exact ih h

theorem updateFirst_of_firstKey (protocol : String) (f : HypIPAddress → HypIPAddress)
    (m : StdMap HypIPAddress) (k0 : String) (h : firstKey protocol m = some k0) :
    updateFirst protocol f m = some (StdMap.modify m k0 f) := by
  induction m with
  | nil => cases h
  | cons hd t ih =>
    obtain ⟨k, o⟩ := hd
    by_cases hk : keyOfProtocol protocol k = true
    · simp only [firstKey, hk, if_true, Option.some.injEq] at h
      subst h
      simp [updateFirst, hk, StdMap.modify]
    · have hk0 := firstKey_passes protocol t k0 (by simpa only [firstKey, hk] using h)
      have hne : k ≠ k0 := fun e => hk (e ▸ hk0)
      simp only [firstKey, hk] at h
      simp [updateFirst, hk, StdMap.modify, hne, ih h]

theorem updateFirst_cases (protocol : String) (f : HypIPAddress → HypIPAddress)
    (m : StdMap HypIPAddress) :
    updateFirst protocol f m = none ∨
      ∃ k0, updateFirst protocol f m = some (StdMap.modify m k0 f) := by
  cases h : firstKey protocol m with
  | some k0 => exact Or.inr ⟨k0, updateFirst_of_firstKey protocol f m k0 h⟩
  | none =>
    left
    induction m with
    | nil => rfl
    | cons hd t ih =>
      obtain ⟨k, o⟩ := hd
      by_cases hk : keyOfProtocol protocol k = true
      · simp [firstKey, hk] at h
      · simp only [firstKey, hk] at h
        simp [updateFirst, hk, ih h]

theorem checkIpaddr_outcome (bios : BiosTable) (intf protocol label : String)
    (ethObj : HypEthInterface) (e : String × AttrValue) (m : HypNetworkMgr) :
    BlockOutcome label ethObj protocol e.1 m
      (checkIpaddr bios intf protocol label ethObj e m) := by
  unfold checkIpaddr BlockOutcome
  split
  · split
    · exact Or.inr ⟨rfl, Or.inl rfl⟩
    · split
      · exact Or.inr ⟨rfl, Or.inl rfl⟩
      · split
        · exact Or.inr ⟨rfl, Or.inl rfl⟩
        · next ipAddr _ =>
          split
          · exact Or.inr ⟨rfl, Or.inr ⟨FieldChange.address ipAddr, _, _, rfl⟩⟩
          · exact Or.inl rfl
  · exact Or.inl rfl

theorem checkGateway_outcome (bios : BiosTable) (intf protocol label : String)
    (ethObj : HypEthInterface) (e : String × AttrValue) (m : HypNetworkMgr) :
    BlockOutcome label ethObj protocol e.1 m
      (checkGateway bios intf protocol label ethObj e m) := by
  unfold checkGateway BlockOutcome
  split
  · split
    · exact Or.inr ⟨rfl, Or.inl rfl⟩
    · split
      · exact Or.inr ⟨rfl, Or.inl rfl⟩
      · split
        · exact Or.inr ⟨rfl, Or.inl rfl⟩
        · next gateway _ =>
          split
          · exact Or.inr ⟨rfl, Or.inr ⟨FieldChange.gateway gateway, _, _, rfl⟩⟩
          · exact Or.inl rfl
  · exact Or.inl rfl

theorem checkPrefixLength_outcome (bios : BiosTable) (intf protocol label : String)
    (ethObj : HypEthInterface) (e : String × AttrValue) (m : HypNetworkMgr) :
    BlockOutcome label ethObj protocol e.1 m
      (checkPrefixLength bios intf protocol label ethObj e m) := by
  unfold checkPrefixLength BlockOutcome
  split
  · split
    · exact Or.inr ⟨rfl, Or.inl rfl⟩
    · split
      · exact Or.inr ⟨rfl, Or.inl rfl⟩
      · next fresh _ =>
        simp only []
        split
        · exact Or.inr ⟨rfl, Or.inr ⟨FieldChange.prefixLength (toUint8 fresh), _, _, rfl⟩⟩
        · exact Or.inl rfl
  · exact Or.inl rfl

theorem checkEntry_outcome (bios : BiosTable) (intf protocol label : String)
    (ethObj : HypEthInterface) (e : String × AttrValue) (m : HypNetworkMgr) :
    BlockOutcome label ethObj protocol e.1 m
      (checkEntry bios intf protocol label ethObj e m) := by
  unfold checkEntry
  rcases checkIpaddr_outcome bios intf protocol label ethObj e m with h1 | h1
  · rw [h1]
    simp only []
    rcases checkGateway_outcome bios intf protocol label ethObj e m with h2 | h2
    · rw [h2]
      exact checkPrefixLength_outcome bios intf protocol label ethObj e m
    · cases hg : checkGateway bios intf protocol label ethObj e m with
      | next m1 => rw [hg] at h2; cases h2.1
      | ret m1 => rw [hg] at h2; exact Or.inr h2
      | raise m1 => rw [hg] at h2; exact Or.inr h2
  · cases hg : checkIpaddr bios intf protocol label ethObj e m with
    | next m1 => rw [hg] at h1; cases h1.1
    | ret m1 => rw [hg] at h1; exact Or.inr h1
    | raise m1 => rw [hg] at h1; exact Or.inr h1

namespace HypEthInterface

theorem dhcpEnabled_dhcpConf (env : Env) (s : HypEthInterface) (value : DHCPConf) :
    (dhcpEnabled env s value).dhcpConf = value := by
  unfold dhcpEnabled
  split
  · next h => exact h.symm
  · rfl

theorem dhcpEnabled_addrs (env : Env) (s : HypEthInterface) (value : DHCPConf) :
    (dhcpEnabled env s value).addrs = s.addrs := by
  unfold dhcpEnabled
  split <;> rfl

theorem dhcpEnabled_objectPath (env : Env) (s : HypEthInterface) (value : DHCPConf) :
    (dhcpEnabled env s value).objectPath = s.objectPath := by
  unfold dhcpEnabled
  split <;> rfl

theorem disableDHCP_dhcpConf (env : Env) (s : HypEthInterface) (p : Protocol) :
    (disableDHCP env s p).dhcpConf = specClearComponent p s.dhcpConf := by
  obtain ⟨op, m, a, st⟩ := s
  cases m <;> cases p <;> simp [disableDHCP, dhcpEnabled, specClearComponent]

theorem disableDHCP_addrs (env : Env) (s : HypEthInterface) (p : Protocol) :
    (disableDHCP env s p).addrs = s.addrs := by
  obtain ⟨op, m, a, st⟩ := s
  cases m <;> cases p <;> simp [disableDHCP, dhcpEnabled]

theorem disableDHCP_objectPath (env : Env) (s : HypEthInterface) (p : Protocol) :
    (disableDHCP env s p).objectPath = s.objectPath := by
  obtain ⟨op, m, a, st⟩ := s
  cases m <;> cases p <;> simp [disableDHCP, dhcpEnabled]

theorem disableDHCP_of_not_enabled (env : Env) (s : HypEthInterface) (p : Protocol)
    (h : isDHCPEnabled s p false = false) : disableDHCP env s p = s := by
  obtain ⟨op, m, a, st⟩ := s
  cases m <;> cases p <;> simp_all [disableDHCP, isDHCPEnabled]

theorem ipEntry_dhcpConf (env : Env) (s : HypEthInterface) (p : Protocol) :
    (ipEntry env s p).dhcpConf = specClearComponent p s.dhcpConf := by
  unfold ipEntry
  split
  · exact disableDHCP_dhcpConf env s p
  · next h =>
    obtain ⟨op, m, a, st⟩ := s
    cases m <;> cases p <;> simp_all [isDHCPEnabled, specClearComponent]

theorem ipEntry_addrs (env : Env) (s : HypEthInterface) (p : Protocol) :
    (ipEntry env s p).addrs = s.addrs := by
  unfold ipEntry
  split
  · exact disableDHCP_addrs env s p
  · rfl

theorem ipEntry_of_not_enabled (env : Env) (s : HypEthInterface) (p : Protocol)
    (h : isDHCPEnabled s p false = false) : ipEntry env s p = s := by
  unfold ipEntry
  split
  · exact disableDHCP_of_not_enabled env s p h
  · rfl

theorem ip_cases (env : Env) (s : HypEthInterface) (p : Protocol) (a : String)
    (l : uint8_t) (g : String) :
    (((env.isValidIP (familyOf p) a = false ∨ env.isValidIP (familyOf p) g = false ∨
          env.isValidPrefix (familyOf p) l = false) ∧
        (ip env s p a l g).failed = true ∧ (ip env s p a l g).state = ipEntry env s p) ∨
      ((env.isValidIP (familyOf p) a = true ∧ env.isValidIP (familyOf p) g = true ∧
          env.isValidPrefix (familyOf p) l = true) ∧
        ip env s p a l g =
          IpResult.ok (ipStore env (ipEntry env s p) p a l g).1
            (ipStore env (ipEntry env s p) p a l g).2)) := by
  unfold ip familyOf
  cases h1 : env.isValidIP (if p = Protocol.IPv4 then AF_INET else AF_INET6) a
  · simp [h1, IpResult.failed, IpResult.state]
  · cases h2 : env.isValidIP (if p = Protocol.IPv4 then AF_INET else AF_INET6) g
    · simp [h1, h2, IpResult.failed, IpResult.state]
    · cases h3 : env.isValidPrefix (if p = Protocol.IPv4 then AF_INET else AF_INET6) l
      · simp [h1, h2, h3, IpResult.failed, IpResult.state]
      · simp [h1, h2, h3]

theorem ip_rejected (env : Env) (s : HypEthInterface) (p : Protocol) (a : String)
    (l : uint8_t) (g : String)
    (h : env.isValidIP (familyOf p) a = false ∨ env.isValidIP (familyOf p) g = false ∨
      env.isValidPrefix (familyOf p) l = false) :
    (ip env s p a l g).failed = true ∧ (ip env s p a l g).state = ipEntry env s p := by
  rcases ip_cases env s p a l g with ⟨_, h2⟩ | ⟨⟨h1, h2, h3⟩, _⟩
  · exact h2
  · simp [h1, h2, h3] at h

theorem ip_accepted (env : Env) (s : HypEthInterface) (p : Protocol) (a : String)
    (l : uint8_t) (g : String)
    (ha : env.isValidIP (familyOf p) a = true) (hg : env.isValidIP (familyOf p) g = true)
    (hl : env.isValidPrefix (familyOf p) l = true) :
    ip env s p a l g =
      IpResult.ok (ipStore env (ipEntry env s p) p a l g).1
        (ipStore env (ipEntry env s p) p a l g).2 := by
  rcases ip_cases env s p a l g with ⟨h, _⟩ | ⟨_, h2⟩
  · simp [ha, hg, hl] at h
  · exact h2

end HypEthInterface

namespace HypEthInterface

theorem ipEntry_objectPath (env : Env) (s : HypEthInterface) (p : Protocol) :
    (ipEntry env s p).objectPath = s.objectPath := by
  unfold ipEntry
  split
  · exact disableDHCP_objectPath env s p
  · rfl

theorem ip_stored_record (env : Env) (s : HypEthInterface) (p : Protocol) (a : String)
    (l : uint8_t) (g : String)
    (ha : env.isValidIP (familyOf p) a = true) (hg : env.isValidIP (familyOf p) g = true)
    (hl : env.isValidPrefix (familyOf p) l = true) :
    (ip env s p a l g).failed = false ∧
    ∃ r : HypIPAddress,
      StdMap.find (ip env s p a l g).state.addrs a = some r ∧
      r.type = p ∧ r.address = a ∧ r.prefixLength = l ∧ r.gateway = g ∧
      r.origin = AddressOrigin.Static := by
  rw [ip_accepted env s p a l g ha hg hl]
  refine ⟨rfl, ?_⟩
  simp only [IpResult.state, ipStore]
  exact ⟨_, StdMap.find_insert_or_assign_self _ _ _, rfl, rfl, rfl, rfl, rfl⟩

end HypEthInterface

theorem checkIpaddr_same (bios : BiosTable) (intf protocol label : String)
    (ethObj : HypEthInterface) (e : String × AttrValue) (m : HypNetworkMgr)
    (h : ends_with e.1 (fieldSuffix intf protocol SyncField.ipaddr) = true →
      getAttrFromBiosTable bios e.1 = e.2) :
    (checkIpaddr bios intf protocol label ethObj e m).mgr = m := by
  obtain ⟨k, v⟩ := e
  unfold checkIpaddr
  by_cases hs : ends_with k (intf ++ "_" ++ protocol ++ "_ipaddr") = true
  · have hv : getAttrFromBiosTable bios k = v := h hs
    simp only [hs, if_true, hv]
    cases v with
    | str c => by_cases hc : c = "" <;> simp [getString, hc, Flow.mgr]
    | int n => simp [getString, Flow.mgr]
  · simp [hs, Flow.mgr]

theorem checkGateway_same (bios : BiosTable) (intf protocol label : String)
    (ethObj : HypEthInterface) (e : String × AttrValue) (m : HypNetworkMgr)
    (h : ends_with e.1 (fieldSuffix intf protocol SyncField.gateway) = true →
      getAttrFromBiosTable bios e.1 = e.2) :
    (checkGateway bios intf protocol label ethObj e m).mgr = m := by
  obtain ⟨k, v⟩ := e
  unfold checkGateway
  by_cases hs : ends_with k (intf ++ "_" ++ protocol ++ "_gateway") = true
  · have hv : getAttrFromBiosTable bios k = v := h hs
    simp only [hs, if_true, hv]
    cases v with
    | str c => by_cases hc : c = "" <;> simp [getString, hc, Flow.mgr]
    | int n => simp [getString, Flow.mgr]
  · simp [hs, Flow.mgr]

theorem checkPrefixLength_same (bios : BiosTable) (intf protocol label : String)
    (ethObj : HypEthInterface) (e : String × AttrValue) (m : HypNetworkMgr)
    (h : ends_with e.1 (fieldSuffix intf protocol SyncField.prefixLength) = true →
      getAttrFromBiosTable bios e.1 = e.2) :
    (checkPrefixLength bios intf protocol label ethObj e m).mgr = m := by
  obtain ⟨k, v⟩ := e
  unfold checkPrefixLength
  by_cases hs : ends_with k (intf ++ "_" ++ protocol ++ "_prefix_length") = true
  · have hv : getAttrFromBiosTable bios k = v := h hs
    simp only [hs, if_true, hv]
    cases v with
    | str c => simp [getInt64, Flow.mgr]
    | int n => simp [getInt64, Flow.mgr]
  · simp [hs, Flow.mgr]

theorem flow_next_of_mgr (r : Flow) (m m1 : HypNetworkMgr) (h : r.mgr = m)
    (hr : r = Flow.next m1) : m1 = m := by
  subst hr
  exact h

theorem checkEntry_same (bios : BiosTable) (intf protocol label : String)
    (ethObj : HypEthInterface) (e : String × AttrValue) (m : HypNetworkMgr)
    (h : EntrySame bios intf protocol e) :
    (checkEntry bios intf protocol label ethObj e m).mgr = m := by
  have h1 := checkIpaddr_same bios intf protocol label ethObj e m
    (h SyncField.ipaddr (by simp))
  have h2 := checkGateway_same bios intf protocol label ethObj e m
    (h SyncField.gateway (by simp))
  have h3 := checkPrefixLength_same bios intf protocol label ethObj e m
    (h SyncField.prefixLength (by simp))
  unfold checkEntry
  cases hr1 : checkIpaddr bios intf protocol label ethObj e m with
  | next m1 =>
    have e1 := flow_next_of_mgr _ m m1 h1 hr1
    subst e1
    simp only []
    cases hr2 : checkGateway bios intf protocol label ethObj e m1 with
    | next m2 =>
      have e2 := flow_next_of_mgr _ m1 m2 h2 hr2
      subst e2
      exact h3
    | ret m2 => rw [hr2] at h2; exact h2
    | raise m2 => rw [hr2] at h2; exact h2
  | ret m1 => rw [hr1] at h1; exact h1
  | raise m1 => rw [hr1] at h1; exact h1

theorem checkEntry_quiet (bios : BiosTable) (intf protocol label : String)
    (ethObj : HypEthInterface) (e : String × AttrValue) (m : HypNetworkMgr)
    (h : EntryQuiet bios intf protocol e) :
    checkEntry bios intf protocol label ethObj e m = Flow.next m := by
  obtain ⟨k, v⟩ := e
  obtain ⟨hs, hp⟩ := h
  have h1 : checkIpaddr bios intf protocol label ethObj (k, v) m = Flow.next m := by
    unfold checkIpaddr
    by_cases hk : ends_with k (intf ++ "_" ++ protocol ++ "_ipaddr") = true
    · obtain ⟨ht, hne, hv⟩ := hs SyncField.ipaddr (by simp) hk
      simp only [hk, if_true, hv]
      cases v with
      | str c =>
        have hc : c ≠ "" := fun hc => hne (by rw [hc])
        simp [getString, hc]
      | int n => simp [getString] at ht
    · simp [hk]
  have h2 : checkGateway bios intf protocol label ethObj (k, v) m = Flow.next m := by
    unfold checkGateway
    by_cases hk : ends_with k (intf ++ "_" ++ protocol ++ "_gateway") = true
    · obtain ⟨ht, hne, hv⟩ := hs SyncField.gateway (by simp) hk
      simp only [hk, if_true, hv]
      cases v with
      | str c =>
        have hc : c ≠ "" := fun hc => hne (by rw [hc])
        simp [getString, hc]
      | int n => simp [getString] at ht
    · simp [hk]
  have h3 : checkPrefixLength bios intf protocol label ethObj (k, v) m = Flow.next m := by
    unfold checkPrefixLength
    by_cases hk : ends_with k (intf ++ "_" ++ protocol ++ "_prefix_length") = true
    · obtain ⟨ht, hv⟩ := hp hk
      simp only [hk, if_true, hv]
      cases v with
      | str c => simp [getInt64] at ht
      | int n => simp [getInt64]
    · simp [hk]
  unfold checkEntry
  simp only [h1, h2, h3]

theorem managedKey_suffix (i i1 : Nat) (hi : i < 2) (hi1 : i1 < 2) (p p1 : Protocol)
    (fld fld1 : SyncField) :
    ends_with (managedKey i p fld) (fieldSuffix (intfName i1) (protocolName p1) fld1) =
      decide (i = i1 ∧ p = p1 ∧ fld = fld1) := by
  interval_cases i <;> interval_cases i1 <;> cases p <;> cases p1 <;> cases fld <;>
    cases fld1 <;> decide

theorem checkEntry_empty (bios : BiosTable) (i : Nat) (hi : i < 2) (p : Protocol)
    (fld : SyncField) (hfld : fld ≠ SyncField.prefixLength) (label : String)
    (ethObj : HypEthInterface) (m : HypNetworkMgr) :
    checkEntry bios (intfName i) (protocolName p) label ethObj
      (managedKey i p fld, AttrValue.str "") m = Flow.ret m := by
  have h1 := managedKey_suffix i i hi hi p p fld SyncField.ipaddr
  have h2 := managedKey_suffix i i hi hi p p fld SyncField.gateway
  simp only [fieldSuffix] at h1 h2
  cases fld with
  | ipaddr => simp [checkEntry, checkIpaddr, h1, getString]
  | gateway => simp [checkEntry, checkIpaddr, checkGateway, h1, h2, getString]
  | prefixLength => exact absurd rfl hfld

theorem checkEntry_diverge (bios : BiosTable) (i : Nat) (hi : i < 2) (p : Protocol)
    (fld : SyncField) (v : AttrValue) (label : String) (ethObj : HypEthInterface)
    (m : HypNetworkMgr)
    (hdiv : Diverges fld v (getAttrFromBiosTable bios (managedKey i p fld))) :
    checkEntry bios (intfName i) (protocolName p) label ethObj (managedKey i p fld, v) m =
      Flow.ret (applyChange m label ethObj (protocolName p)
        (setField fld (getAttrFromBiosTable bios (managedKey i p fld))) (managedKey i p fld)
        (cachedAfter fld (getAttrFromBiosTable bios (managedKey i p fld))) (fieldType fld)) := by
  have h1 := managedKey_suffix i i hi hi p p fld SyncField.ipaddr
  have h2 := managedKey_suffix i i hi hi p p fld SyncField.gateway
  have h3 := managedKey_suffix i i hi hi p p fld SyncField.prefixLength
  simp only [fieldSuffix] at h1 h2 h3
  cases fld with
  | ipaddr =>
    obtain ⟨c, f, hv, hc, hf, hne⟩ := hdiv
    simp only [checkEntry, checkIpaddr, h1, hv, hf, getString]
    simp [hc, hne, cachedAfter, fieldType]
    rfl
  | gateway =>
    obtain ⟨c, f, hv, hc, hf, hne⟩ := hdiv
    simp only [checkEntry, checkIpaddr, checkGateway, h1, h2, hv, hf, getString]
    simp [hc, hne, cachedAfter, fieldType]
    rfl
  | prefixLength =>
    obtain ⟨c, f, hv, hf, hne⟩ := hdiv
    simp only [checkEntry, checkIpaddr, checkGateway, checkPrefixLength, h1, h2, h3, hv, hf,
      getInt64]
    simp [hne, cachedAfter, fieldType]
    rfl

theorem entryQuiet_other_pair (bios : BiosTable) (i i1 : Nat) (hi : i < 2) (hi1 : i1 < 2)
    (p p1 : Protocol) (fld : SyncField) (v : AttrValue)
    (hne : pairIndex i1 p1 ≠ pairIndex i p) :
    EntryQuiet bios (intfName i1) (protocolName p1) (managedKey i p fld, v) := by
  have hfalse : ∀ fld1, ends_with (managedKey i p fld)
      (fieldSuffix (intfName i1) (protocolName p1) fld1) = false := by
    intro fld1
    rw [managedKey_suffix i i1 hi hi1 p p1 fld fld1]
    apply decide_eq_false
    rintro ⟨h1, h2, _⟩
    subst h1 h2
    exact hne rfl
  refine ⟨fun fld1 _ h => ?_, fun h => ?_⟩
  · rw [hfalse fld1] at h; cases h
  · rw [hfalse SyncField.prefixLength] at h; cases h

theorem getString_eq_some (v : AttrValue) (s : String) (h : getString v = some s) :
    v = AttrValue.str s := by
  cases v with
  | str c => simp only [getString, Option.some.injEq] at h; rw [h]
  | int n => cases h

/-! ## Lemmas on the handler -/

theorem syncDhcp_addrs (env : Env) (ethObj : HypEthInterface) (method : String) :
    (syncDhcp env ethObj method).addrs = ethObj.addrs := by
  unfold syncDhcp
  simp only []
  split
  · exact HypEthInterface.dhcpEnabled_addrs env ethObj DHCPConf.v4
  · split
    · exact HypEthInterface.dhcpEnabled_addrs env ethObj DHCPConf.none
    · rfl

theorem syncDhcp_of_calm (env : Env) (ethObj : HypEthInterface) (method : String)
    (h1 : ¬ (ethObj.dhcpConf = DHCPConf.none ∧ method = "IPv4DHCP"))
    (h2 : ¬ (ethObj.dhcpConf ≠ DHCPConf.none ∧ method = "IPv4Static")) :
    syncDhcp env ethObj method = ethObj := by
  unfold syncDhcp
  simp only []
  rw [if_neg h1, if_neg h2]

theorem recordsOf_setEthObj (m : HypNetworkMgr) (label : String) (ethObj : HypEthInterface) :
    recordsOf (setEthObj m label ethObj) =
      StdMap.modify (recordsOf m) label (fun _ => ethObj.addrs) :=
  StdMap.map_modify m.ethIntfList label (fun _ => ethObj) (fun e => e.addrs)
    (fun _ => ethObj.addrs) (fun _ => rfl)

theorem find_recordsOf (m : HypNetworkMgr) (label : String) :
    StdMap.find (recordsOf m) label = (StdMap.find m.ethIntfList label).map (fun e => e.addrs) := by
  unfold recordsOf
  induction m.ethIntfList with
  | nil => rfl
  | cons hd t ih =>
    obtain ⟨k, v⟩ := hd
    by_cases h : k = label
    · simp [StdMap.find, h]
    · simp [StdMap.find, h, ih]

theorem recordsOf_replace (m : HypNetworkMgr) (label : String) (ethObj0 ethObj : HypEthInterface)
    (hfind : StdMap.find m.ethIntfList label = some ethObj0)
    (haddrs : ethObj.addrs = ethObj0.addrs) :
    recordsOf (setEthObj m label ethObj) = recordsOf m := by
  rw [recordsOf_setEthObj, haddrs]
  apply StdMap.modify_const_of_find
  rw [find_recordsOf, hfind]
  rfl

theorem find_setEthObj (m : HypNetworkMgr) (label : String) (ethObj0 ethObj : HypEthInterface)
    (hfind : StdMap.find m.ethIntfList label = some ethObj0) :
    StdMap.find (setEthObj m label ethObj).ethIntfList label = some ethObj := by
  unfold setEthObj
  simp only []
  rw [StdMap.find_modify, hfind]
  rfl

theorem setEthObj_of_find (m : HypNetworkMgr) (label : String) (ethObj : HypEthInterface)
    (hfind : StdMap.find m.ethIntfList label = some ethObj) : setEthObj m label ethObj = m := by
  unfold setEthObj
  rw [StdMap.modify_const_of_find _ _ _ hfind]

theorem applyChange_atMostOne (m0 m : HypNetworkMgr) (label : String) (ethObj : HypEthInterface)
    (protocol : String) (ch : FieldChange) (key : String) (val : AttrValue) (ty : String)
    (hsame : SameData m0 m) (hfind : StdMap.find m.ethIntfList label = some ethObj) :
    AtMostOneChange m0 (applyChange m label ethObj protocol ch.apply key val ty) := by
  obtain ⟨hrec, hbios⟩ := hsame
  unfold applyChange
  rcases updateFirst_cases protocol ch.apply ethObj.addrs with h | ⟨k0, h⟩
  · rw [h]
    exact ⟨Or.inl hrec, Or.inl hbios⟩
  · rw [h]
    refine ⟨Or.inr ⟨label, k0, ch, ?_⟩, Or.inr ⟨key, val, ?_⟩⟩
    · have h1 : recordsOf (setIpPropsInMap
          (setEthObj m label { ethObj with addrs := StdMap.modify ethObj.addrs k0 ch.apply })
          key val ty) =
          StdMap.modify (recordsOf m) label (fun _ => StdMap.modify ethObj.addrs k0 ch.apply) :=
        recordsOf_setEthObj m label _
      rw [h1, ← hrec]
      apply StdMap.modify_congr_of_find (recordsOf m) label ethObj.addrs
      · rw [find_recordsOf, hfind]
        rfl
      · rfl
    · simp only [setIpPropsInMap, setEthObj, hbios]

theorem sameData_atMostOne (m0 m : HypNetworkMgr) (h : SameData m0 m) :
    AtMostOneChange m0 m := ⟨Or.inl h.1, Or.inl h.2⟩

theorem scan_frame (bios : BiosTable) (intf protocol label : String) (ethObj : HypEthInterface)
    (m0 m : HypNetworkMgr) (hsame : SameData m0 m)
    (hfind : StdMap.find m.ethIntfList label = some ethObj) (l : StdMap AttrValue) :
    (∀ m1, forEach (checkEntry bios intf protocol label ethObj) l m = Flow.next m1 →
        SameData m0 m1) ∧
      ((forEach (checkEntry bios intf protocol label ethObj) l m).isNext = false →
        AtMostOneChange m0 (forEach (checkEntry bios intf protocol label ethObj) l m).mgr) := by
  have h := forEach_invariant (checkEntry bios intf protocol label ethObj)
    (fun m2 => m2 = m) (AtMostOneChange m0) (by
      intro e m2 hm2
      subst hm2
      rcases checkEntry_outcome bios intf protocol label ethObj e m2 with
        h | ⟨hn, h | ⟨ch, val, ty, h⟩⟩
      · rw [h]
        exact ⟨fun m1 h1 => (Flow.next.inj h1).symm, fun h1 => by cases h1⟩
      · refine ⟨fun m1 h1 => ?_, fun _ => ?_⟩
        · rw [h1] at hn; cases hn
        · rw [h]; exact sameData_atMostOne m0 _ hsame
      · refine ⟨fun m1 h1 => ?_, fun _ => ?_⟩
        · rw [h1] at hn; cases hn
        · rw [h]
          exact applyChange_atMostOne m0 _ _ _ protocol ch e.1 val ty hsame hfind) l m rfl
  exact ⟨fun m1 h1 => (h.1 m1 h1) ▸ hsame, h.2⟩

theorem syncPair_frame (env : Env) (bios : BiosTable) (i : Nat) (protocol : String)
    (m0 m : HypNetworkMgr) (hm : SameData m0 m) :
    (∀ m1, syncPair env bios i protocol m = Flow.next m1 → SameData m0 m1) ∧
      ((syncPair env bios i protocol m).isNext = false →
        AtMostOneChange m0 (syncPair env bios i protocol m).mgr) := by
  unfold syncPair
  simp only []
  split
  · exact ⟨fun _ h => (by cases h), fun _ => sameData_atMostOne m0 m hm⟩
  · next method _ =>
    split
    · exact ⟨fun _ h => (by cases h), fun _ => sameData_atMostOne m0 m hm⟩
    · next ethObj0 hfind =>
      have hrec := recordsOf_replace m (ethLabel i) ethObj0 (syncDhcp env ethObj0 method) hfind
        (syncDhcp_addrs env ethObj0 method)
      exact scan_frame bios (intfName i) protocol (ethLabel i) (syncDhcp env ethObj0 method) m0
        (setEthObj m (ethLabel i) (syncDhcp env ethObj0 method)) ⟨hrec.trans hm.1, hm.2⟩
        (find_setEthObj m (ethLabel i) ethObj0 _ hfind) _

theorem syncPair_same (env : Env) (bios : BiosTable) (i : Nat) (p : Protocol)
    (m : HypNetworkMgr) (hmode : ModeIdle bios m i p)
    (hent : ∀ e ∈ m.biosTableAttrs, EntrySame bios (intfName i) (protocolName p) e) :
    (syncPair env bios i (protocolName p) m).mgr = m := by
  unfold syncPair
  simp only []
  split
  · rfl
  · next method hmeth =>
    split
    · rfl
    · next ethObj0 hfind =>
      obtain ⟨h1, h2⟩ := hmode method ethObj0 (getString_eq_some _ _ hmeth) hfind
      rw [syncDhcp_of_calm env ethObj0 method h1 h2, setEthObj_of_find m _ _ hfind]
      exact forEach_stable _ _ m
        (fun e he => checkEntry_same bios _ _ _ ethObj0 e m (hent e he))

theorem syncPair_of_calm (env : Env) (bios : BiosTable) (i : Nat) (p : Protocol)
    (m : HypNetworkMgr) (method : String) (ethObj : HypEthInterface)
    (h1 : getAttrFromBiosTable bios (methodKey i p) = AttrValue.str method)
    (h2 : StdMap.find m.ethIntfList (ethLabel i) = some ethObj)
    (h3 : ¬ (ethObj.dhcpConf = DHCPConf.none ∧ method = "IPv4DHCP"))
    (h4 : ¬ (ethObj.dhcpConf ≠ DHCPConf.none ∧ method = "IPv4Static")) :
    syncPair env bios i (protocolName p) m =
      forEach (checkEntry bios (intfName i) (protocolName p) (ethLabel i) ethObj)
        m.biosTableAttrs m := by
  unfold syncPair
  unfold methodKey at h1
  simp only [h1, getString, h2]
  rw [syncDhcp_of_calm env ethObj method h3 h4, setEthObj_of_find m _ _ h2]

theorem syncPair_quiet (env : Env) (bios : BiosTable) (i : Nat) (p : Protocol)
    (m : HypNetworkMgr) (hmode : ModeCalm bios m i p)
    (hent : ∀ e ∈ m.biosTableAttrs, EntryQuiet bios (intfName i) (protocolName p) e) :
    syncPair env bios i (protocolName p) m = Flow.next m := by
  obtain ⟨method, ethObj, h1, h2, h3, h4⟩ := hmode
  rw [syncPair_of_calm env bios i p m method ethObj h1 h2 h3 h4]
  have h := forEach_skip (checkEntry bios (intfName i) (protocolName p) (ethLabel i) ethObj)
    m.biosTableAttrs [] m (fun e he => checkEntry_quiet bios _ _ _ ethObj e m (hent e he))
  rw [List.append_nil] at h
  exact h

theorem handler_flat (env : Env) (bios : BiosTable) (m : HypNetworkMgr) :
    forEach (fun i => forEach (syncPair env bios i) ["ipv4", "ipv6"])
        (List.range MAX_INTF_SUPPORTED) m =
      forEach (fun q => syncPair env bios q.1 (protocolName q.2)) allPairs m := by
  have hr : List.range MAX_INTF_SUPPORTED = [0, 1] := by decide
  rw [hr]
  simp only [forEach, allPairs, protocolName]
  cases syncPair env bios 0 "ipv4" m with
  | next m1 =>
    simp only []
    cases syncPair env bios 0 "ipv6" m1 with
    | next m2 =>
      simp only []
      cases syncPair env bios 1 "ipv4" m2 with
      | next m3 =>
        simp only []
        cases syncPair env bios 1 "ipv6" m3 <;> rfl
      | ret m3 => rfl
      | raise m3 => rfl
    | ret m2 => rfl
    | raise m2 => rfl
  | ret m1 => rfl
  | raise m1 => rfl

theorem allPairs_split (i : Nat) (hi : i < 2) (p : Protocol) :
    allPairs = pairsBefore i p ++ (i, p) :: pairsAfter i p := by
  interval_cases i <;> cases p <;> decide

theorem pairsBefore_spec (i : Nat) (p : Protocol) (q : Nat × Protocol)
    (hq : q ∈ pairsBefore i p) : q.1 < 2 ∧ pairIndex q.1 q.2 < pairIndex i p := by
  unfold pairsBefore at hq
  rw [List.mem_filter] at hq
  obtain ⟨h1, h2⟩ := hq
  refine ⟨?_, of_decide_eq_true h2⟩
  simp only [allPairs, List.mem_cons, List.mem_singleton, List.not_mem_nil, or_false] at h1
  rcases h1 with h | h | h | h <;> subst h <;> decide

theorem handler_of_pairs (env : Env) (bios : BiosTable) (interfacesProperties : List String)
    (m : HypNetworkMgr) (hprops : interfacesProperties.contains "BaseBIOSTable" = true) :
    BIOSAttrUpdate env bios interfacesProperties m =
      match forEach (fun q => syncPair env bios q.1 (protocolName q.2)) allPairs m with
      | Flow.next m1 => Flow.ret m1
      | r => r := by
  unfold BIOSAttrUpdate
  rw [handler_flat]
  simp only [hprops, Bool.not_true, Bool.false_eq_true, if_false]

/-- The handler result when the pairs before (`i`, `p`) pass on without any
change and the scan of (`i`, `p`) ends the pass. -/
theorem handler_stops_at (env : Env) (bios : BiosTable) (interfacesProperties : List String)
    (m : HypNetworkMgr) (hprops : interfacesProperties.contains "BaseBIOSTable" = true)
    (i : Nat) (hi : i < 2) (p : Protocol)
    (hbefore : ∀ i1 p1, i1 < 2 → pairIndex i1 p1 < pairIndex i p →
      syncPair env bios i1 (protocolName p1) m = Flow.next m)
    (hstop : (syncPair env bios i (protocolName p) m).isNext = false) :
    BIOSAttrUpdate env bios interfacesProperties m = syncPair env bios i (protocolName p) m := by
  have hskip := forEach_skip (fun q : Nat × Protocol => syncPair env bios q.1 (protocolName q.2))
    (pairsBefore i p) ((i, p) :: pairsAfter i p) m
    (fun q hq => hbefore q.1 q.2 (pairsBefore_spec i p q hq).1 (pairsBefore_spec i p q hq).2)
  have hat := forEach_cons_stop (fun q : Nat × Protocol => syncPair env bios q.1 (protocolName q.2))
    (i, p) (pairsAfter i p) m hstop
  rw [handler_of_pairs env bios interfacesProperties m hprops, allPairs_split i hi p, hskip, hat]
  beta_reduce
  cases hr : syncPair env bios i (protocolName p) m with
  | next m1 => rw [hr] at hstop; cases hstop
  | ret m1 => rfl
  | raise m1 => rfl

/-- The handler leaves the manager as it was when the pairs before (`i`, `p`)
cause no change and the scan of (`i`, `p`) ends the pass without a change. -/
theorem handler_stable_until (env : Env) (bios : BiosTable)
    (interfacesProperties : List String) (m : HypNetworkMgr) (i : Nat) (hi : i < 2)
    (p : Protocol)
    (hbefore : ∀ i1 p1, i1 < 2 → pairIndex i1 p1 < pairIndex i p →
      (syncPair env bios i1 (protocolName p1) m).mgr = m)
    (hstop : (syncPair env bios i (protocolName p) m).isNext = false)
    (hmgr : (syncPair env bios i (protocolName p) m).mgr = m) :
    (BIOSAttrUpdate env bios interfacesProperties m).mgr = m := by
  by_cases hprops : interfacesProperties.contains "BaseBIOSTable" = true
  · rw [handler_of_pairs env bios interfacesProperties m hprops, allPairs_split i hi p]
    have hcases := forEach_prefix_stable
      (fun q : Nat × Protocol => syncPair env bios q.1 (protocolName q.2))
      (pairsBefore i p) ((i, p) :: pairsAfter i p) m
      (fun q hq => hbefore q.1 q.2 (pairsBefore_spec i p q hq).1 (pairsBefore_spec i p q hq).2)
    have hat := forEach_cons_stop
      (fun q : Nat × Protocol => syncPair env bios q.1 (protocolName q.2))
      (i, p) (pairsAfter i p) m hstop
    rcases hcases with ⟨_, h⟩ | h
    · cases hr : forEach (fun q => syncPair env bios q.1 (protocolName q.2))
          (pairsBefore i p ++ (i, p) :: pairsAfter i p) m with
      | next m1 => rw [hr] at h; exact h
      | ret m1 => rw [hr] at h; exact h
      | raise m1 => rw [hr] at h; exact h
    · rw [h, hat]
      beta_reduce
      cases hr : syncPair env bios i (protocolName p) m with
      | next m1 => rw [hr] at hstop; cases hstop
      | ret m1 => rw [hr] at hmgr; exact hmgr
      | raise m1 => rw [hr] at hmgr; exact hmgr
  · have hf : interfacesProperties.contains "BaseBIOSTable" = false := by
      cases hc : interfacesProperties.contains "BaseBIOSTable" with
      | true => exact absurd hc hprops
      | false => rfl
    unfold BIOSAttrUpdate
    simp only [hf, Bool.not_false, if_true, Flow.mgr]

theorem modeIdle_of_calm (bios : BiosTable) (m : HypNetworkMgr) (i : Nat) (p : Protocol)
    (h : ModeCalm bios m i p) : ModeIdle bios m i p := by
  obtain ⟨method, ethObj, h1, h2, h3, h4⟩ := h
  intro method1 ethObj1 g1 g2
  rw [h1] at g1
  rw [h2] at g2
  cases g1
  cases g2
  exact ⟨h3, h4⟩

theorem syncPair_guard (env : Env) (bios : BiosTable) (i : Nat) (hi : i < 2) (p : Protocol)
    (fld : SyncField) (hfld : fld ≠ SyncField.prefixLength) (m : HypNetworkMgr)
    (pre post : StdMap AttrValue)
    (hsnap : m.biosTableAttrs = pre ++ (managedKey i p fld, AttrValue.str "") :: post)
    (hmode : ModeIdle bios m i p)
    (hpre : ∀ e ∈ pre, EntrySame bios (intfName i) (protocolName p) e) :
    (syncPair env bios i (protocolName p) m).isNext = false ∧
      (syncPair env bios i (protocolName p) m).mgr = m := by
  unfold syncPair
  simp only []
  split
  · exact ⟨rfl, rfl⟩
  · next method hmeth =>
    split
    · exact ⟨rfl, rfl⟩
    · next ethObj0 hfind =>
      obtain ⟨h1, h2⟩ := hmode method ethObj0 (getString_eq_some _ _ hmeth) hfind
      rw [syncDhcp_of_calm env ethObj0 method h1 h2, setEthObj_of_find m _ _ hfind, hsnap]
      rcases forEach_prefix_stable
        (checkEntry bios (intfName i) (protocolName p) (ethLabel i) ethObj0) pre
        ((managedKey i p fld, AttrValue.str "") :: post) m
        (fun e he => checkEntry_same bios _ _ _ ethObj0 e m (hpre e he)) with h | h
      · exact h
      · rw [h, forEach_cons_stop _ _ _ _ (by rw [checkEntry_empty bios i hi p fld hfld]; rfl),
          checkEntry_empty bios i hi p fld hfld]
        exact ⟨rfl, rfl⟩

theorem syncPair_diverge (env : Env) (bios : BiosTable) (i : Nat) (hi : i < 2) (p : Protocol)
    (fld : SyncField) (v : AttrValue) (m : HypNetworkMgr) (ethObj : HypEthInterface)
    (k0 : String)
    (hmem : (managedKey i p fld, v) ∈ m.biosTableAttrs)
    (hmode : ModeCalm bios m i p)
    (hothers : ∀ e ∈ m.biosTableAttrs, e ≠ (managedKey i p fld, v) →
      EntryQuiet bios (intfName i) (protocolName p) e)
    (hdiv : Diverges fld v (getAttrFromBiosTable bios (managedKey i p fld)))
    (heth : StdMap.find m.ethIntfList (ethLabel i) = some ethObj)
    (hkey : firstKey (protocolName p) ethObj.addrs = some k0) :
    syncPair env bios i (protocolName p) m =
      Flow.ret
        { ethIntfList := StdMap.modify m.ethIntfList (ethLabel i)
            (fun _ => { ethObj with
              addrs := StdMap.modify ethObj.addrs k0
                (setField fld (getAttrFromBiosTable bios (managedKey i p fld))) }),
          biosTableAttrs := StdMap.modify m.biosTableAttrs (managedKey i p fld)
            (fun _ => cachedAfter fld (getAttrFromBiosTable bios (managedKey i p fld))) } := by
  obtain ⟨method, ethObj1, h1, h2, h3, h4⟩ := hmode
  rw [heth] at h2
  cases h2
  have hd := checkEntry_diverge bios i hi p fld v (ethLabel i) ethObj m hdiv
  rw [syncPair_of_calm env bios i p m method ethObj h1 heth h3 h4,
    forEach_first_stop _ _ m (managedKey i p fld, v) hmem
      (fun e he hne => checkEntry_quiet bios _ _ _ ethObj e m (hothers e he hne))
      (by rw [hd]; rfl),
    hd]
  unfold applyChange
  rw [updateFirst_of_firstKey _ _ _ k0 hkey]
  rfl

theorem sameData_refl (m : HypNetworkMgr) : SameData m m := ⟨rfl, rfl⟩

theorem pairs_frame (env : Env) (bios : BiosTable) (m0 : HypNetworkMgr) (l : List Nat)
    (m : HypNetworkMgr) (hm : SameData m0 m) :
    (∀ m1, forEach (fun i => forEach (syncPair env bios i) ["ipv4", "ipv6"]) l m = Flow.next m1 →
        SameData m0 m1) ∧
      ((forEach (fun i => forEach (syncPair env bios i) ["ipv4", "ipv6"]) l m).isNext = false →
        AtMostOneChange m0
          (forEach (fun i => forEach (syncPair env bios i) ["ipv4", "ipv6"]) l m).mgr) :=
  forEach_invariant (fun i => forEach (syncPair env bios i) ["ipv4", "ipv6"])
    (SameData m0) (AtMostOneChange m0)
    (fun i m2 hm2 =>
      forEach_invariant (syncPair env bios i) (SameData m0) (AtMostOneChange m0)
        (fun protocol m3 hm3 => syncPair_frame env bios i protocol m0 m3 hm3)
        ["ipv4", "ipv6"] m2 hm2)
    l m hm

/-! ## Lemmas on the order of keys and on sorted maps -/

theorem keyLt_irrefl (k : String) : keyLt k k = false := by
  unfold keyLt
  exact decide_eq_false (lt_irrefl k.data)

theorem keyLt_trans (a b c : String) (h1 : keyLt a b = true) (h2 : keyLt b c = true) :
    keyLt a c = true := by
  unfold keyLt at *
  exact decide_eq_true (lt_trans (of_decide_eq_true h1) (of_decide_eq_true h2))

theorem keyLt_of_not (a b : String) (h1 : keyLt a b = false) (h2 : b ≠ a) :
    keyLt b a = true := by
  unfold keyLt at *
  have h := of_decide_eq_false h1
  rcases lt_trichotomy a.data b.data with h3 | h3 | h3
  · exact absurd h3 h
  · exact absurd (String.ext h3).symm h2
  · exact decide_eq_true h3

theorem keyLt_ne (a b : String) (h : keyLt a b = true) : a ≠ b := by
  intro e
  rw [e, keyLt_irrefl] at h
  cases h

namespace StdMap

variable {V : Type}

theorem sorted_cons (k : String) (v : V) (t : StdMap V) :
    Sorted ((k, v) :: t) ↔ (∀ e ∈ t, keyLt k e.1 = true) ∧ Sorted t := by
  unfold Sorted
  exact List.pairwise_cons

theorem mem_insert_or_assign (m : StdMap V) (k : String) (v : V) (e : String × V)
    (h : e ∈ insert_or_assign m k v) : e = (k, v) ∨ e ∈ m := by
  induction m with
  | nil =>
    simp only [insert_or_assign, List.mem_singleton] at h
    exact Or.inl h
  | cons hd t ih =>
    obtain ⟨k1, v1⟩ := hd
    unfold insert_or_assign at h
    split at h
    · rcases List.mem_cons.mp h with h | h
      · exact Or.inl h
      · exact Or.inr (List.mem_cons_of_mem _ h)
    · split at h
      · rcases List.mem_cons.mp h with h | h
        · exact Or.inl h
        · exact Or.inr h
      · rcases List.mem_cons.mp h with h | h
        · exact Or.inr (h ▸ List.mem_cons_self _ _)
        · rcases ih h with h | h
          · exact Or.inl h
          · exact Or.inr (List.mem_cons_of_mem _ h)

theorem sorted_insert_or_assign (m : StdMap V) (k : String) (v : V) (h : Sorted m) :
    Sorted (insert_or_assign m k v) := by
  induction m with
  | nil => simp [insert_or_assign, Sorted]
  | cons hd t ih =>
    obtain ⟨k1, v1⟩ := hd
    obtain ⟨h1, h2⟩ := (sorted_cons k1 v1 t).mp h
    unfold insert_or_assign
    split
    · next hk =>
      subst hk
      exact (sorted_cons _ _ _).mpr ⟨h1, h2⟩
    · next hk =>
      split
      · next hlt =>
        refine (sorted_cons _ _ _).mpr ⟨?_, h⟩
        intro e he
        rcases List.mem_cons.mp he with he | he
        · rw [he]; exact hlt
        · exact keyLt_trans _ _ _ hlt (h1 e he)
      · next hlt =>
        refine (sorted_cons _ _ _).mpr ⟨?_, ih h2⟩
        intro e he
        rcases mem_insert_or_assign t k v e he with he | he
        · rw [he]
          exact keyLt_of_not k k1 (by simpa using hlt) hk
        · exact h1 e he

theorem erase_sublist (m : StdMap V) (k : String) : List.Sublist (erase m k) m := by
  induction m with
  | nil => exact List.Sublist.refl _
  | cons hd t ih =>
    obtain ⟨k1, v1⟩ := hd
    unfold erase
    split
    · exact List.sublist_cons_self _ _
    · exact List.Sublist.cons₂ _ ih

theorem sorted_erase (m : StdMap V) (k : String) (h : Sorted m) : Sorted (erase m k) :=
  List.Pairwise.sublist (erase_sublist m k) h

theorem sorted_emplace (m : StdMap V) (k : String) (v : V) (h : Sorted m) :
    Sorted (emplace m k v) := by
  unfold emplace
  split
  · exact h
  · exact sorted_insert_or_assign m k v h

theorem mem_emplace (m : StdMap V) (k : String) (v : V) (e : String × V)
    (h : e ∈ emplace m k v) : e = (k, v) ∨ e ∈ m := by
  unfold emplace at h
  split at h
  · exact Or.inr h
  · exact mem_insert_or_assign m k v e h

theorem find_none_of_keys (m : StdMap V) (k : String) (h : ∀ e ∈ m, e.1 ≠ k) :
    find m k = none := by
  induction m with
  | nil => rfl
  | cons hd t ih =>
    obtain ⟨k1, v1⟩ := hd
    have h1 : k1 ≠ k := h (k1, v1) (List.mem_cons_self _ _)
    simp only [find, h1, if_false]
    exact ih (fun e he => h e (List.mem_cons_of_mem _ he))

theorem mem_of_find (m : StdMap V) (k : String) (v : V) (h : find m k = some v) :
    (k, v) ∈ m := by
  induction m with
  | nil => cases h
  | cons hd t ih =>
    obtain ⟨k1, v1⟩ := hd
    by_cases h1 : k1 = k
    · simp only [find, h1, if_true, Option.some.injEq] at h
      rw [h1, h]
      exact List.mem_cons_self _ _
    · simp only [find, h1, if_false] at h
      exact List.mem_cons_of_mem _ (ih h)

theorem find_erase_self (m : StdMap V) (k : String) (h : Sorted m) :
    find (erase m k) k = none := by
  induction m with
  | nil => rfl
  | cons hd t ih =>
    obtain ⟨k1, v1⟩ := hd
    obtain ⟨h1, h2⟩ := (sorted_cons k1 v1 t).mp h
    by_cases hk : k1 = k
    · simp only [erase, hk, if_true]
      exact find_none_of_keys t k (fun e he => (keyLt_ne _ _ (hk ▸ h1 e he)).symm)
    · simp only [erase, hk, if_false, find]
      exact ih h2

theorem find_erase_ne (m : StdMap V) (k k1 : String) (h : k1 ≠ k) :
    find (erase m k) k1 = find m k1 := by
  induction m with
  | nil => rfl
  | cons hd t ih =>
    obtain ⟨k2, v2⟩ := hd
    by_cases hk : k2 = k
    · have hk1 : k2 ≠ k1 := fun e => h (e ▸ hk)
      simp [erase, hk, find, hk1, hk ▸ hk1]
    · by_cases hk1 : k2 = k1
      · subst hk1
        simp [erase, hk, find]
      · simp [erase, hk, find, hk1, ih]

theorem find_insert_or_assign_ne (m : StdMap V) (k k1 : String) (v : V) (h : k1 ≠ k) :
    find (insert_or_assign m k v) k1 = find m k1 := by
  induction m with
  | nil => simp [insert_or_assign, find, Ne.symm h]
  | cons hd t ih =>
    obtain ⟨k2, v2⟩ := hd
    unfold insert_or_assign
    split
    · next hk =>
      have hk1 : k2 ≠ k1 := fun e => h (e ▸ hk)
      simp [find, Ne.symm h, hk1]
    · split
      · simp [find, Ne.symm h]
      · by_cases hk1 : k2 = k1
        · simp [find, hk1]
        · simp [find, hk1, ih]

theorem insert_or_assign_of_find_none (m : StdMap V) (k : String) (v : V)
    (h : find m k = none) :
    ∃ pre post, m = pre ++ post ∧ insert_or_assign m k v = pre ++ (k, v) :: post := by
  induction m with
  | nil => exact ⟨[], [], rfl, rfl⟩
  | cons hd t ih =>
    obtain ⟨k1, v1⟩ := hd
    have hk : k1 ≠ k := by
      intro e
      simp [find, e] at h
    simp only [find, hk, if_false] at h
    unfold insert_or_assign
    simp only [hk, if_false]
    split
    · exact ⟨[], (k1, v1) :: t, rfl, rfl⟩
    · obtain ⟨pre, post, e1, e2⟩ := ih h
      exact ⟨(k1, v1) :: pre, post, by rw [e1]; rfl, by rw [e2]; rfl⟩

end StdMap

/-! ## Lemmas on interface labels -/

theorem takeWhile_segment (l rest : List Char) (h : ∀ c ∈ l, c ≠ '/') :
    (l ++ '/' :: rest).takeWhile (fun c => c != '/') = l := by
  induction l with
  | nil => simp [List.takeWhile]
  | cons c t ih =>
    have hc : c ≠ '/' := h c (List.mem_cons_self _ _)
    simp only [List.cons_append, List.takeWhile_cons, bne_iff_ne, ne_eq, hc, not_false_eq_true,
      if_true, decide_True]
    rw [ih (fun d hd => h d (List.mem_cons_of_mem _ hd))]

theorem takeWhile_whole (l : List Char) (h : ∀ c ∈ l, c ≠ '/') :
    l.takeWhile (fun c => c != '/') = l := by
  induction l with
  | nil => rfl
  | cons c t ih =>
    have hc : c ≠ '/' := h c (List.mem_cons_self _ _)
    simp only [List.takeWhile_cons, bne_iff_ne, ne_eq, hc, not_false_eq_true, if_true,
      decide_True]
    rw [ih (fun d hd => h d (List.mem_cons_of_mem _ hd))]

theorem segment_of_path (path seg : String) (h : LastSegment path seg) :
    (⟨(path.data.reverse.takeWhile (fun c => c != '/')).reverse⟩ : String) = seg := by
  obtain ⟨hs, hp | ⟨dir, hp⟩⟩ := h
  · subst hp
    rw [takeWhile_whole path.data.reverse (fun c hc => fun e => hs (e ▸ List.mem_reverse.mp hc)),
      List.reverse_reverse]
  · have hd : path.data = dir.data ++ '/' :: seg.data := by
      rw [hp]
      simp [String.data_append]
    have hr : path.data.reverse = seg.data.reverse ++ '/' :: dir.data.reverse := by
      rw [hd]
      simp
    rw [hr, takeWhile_segment seg.data.reverse dir.data.reverse
      (fun c hc => fun e => hs (e ▸ List.mem_reverse.mp hc)), List.reverse_reverse]

theorem getIntfLabel_of_segment (s : HypEthInterface) (seg : String)
    (h : LastSegment s.objectPath seg) :
    HypEthInterface.getIntfLabel s =
      if seg = "eth0" then "if0" else if seg = "eth1" then "if1" else "" := by
  unfold HypEthInterface.getIntfLabel
  simp only []
  rw [segment_of_path s.objectPath seg h]

theorem getIntfLabel_cases (s : HypEthInterface) :
    HypEthInterface.getIntfLabel s = "if0" ∨ HypEthInterface.getIntfLabel s = "if1" ∨
      HypEthInterface.getIntfLabel s = "" := by
  unfold HypEthInterface.getIntfLabel
  simp only []
  split
  · exact Or.inl rfl
  · split
    · exact Or.inr (Or.inl rfl)
    · exact Or.inr (Or.inr rfl)

theorem exists_lastSegment (path : String) : ∃ seg, LastSegment path seg := by
  have key : ∀ l : List Char, (∀ c ∈ l, c ≠ '/') ∨
      ∃ d sg : List Char, l = d ++ '/' :: sg ∧ ∀ c ∈ sg, c ≠ '/' := by
    intro l
    induction l with
    | nil => exact Or.inl (fun c hc => by cases hc)
    | cons c t ih =>
      rcases ih with h | ⟨d, sg, h1, h2⟩
      · by_cases hc : c = '/'
        · exact Or.inr ⟨[], t, by rw [hc]; rfl, h⟩
        · left
          intro x hx
          rcases List.mem_cons.mp hx with hx | hx
          · rw [hx]; exact hc
          · exact h x hx
      · exact Or.inr ⟨c :: d, sg, by rw [h1]; rfl, h2⟩
  rcases key path.data with h | ⟨d, sg, h1, h2⟩
  · exact ⟨path, fun hc => h '/' hc rfl, Or.inl rfl⟩
  · refine ⟨⟨sg⟩, fun hc => h2 '/' hc rfl, Or.inr ⟨⟨d⟩, ?_⟩⟩
    apply String.ext
    rw [h1]
    simp [String.data_append]

theorem forEach_remove {α : Type} (body : α → HypNetworkMgr → Flow) (pre post : List α)
    (a : α) (m : HypNetworkMgr) (h : ∀ m1, body a m1 = Flow.next m1) :
    forEach body (pre ++ a :: post) m = forEach body (pre ++ post) m := by
  induction pre generalizing m with
  | nil => simp only [List.nil_append, forEach, h]
  | cons b rest ih =>
    simp only [List.cons_append, forEach]
    cases body b m with
    | next m1 => exact ih m1
    | ret m1 => rfl
    | raise m1 => rfl

theorem entryQuiet_of_noSuffix (bios : BiosTable) (i : Nat) (hi : i < 2) (p : Protocol)
    (e : String × AttrValue) (h : NoSuffix e) :
    EntryQuiet bios (intfName i) (protocolName p) e := by
  have hq : (i, p) ∈ allPairs := by
    interval_cases i <;> cases p <;> decide
  have hf : ∀ fld, ends_with e.1 (fieldSuffix (intfName i) (protocolName p) fld) = false := by
    intro fld
    apply h (i, p) hq fld
    cases fld <;> simp
  refine ⟨fun fld _ hs => ?_, fun hs => ?_⟩
  · rw [hf fld] at hs; cases hs
  · rw [hf SyncField.prefixLength] at hs; cases hs

/-! ## Lemmas on the address set -/

theorem keyed_erase (m : StdMap HypIPAddress) (k : String) (h : Keyed m) :
    Keyed (StdMap.erase m k) :=
  fun e he => h e ((StdMap.erase_sublist m k).subset he)

theorem keyed_insert_or_assign (m : StdMap HypIPAddress) (k : String) (v : HypIPAddress)
    (h : Keyed m) (hv : v.address = k) : Keyed (StdMap.insert_or_assign m k v) := by
  intro e he
  rcases StdMap.mem_insert_or_assign m k v e he with h1 | h1
  · rw [h1]; exact hv
  · exact h e h1

theorem keyed_emplace (m : StdMap HypIPAddress) (k : String) (v : HypIPAddress)
    (h : Keyed m) (hv : v.address = k) : Keyed (StdMap.emplace m k v) := by
  intro e he
  rcases StdMap.mem_emplace m k v e he with h1 | h1
  · rw [h1]; exact hv
  · exact h e h1

theorem distinct_of_keyed_sorted (m : StdMap HypIPAddress) (h1 : Keyed m)
    (h2 : StdMap.Sorted m) : DistinctAddresses m := by
  unfold DistinctAddresses
  unfold StdMap.Sorted at h2
  refine List.Pairwise.imp_of_mem ?_ h2
  intro a b ha hb hlt
  rw [h1 a ha, h1 b hb]
  exact keyLt_ne _ _ hlt

theorem ip_addrs_inv (env : Env) (s : HypEthInterface) (p : Protocol) (a : String)
    (l : uint8_t) (g : String) (h : Keyed s.addrs ∧ StdMap.Sorted s.addrs) :
    Keyed (HypEthInterface.ip env s p a l g).state.addrs ∧
      StdMap.Sorted (HypEthInterface.ip env s p a l g).state.addrs := by
  rcases HypEthInterface.ip_cases env s p a l g with ⟨_, _, h2⟩ | ⟨_, h2⟩
  · rw [h2, HypEthInterface.ipEntry_addrs]
    exact h
  · rw [h2]
    simp only [HypEthInterface.IpResult.state, HypEthInterface.ipStore,
      HypEthInterface.ipEntry_addrs]
    split
    · exact ⟨keyed_insert_or_assign _ _ _ (keyed_erase _ _ h.1) rfl,
        StdMap.sorted_insert_or_assign _ _ _ (StdMap.sorted_erase _ _ h.2)⟩
    · exact ⟨keyed_insert_or_assign _ _ _ h.1 rfl, StdMap.sorted_insert_or_assign _ _ _ h.2⟩

theorem deleteObject_addrs_inv (s : HypEthInterface) (k : String)
    (h : Keyed s.addrs ∧ StdMap.Sorted s.addrs) :
    Keyed (HypEthInterface.deleteObject s k).addrs ∧
      StdMap.Sorted (HypEthInterface.deleteObject s k).addrs := by
  unfold HypEthInterface.deleteObject
  split
  · exact h
  · exact ⟨keyed_erase _ _ h.1, StdMap.sorted_erase _ _ h.2⟩

theorem updateIPAddress_addrs_inv (s : HypEthInterface) (ip updatedIp : String)
    (hr : ∀ r, StdMap.find s.addrs ip = some r → r.address = updatedIp)
    (h : Keyed s.addrs ∧ StdMap.Sorted s.addrs) :
    Keyed (HypEthInterface.updateIPAddress s ip updatedIp).addrs ∧
      StdMap.Sorted (HypEthInterface.updateIPAddress s ip updatedIp).addrs := by
  unfold HypEthInterface.updateIPAddress
  split
  · next ipObj hfind =>
    have hd := deleteObject_addrs_inv s ip h
    exact ⟨keyed_emplace _ _ _ hd.1 (hr ipObj hfind), StdMap.sorted_emplace _ _ _ hd.2⟩
  · exact h

theorem createForProtocol_addrs_inv (intfLabel : String) (attrs : StdMap AttrValue)
    (protocol : String) (s : HypEthInterface) (loc : HypEthInterface.CreateLocals)
    (h : Keyed s.addrs ∧ StdMap.Sorted s.addrs) :
    Keyed (HypEthInterface.createForProtocol intfLabel attrs protocol s loc).st.addrs ∧
      StdMap.Sorted
        (HypEthInterface.createForProtocol intfLabel attrs protocol s loc).st.addrs := by
  have hs1 : ∀ (c1 c2 c3 c4 : Prop) [Decidable c1] [Decidable c2] [Decidable c3]
      [Decidable c4],
      (if c1 then { s with dhcpConf := DHCPConf.none }
        else if c2 then
          if c3 then { s with dhcpConf := DHCPConf.v4 }
          else if c4 then { s with dhcpConf := DHCPConf.v6 }
          else s
        else s : HypEthInterface).addrs = s.addrs := by
    intro c1 c2 c3 c4 _ _ _ _
    split_ifs <;> rfl
  unfold HypEthInterface.createForProtocol
  simp only []
  split
  · exact h
  · split
    · exact h
    · split
      · simp only [HypEthInterface.CreateFlow.st, hs1]
        exact h
      · split
        · simp only [HypEthInterface.CreateFlow.st, hs1]
          exact h
        · split
          · simp only [HypEthInterface.CreateFlow.st, hs1]
            exact h
          · simp only [HypEthInterface.CreateFlow.st, hs1]
            exact ⟨keyed_emplace _ _ _ h.1 rfl, StdMap.sorted_emplace _ _ _ h.2⟩

theorem createLoop_addrs_inv (intfLabel : String) (attrs : StdMap AttrValue)
    (l : List String) (s : HypEthInterface) (loc : HypEthInterface.CreateLocals)
    (h : Keyed s.addrs ∧ StdMap.Sorted s.addrs) :
    Keyed (HypEthInterface.createLoop intfLabel attrs l s loc).st.addrs ∧
      StdMap.Sorted (HypEthInterface.createLoop intfLabel attrs l s loc).st.addrs := by
  induction l generalizing s loc with
  | nil => exact h
  | cons protocol rest ih =>
    have h1 := createForProtocol_addrs_inv intfLabel attrs protocol s loc h
    unfold HypEthInterface.createLoop
    cases hr : HypEthInterface.createForProtocol intfLabel attrs protocol s loc with
    | next s1 loc1 =>
      rw [hr] at h1
      exact ih s1 loc1 h1
    | raise s1 =>
      rw [hr] at h1
      exact h1

theorem createIPAddressObjects_addrs_inv (s : HypEthInterface) (attrs : StdMap AttrValue)
    (u : HypEthInterface.Indeterminate) (hlen : 17 ≤ attrs.length)
    (h : Keyed s.addrs ∧ StdMap.Sorted s.addrs) :
    Keyed (HypEthInterface.createIPAddressObjects s attrs u).st.addrs ∧
      StdMap.Sorted (HypEthInterface.createIPAddressObjects s attrs u).st.addrs := by
  have hn : ¬ attrs.length < 17 := by omega
  unfold HypEthInterface.createIPAddressObjects
  simp only [hn, if_false]
  split
  · exact h
  · have h1 := createLoop_addrs_inv (HypEthInterface.getIntfLabel s) attrs ["ipv4", "ipv6"] s
      { ipAddr := "", ipProtocol := u.ipProtocol, ipOrigin := u.ipOrigin,
        ipPrefixLength := u.ipPrefixLength, ipGateway := "" } h
    split
    · next s1 loc1 hr =>
      rw [hr] at h1
      exact h1
    · next s1 hr =>
      rw [hr] at h1
      exact h1

theorem addrStep_inv (env : Env) (s t : HypEthInterface) (hstep : AddrStep env s t)
    (h : Keyed s.addrs ∧ StdMap.Sorted s.addrs) : Keyed t.addrs ∧ StdMap.Sorted t.addrs := by
  cases hstep with
  | ip p a l g => exact ip_addrs_inv env s p a l g h
  | deleteObject k => exact deleteObject_addrs_inv s k h
  | createIPAddressObjects attrs u hlen => exact createIPAddressObjects_addrs_inv s attrs u hlen h
  | updateIPAddress ip updatedIp hr => exact updateIPAddress_addrs_inv s ip updatedIp hr h

theorem countOfType_eq_zero (p : Protocol) (m : StdMap HypIPAddress) :
    countOfType p m = 0 ↔ ∀ e ∈ m, e.2.type ≠ p := by
  unfold countOfType
  rw [List.length_eq_zero, List.filter_eq_nil_iff]
  simp

theorem countOfType_append (p : Protocol) (m1 m2 : StdMap HypIPAddress) :
    countOfType p (m1 ++ m2) = countOfType p m1 + countOfType p m2 := by
  unfold countOfType
  rw [List.filter_append, List.length_append]

theorem countOfType_cons (p : Protocol) (e : String × HypIPAddress)
    (m : StdMap HypIPAddress) :
    countOfType p (e :: m) = (if e.2.type = p then 1 else 0) + countOfType p m := by
  unfold countOfType
  by_cases h : e.2.type = p
  · simp [List.filter_cons, h]
    omega
  · simp [List.filter_cons, h]

theorem othersOf_append (p : Protocol) (m1 m2 : StdMap HypIPAddress) :
    othersOf p (m1 ++ m2) = othersOf p m1 ++ othersOf p m2 := by
  unfold othersOf
  rw [List.filter_append]

theorem othersOf_cons_same (p : Protocol) (e : String × HypIPAddress)
    (m : StdMap HypIPAddress) (h : e.2.type = p) : othersOf p (e :: m) = othersOf p m := by
  unfold othersOf
  simp [List.filter_cons, h]

theorem firstOfType_none (p : Protocol) (m : StdMap HypIPAddress)
    (h : HypEthInterface.firstOfType p m = none) : ∀ e ∈ m, e.2.type ≠ p := by
  induction m with
  | nil => intro e he; cases he
  | cons hd t ih =>
    obtain ⟨k, o⟩ := hd
    by_cases ho : o.type = p
    · simp [HypEthInterface.firstOfType, ho] at h
    · simp only [HypEthInterface.firstOfType, ho, if_false] at h
      intro e he
      rcases List.mem_cons.mp he with he | he
      · rw [he]; exact ho
      · exact ih h e he

theorem firstOfType_mem (p : Protocol) (m : StdMap HypIPAddress) (k : String)
    (h : HypEthInterface.firstOfType p m = some k) : ∃ o, (k, o) ∈ m ∧ o.type = p := by
  induction m with
  | nil => cases h
  | cons hd t ih =>
    obtain ⟨k1, o1⟩ := hd
    by_cases ho : o1.type = p
    · simp only [HypEthInterface.firstOfType, ho, if_true, Option.some.injEq] at h
      exact ⟨o1, h ▸ List.mem_cons_self _ _, ho⟩
    · simp only [HypEthInterface.firstOfType, ho, if_false] at h
      obtain ⟨o, h1, h2⟩ := ih h
      exact ⟨o, List.mem_cons_of_mem _ h1, h2⟩

theorem erase_firstOfType (p : Protocol) (m : StdMap HypIPAddress) (k : String)
    (hs : StdMap.Sorted m) (h : HypEthInterface.firstOfType p m = some k) :
    ∃ pre o post, m = pre ++ (k, o) :: post ∧ o.type = p ∧ (∀ e ∈ pre, e.2.type ≠ p) ∧
      StdMap.erase m k = pre ++ post := by
  induction m with
  | nil => cases h
  | cons hd t ih =>
    obtain ⟨k1, o1⟩ := hd
    obtain ⟨h1, h2⟩ := (StdMap.sorted_cons k1 o1 t).mp hs
    by_cases ho : o1.type = p
    · simp only [HypEthInterface.firstOfType, ho, if_true, Option.some.injEq] at h
      subst h
      exact ⟨[], o1, t, rfl, ho, fun e he => (by cases he), (by simp [StdMap.erase])⟩
    · simp only [HypEthInterface.firstOfType, ho, if_false] at h
      obtain ⟨o, hmem, _⟩ := firstOfType_mem p t k h
      have hne : k1 ≠ k := keyLt_ne _ _ (h1 (k, o) hmem)
      obtain ⟨pre, o2, post, e1, e2, e3, e4⟩ := ih h2 h
      refine ⟨(k1, o1) :: pre, o2, post, by rw [e1]; rfl, e2, ?_, ?_⟩
      · intro e he
        rcases List.mem_cons.mp he with he | he
        · rw [he]; exact ho
        · exact e3 e he
      · simp only [StdMap.erase, hne, if_false, e4]
        rfl

/-- The address set on which `ip` performs its final assignment: the set
without the first record of the protocol. -/
theorem ip_accepted_addrs (env : Env) (s : HypEthInterface) (p : Protocol) (a : String)
    (l : uint8_t) (g : String)
    (ha : env.isValidIP (familyOf p) a = true) (hg : env.isValidIP (familyOf p) g = true)
    (hl : env.isValidPrefix (familyOf p) l = true) :
    ∃ rec : HypIPAddress, rec.type = p ∧ rec.address = a ∧
      (HypEthInterface.ip env s p a l g).state.addrs =
        StdMap.insert_or_assign
          (match HypEthInterface.firstOfType p s.addrs with
            | some k => StdMap.erase s.addrs k
            | none => s.addrs) a rec := by
  rw [HypEthInterface.ip_accepted env s p a l g ha hg hl]
  simp only [HypEthInterface.IpResult.state, HypEthInterface.ipStore,
    HypEthInterface.ipEntry_addrs]
  exact ⟨_, rfl, rfl, rfl⟩

/-- What remains of a sorted address set with at most one record of protocol
`p` once `ip` has extracted that record, when the key `a` holds no record of
the other protocol. -/
theorem extracted_addrs (p : Protocol) (m : StdMap HypIPAddress) (a : String)
    (hs : StdMap.Sorted m) (hone : countOfType p m ≤ 1)
    (hfree : ∀ r, StdMap.find m a = some r → r.type = p) :
    countOfType p
        (match HypEthInterface.firstOfType p m with
          | some k => StdMap.erase m k
          | none => m) = 0 ∧
      othersOf p
        (match HypEthInterface.firstOfType p m with
          | some k => StdMap.erase m k
          | none => m) = othersOf p m ∧
      StdMap.find
        (match HypEthInterface.firstOfType p m with
          | some k => StdMap.erase m k
          | none => m) a = none ∧
      (∀ kold, HypEthInterface.firstOfType p m = some kold →
        StdMap.find
          (match HypEthInterface.firstOfType p m with
            | some k => StdMap.erase m k
            | none => m) kold = none) ∧
      (countOfType p m = 0 →
        (match HypEthInterface.firstOfType p m with
          | some k => StdMap.erase m k
          | none => m) = m) := by
  cases hf : HypEthInterface.firstOfType p m with
  | none =>
    have hno := firstOfType_none p m hf
    refine ⟨(countOfType_eq_zero p m).mpr hno, rfl, ?_, ?_, ?_⟩
    · cases hfa : StdMap.find m a with
      | none => rfl
      | some r => exact absurd (hfree r hfa) (hno (a, r) (StdMap.mem_of_find m a r hfa))
    · intro kold h
      cases h
    · intro _
      rfl
  | some k =>
    obtain ⟨pre, o, post, e1, e2, e3, e4⟩ := erase_firstOfType p m k hs hf
    have hpre : countOfType p pre = 0 := (countOfType_eq_zero p pre).mpr e3
    have hcount : countOfType p m = 1 + countOfType p post := by
      rw [e1, countOfType_append, countOfType_cons, hpre]
      simp [e2]
    have hpost : countOfType p post = 0 := by omega
    have hB : countOfType p (StdMap.erase m k) = 0 := by
      rw [e4, countOfType_append, hpre, hpost]
    show countOfType p (StdMap.erase m k) = 0 ∧
      othersOf p (StdMap.erase m k) = othersOf p m ∧
      StdMap.find (StdMap.erase m k) a = none ∧
      (∀ kold, some k = some kold → StdMap.find (StdMap.erase m k) kold = none) ∧
      (countOfType p m = 0 → StdMap.erase m k = m)
    refine ⟨hB, ?_, ?_, ?_, ?_⟩
    · rw [e4, e1, othersOf_append, othersOf_append, othersOf_cons_same p _ _ e2]
    · by_cases hak : a = k
      · rw [hak]
        exact StdMap.find_erase_self m k hs
      · cases hfa : StdMap.find (StdMap.erase m k) a with
        | none => rfl
        | some r =>
          have h1 : StdMap.find m a = some r := by
            rw [← StdMap.find_erase_ne m k a hak]
            exact hfa
          exact absurd (hfree r h1)
            ((countOfType_eq_zero p _).mp hB (a, r) (StdMap.mem_of_find _ a r hfa))
    · intro kold hk
      cases hk
      exact StdMap.find_erase_self m k hs
    · intro h0
      omega

/-! ## Further results on the handler -/

/-- Single-field reconciliation for a record that the key test finds: let the
snapshot hold the managed key
`vmi_<if>_<p>_<field>` with a cached value that diverges from the freshly
read one (as strings, the cached one non-empty, for ipaddr and gateway; as
`uint8_t` for prefix_length), let every other snapshot entry be quiet for
every pair, let the mode test fire for no pair, and let `k0` be the first key
of the interface's address set that contains a dot (ipv4) or a double colon
(ipv6). Then one run of the handler returns after setting that field of the
record stored under `k0` to the fresh value, with every other record, every
other field, the modes and the staged writes as before, and with the cached
entry of the key replaced by the fresh value. -/
theorem single_field_reconciliation (env : Env) (bios : BiosTable)
    (interfacesProperties : List String) (mgr : HypNetworkMgr) (i : Nat) (hi : i < 2)
    (p : Protocol) (fld : SyncField) (v : AttrValue) (ethObj : HypEthInterface) (k0 : String)
    (hprops : interfacesProperties.contains "BaseBIOSTable" = true)
    (hmem : (managedKey i p fld, v) ∈ mgr.biosTableAttrs)
    (hmode : ∀ i1 p1, i1 < 2 → ModeCalm bios mgr i1 p1)
    (hothers : ∀ i1 p1, i1 < 2 → ∀ e ∈ mgr.biosTableAttrs, e ≠ (managedKey i p fld, v) →
      EntryQuiet bios (intfName i1) (protocolName p1) e)
    (hdiv : Diverges fld v (getAttrFromBiosTable bios (managedKey i p fld)))
    (heth : StdMap.find mgr.ethIntfList (ethLabel i) = some ethObj)
    (hkey : firstKey (protocolName p) ethObj.addrs = some k0) :
    BIOSAttrUpdate env bios interfacesProperties mgr =
      Flow.ret
        { ethIntfList := StdMap.modify mgr.ethIntfList (ethLabel i)
            (fun _ => { ethObj with
              addrs := StdMap.modify ethObj.addrs k0
                (setField fld (getAttrFromBiosTable bios (managedKey i p fld))) }),
          biosTableAttrs := StdMap.modify mgr.biosTableAttrs (managedKey i p fld)
            (fun _ => cachedAfter fld (getAttrFromBiosTable bios (managedKey i p fld))) } := by
  have hd := syncPair_diverge env bios i hi p fld v mgr ethObj k0 hmem (hmode i p hi)
    (hothers i p hi) hdiv heth hkey
  rw [handler_stops_at env bios interfacesProperties mgr hprops i hi p ?_ (by rw [hd]; rfl), hd]
  intro i1 p1 hi1 hlt
  apply syncPair_quiet env bios i1 p1 mgr (hmode i1 p1 hi1)
  intro e he
  by_cases hek : e = (managedKey i p fld, v)
  · rw [hek]
    exact entryQuiet_other_pair bios i i1 hi hi1 p p1 fld v (Nat.ne_of_lt hlt)
  · exact hothers i1 p1 hi1 e he hek

/-- The scenario of the single-field claim, by `single_field_reconciliation`. `eth0` holds the IPv4 record
(10.10.10.10, prefix 16, gateway "") and the table's `vmi_if0_ipv4_ipaddr` has
changed to 10.10.10.20; the pass sets the address of that record and the
cached entry to 10.10.10.20 and changes nothing else. -/
theorem single_field_reconciliation_scenario :
    BIOSAttrUpdate sampleEnv
      (tableSet (tableOf sampleAttrs) "vmi_if0_ipv4_ipaddr" (AttrValue.str "10.10.10.20"))
      ["BaseBIOSTable"] (sampleMgr DHCPConf.none DHCPConf.none sampleAttrs) =
    Flow.ret
      { ethIntfList :=
          [("eth0", { sampleEth0 DHCPConf.none with
              addrs := [("10.10.10.10", { recV4 with address := "10.10.10.20" }),
                ("fe80::1", mkRec "eth0" "if0" "ipv6" Protocol.IPv6 "fe80::1" 64 "fe80::fe")] }),
           ("eth1", sampleEth1 DHCPConf.none)],
        biosTableAttrs :=
          attrsWith sampleAttrs "vmi_if0_ipv4_ipaddr" (AttrValue.str "10.10.10.20") } :=
  (single_field_reconciliation sampleEnv
    (tableSet (tableOf sampleAttrs) "vmi_if0_ipv4_ipaddr" (AttrValue.str "10.10.10.20"))
    ["BaseBIOSTable"] (sampleMgr DHCPConf.none DHCPConf.none sampleAttrs) 0 (by decide)
    Protocol.IPv4 SyncField.ipaddr (AttrValue.str "10.10.10.10") (sampleEth0 DHCPConf.none)
    "10.10.10.10" (by decide) (by decide)
    (fun i1 p1 h => by
      interval_cases i1 <;> cases p1 <;> exact ⟨_, _, rfl, rfl, by decide, by decide⟩)
    (fun i1 p1 h => by interval_cases i1 <;> cases p1 <;> decide)
    ⟨"10.10.10.10", "10.10.10.20", rfl, by decide, rfl, by decide⟩
    (by decide) (by decide)).trans (by decide)

/-- Frame property of a pass without divergence: if for every managed interface and protocol the mode test
has nothing to do (the method value read is neither `IPv4DHCP` on local mode
`none` nor `IPv4Static` on a local mode other than `none`) and for every
snapshot entry whose key ends in `<if>_<protocol>_<field>` the freshly read
value equals the cached one, the pass leaves the whole manager state as it
was: modes, address records, staged writes and cached snapshot. -/
theorem no_divergence_no_effect (env : Env) (bios : BiosTable)
    (interfacesProperties : List String) (mgr : HypNetworkMgr)
    (hmode : ∀ i, i < 2 → ∀ p, ModeIdle bios mgr i p)
    (hent : ∀ i, i < 2 → ∀ p, ∀ e ∈ mgr.biosTableAttrs,
      EntrySame bios (intfName i) (protocolName p) e) :
    (BIOSAttrUpdate env bios interfacesProperties mgr).mgr = mgr := by
  have hpairs : (forEach (fun i => forEach (syncPair env bios i) ["ipv4", "ipv6"])
      (List.range MAX_INTF_SUPPORTED) mgr).mgr = mgr := by
    apply forEach_stable
    intro i hi
    have hi2 : i < 2 := List.mem_range.mp hi
    apply forEach_stable
    intro protocol hp
    simp only [List.mem_cons, List.mem_singleton, List.not_mem_nil, or_false] at hp
    rcases hp with hp | hp
    · subst hp
      exact syncPair_same env bios i Protocol.IPv4 mgr (hmode i hi2 _) (hent i hi2 _)
    · subst hp
      exact syncPair_same env bios i Protocol.IPv6 mgr (hmode i hi2 _) (hent i hi2 _)
  unfold BIOSAttrUpdate
  split
  · rfl
  · cases hr : forEach (fun i => forEach (syncPair env bios i) ["ipv4", "ipv6"])
        (List.range MAX_INTF_SUPPORTED) mgr with
    | next m1 => rw [hr] at hpairs; exact hpairs
    | ret m1 => rw [hr] at hpairs; exact hpairs
    | raise m1 => rw [hr] at hpairs; exact hpairs

/-- An instance of `no_divergence_no_effect`: the table answers every read with the cached value and the
method attributes are static like the local modes; the pass changes nothing. -/
theorem no_divergence_no_effect_scenario :
    (BIOSAttrUpdate sampleEnv (tableOf sampleAttrs) ["BaseBIOSTable"]
      (sampleMgr DHCPConf.none DHCPConf.none sampleAttrs)).mgr =
    sampleMgr DHCPConf.none DHCPConf.none sampleAttrs :=
  no_divergence_no_effect sampleEnv (tableOf sampleAttrs) ["BaseBIOSTable"]
    (sampleMgr DHCPConf.none DHCPConf.none sampleAttrs)
    (fun i1 h p1 => modeIdle_of_calm _ _ i1 p1 (by
      interval_cases i1 <;> cases p1 <;> exact ⟨_, _, rfl, rfl, by decide, by decide⟩))
    (fun i1 h p1 => by interval_cases i1 <;> cases p1 <;> decide)

/-! ## Claims on the client mutation path -/

open HypEthInterface

/-- C1 (counterexample): on `eth0` in mode `both`, holding one IPv4 record, the
call `ip(IPv4, "127.0.0.1", 16, "10.10.10.1")` is rejected because `isValidIP`
refuses the loopback address, yet the state has changed: the mode is now `v6`
and an origin write has been staged; only the address set is as before. -/
theorem C1_counterexample :
    sampleEnv.isValidIP (familyOf Protocol.IPv4) "127.0.0.1" = false ∧
    (ip sampleEnv (eth0With DHCPConf.both) Protocol.IPv4 "127.0.0.1" 16 "10.10.10.1").failed
      = true ∧
    (ip sampleEnv (eth0With DHCPConf.both) Protocol.IPv4 "127.0.0.1" 16 "10.10.10.1").state
      ≠ eth0With DHCPConf.both ∧
    (eth0With DHCPConf.both).dhcpConf = DHCPConf.both ∧
    (ip sampleEnv (eth0With DHCPConf.both) Protocol.IPv4 "127.0.0.1" 16
      "10.10.10.1").state.dhcpConf = DHCPConf.v6 ∧
    (eth0With DHCPConf.both).staged = [] ∧
    (ip sampleEnv (eth0With DHCPConf.both) Protocol.IPv4 "127.0.0.1" 16
      "10.10.10.1").state.staged =
      [BiosCall.updateBiosPendingAttrs recV4.objectPath
        [("vmi_if0_ipv4_method", (biosEnumType, AttrValue.str "IPv4DHCP"))]] := by
  decide

/-- C1 (amended): a call of `ip` that a validator rejects fails with
`InvalidArgument` and leaves the address set and the object path as they were;
when DHCP is not enabled for the protocol of the call, the whole interface
state (mode, address set, staged writes) is identical to the state before. -/
theorem C1_ip_rejected_frame (env : Env) (s : HypEthInterface) (p : Protocol) (a : String)
    (l : uint8_t) (g : String)
    (h : env.isValidIP (familyOf p) a = false ∨ env.isValidIP (familyOf p) g = false ∨
      env.isValidPrefix (familyOf p) l = false) :
    (ip env s p a l g).failed = true ∧
    (ip env s p a l g).state.addrs = s.addrs ∧
    (ip env s p a l g).state.objectPath = s.objectPath ∧
    (isDHCPEnabled s p false = false → (ip env s p a l g).state = s) := by
  obtain ⟨hf, hs⟩ := ip_rejected env s p a l g h
  refine ⟨hf, ?_, ?_, ?_⟩
  · rw [hs, ipEntry_addrs]
  · rw [hs, ipEntry_objectPath]
  · intro hd
    rw [hs, ipEntry_of_not_enabled env s p hd]

/-- C1 (witness): the amended statement at the rejected loopback call on
`eth0` in mode `v6`, where DHCP is not enabled for IPv4. -/
theorem C1_ip_rejected_frame_witness :
    (sampleEnv.isValidIP (familyOf Protocol.IPv4) "127.0.0.1" = false ∨
      sampleEnv.isValidIP (familyOf Protocol.IPv4) "10.10.10.1" = false ∨
      sampleEnv.isValidPrefix (familyOf Protocol.IPv4) 16 = false) ∧
    isDHCPEnabled (eth0With DHCPConf.v6) Protocol.IPv4 false = false ∧
    (ip sampleEnv (eth0With DHCPConf.v6) Protocol.IPv4 "127.0.0.1" 16 "10.10.10.1").state
      = eth0With DHCPConf.v6 :=
  ⟨by decide, by decide,
    (C1_ip_rejected_frame sampleEnv (eth0With DHCPConf.v6) Protocol.IPv4 "127.0.0.1" 16
      "10.10.10.1" (by decide)).2.2.2 (by decide)⟩

/-- C2: when the validators accept address, gateway and prefix length, `ip`
returns an object path and the address set then holds, under the key
`address`, a record whose protocol, address, prefix length and gateway are the
supplied values and whose origin is Static. -/
theorem C2_ip_read_after_set (env : Env) (s : HypEthInterface) (p : Protocol) (a : String)
    (l : uint8_t) (g : String)
    (ha : env.isValidIP (familyOf p) a = true) (hg : env.isValidIP (familyOf p) g = true)
    (hl : env.isValidPrefix (familyOf p) l = true) :
    (ip env s p a l g).failed = false ∧
    ∃ r : HypIPAddress,
      StdMap.find (ip env s p a l g).state.addrs a = some r ∧
      r.type = p ∧ r.address = a ∧ r.prefixLength = l ∧ r.gateway = g ∧
      r.origin = AddressOrigin.Static := by
  exact ip_stored_record env s p a l g ha hg hl

/-- C2 (witness): `ip(IPv4, "10.10.10.20", 24, "10.10.10.1")` on `eth0`. -/
theorem C2_ip_read_after_set_witness :
    ∃ r : HypIPAddress,
      StdMap.find (ip sampleEnv (eth0With DHCPConf.none) Protocol.IPv4 "10.10.10.20" 24
        "10.10.10.1").state.addrs "10.10.10.20" = some r ∧
      r.type = Protocol.IPv4 ∧ r.address = "10.10.10.20" ∧ r.prefixLength = 24 ∧
      r.gateway = "10.10.10.1" ∧ r.origin = AddressOrigin.Static :=
  (C2_ip_read_after_set sampleEnv (eth0With DHCPConf.none) Protocol.IPv4 "10.10.10.20" 24
    "10.10.10.1" (by decide) (by decide) (by decide)).2

/-- C3: `disableDHCP(p)` and every accepted `ip(p, ...)` leave the mode of the
table of the claim (`both` to `v6` or `v4`, `v4`/`v6` to `none` for their own
protocol, otherwise unchanged): the component of `p` is cleared, that of the
other protocol is what it was. On mode `both` an accepted
`ip(IPv4, "10.10.10.10", 16, "10.10.10.1")` leaves mode `v6` and an IPv4
record with origin Static. -/
theorem C3_disable_per_protocol (env : Env) (s : HypEthInterface) (p : Protocol) :
    (disableDHCP env s p).dhcpConf = specClearComponent p s.dhcpConf ∧
    specComponent (disableDHCP env s p).dhcpConf p = false ∧
    (∀ q, q ≠ p →
      specComponent (disableDHCP env s p).dhcpConf q = specComponent s.dhcpConf q) ∧
    (∀ (a : String) (l : uint8_t) (g : String),
      env.isValidIP (familyOf p) a = true → env.isValidIP (familyOf p) g = true →
      env.isValidPrefix (familyOf p) l = true →
      (ip env s p a l g).failed = false ∧
      (ip env s p a l g).state.dhcpConf = specClearComponent p s.dhcpConf) ∧
    (s.dhcpConf = DHCPConf.both → p = Protocol.IPv4 →
      env.isValidIP AF_INET "10.10.10.10" = true → env.isValidIP AF_INET "10.10.10.1" = true →
      env.isValidPrefix AF_INET 16 = true →
      (ip env s p "10.10.10.10" 16 "10.10.10.1").state.dhcpConf = DHCPConf.v6 ∧
      ∃ r : HypIPAddress,
        StdMap.find (ip env s p "10.10.10.10" 16 "10.10.10.1").state.addrs "10.10.10.10"
          = some r ∧
        r.type = Protocol.IPv4 ∧ r.origin = AddressOrigin.Static ∧
        r.address = "10.10.10.10" ∧ r.prefixLength = 16 ∧ r.gateway = "10.10.10.1") := by
  have hmode : ∀ (a : String) (l : uint8_t) (g : String),
      env.isValidIP (familyOf p) a = true → env.isValidIP (familyOf p) g = true →
      env.isValidPrefix (familyOf p) l = true →
      (ip env s p a l g).failed = false ∧
      (ip env s p a l g).state.dhcpConf = specClearComponent p s.dhcpConf := by
    intro a l g ha hg hl
    rw [ip_accepted env s p a l g ha hg hl]
    exact ⟨rfl, ipEntry_dhcpConf env s p⟩
  refine ⟨disableDHCP_dhcpConf env s p, ?_, ?_, hmode, ?_⟩
  · rw [disableDHCP_dhcpConf]
    cases s.dhcpConf <;> cases p <;> rfl
  · intro q hq
    rw [disableDHCP_dhcpConf]
    cases s.dhcpConf <;> cases p <;> cases q <;> first | rfl | exact absurd rfl hq
  · intro hb hp h1 h2 h3
    subst hp
    have hfam : familyOf Protocol.IPv4 = AF_INET := rfl
    refine ⟨?_, ?_⟩
    · rw [(hmode "10.10.10.10" 16 "10.10.10.1" (hfam ▸ h1) (hfam ▸ h2) (hfam ▸ h3)).2, hb]
      rfl
    · obtain ⟨_, r, hr, ht, ha, hl, hg, ho⟩ :=
        ip_stored_record env s Protocol.IPv4 "10.10.10.10" 16 "10.10.10.1" (hfam ▸ h1) (hfam ▸ h2)
          (hfam ▸ h3)
      exact ⟨r, hr, ht, ho, ha, hl, hg⟩

/-- C3 (witness): the statement at `eth0` in mode `both` and protocol IPv4,
with the scenario call accepted by the validators. -/
theorem C3_disable_per_protocol_witness :
    (disableDHCP sampleEnv (eth0With DHCPConf.both) Protocol.IPv4).dhcpConf = DHCPConf.v6 ∧
    (ip sampleEnv (eth0With DHCPConf.both) Protocol.IPv4 "10.10.10.10" 16
      "10.10.10.1").state.dhcpConf = DHCPConf.v6 ∧
    ∃ r : HypIPAddress,
      StdMap.find (ip sampleEnv (eth0With DHCPConf.both) Protocol.IPv4 "10.10.10.10" 16
        "10.10.10.1").state.addrs "10.10.10.10" = some r ∧
      r.type = Protocol.IPv4 ∧ r.origin = AddressOrigin.Static ∧
      r.address = "10.10.10.10" ∧ r.prefixLength = 16 ∧ r.gateway = "10.10.10.1" :=
  ⟨(C3_disable_per_protocol sampleEnv (eth0With DHCPConf.both) Protocol.IPv4).1,
    (C3_disable_per_protocol sampleEnv (eth0With DHCPConf.both) Protocol.IPv4).2.2.2.2 rfl rfl
      (by decide) (by decide) (by decide)⟩

/-! ## Claims on the table-change handler -/

/-- C4 (code at the failing input): `eth0` holds an IPv6 record, stored by `ip` under the
address `2001:db8:1:2:3:4:5:6`; every cached value is non-empty, the method
attributes are static like the local modes, and the table differs from the
snapshot in the key `vmi_if0_ipv6_ipaddr` only. The pass returns with the
manager unchanged: the record keeps its address and the cached entry its old
value, because no key of the address set contains a double colon. -/
theorem C4_unmatched_key_not_synced :
    (StdMap.find eth0FullV6.addrs "2001:db8:1:2:3:4:5:6").map (fun r => r.type)
      = some Protocol.IPv6 ∧
    (∀ e ∈ attrsFullV6, e.2 ≠ AttrValue.str "") ∧
    (∀ q ∈ allPairs,
      getAttrFromBiosTable
        (tableSet (tableOf attrsFullV6) "vmi_if0_ipv6_ipaddr"
          (AttrValue.str "2001:db8:1:2:3:4:5:7")) (methodKey q.1 q.2) =
        AttrValue.str (match q.2 with
          | Protocol.IPv4 => "IPv4Static"
          | Protocol.IPv6 => "IPv6Static")) ∧
    (∀ e ∈ attrsFullV6,
      (getAttrFromBiosTable
        (tableSet (tableOf attrsFullV6) "vmi_if0_ipv6_ipaddr"
          (AttrValue.str "2001:db8:1:2:3:4:5:7")) e.1 ≠ e.2 ↔
        e.1 = managedKey 0 Protocol.IPv6 SyncField.ipaddr)) ∧
    BIOSAttrUpdate sampleEnv
      (tableSet (tableOf attrsFullV6) "vmi_if0_ipv6_ipaddr"
        (AttrValue.str "2001:db8:1:2:3:4:5:7"))
      ["BaseBIOSTable"] mgrFullV6 = Flow.ret mgrFullV6 := by
  decide

/-- C5 (code at the failing input): all cached values are non-empty and the
read of `vmi_if0_ipv4_ipaddr` fails, so that `getAttrFromBiosTable` yields
the empty string. The pass writes that empty string into the address of the
IPv4 record of `eth0` and into the cached entry of the key. When instead the
read of `vmi_if0_ipv4_prefix_length` fails, `std::get<int64_t>` throws out of
the handler. -/
theorem C5_failed_read_is_applied :
    (∀ e ∈ sampleAttrs, e.2 ≠ AttrValue.str "") ∧
    getAttrFromBiosTable (tableFail (tableOf sampleAttrs) "vmi_if0_ipv4_ipaddr")
      "vmi_if0_ipv4_ipaddr" = AttrValue.str "" ∧
    BIOSAttrUpdate sampleEnv (tableFail (tableOf sampleAttrs) "vmi_if0_ipv4_ipaddr")
      ["BaseBIOSTable"] (sampleMgr DHCPConf.none DHCPConf.none sampleAttrs) =
    Flow.ret
      { ethIntfList :=
          [("eth0", { sampleEth0 DHCPConf.none with
              addrs := [("10.10.10.10", { recV4 with address := "" }),
                ("fe80::1", mkRec "eth0" "if0" "ipv6" Protocol.IPv6 "fe80::1" 64 "fe80::fe")] }),
           ("eth1", sampleEth1 DHCPConf.none)],
        biosTableAttrs := attrsWith sampleAttrs "vmi_if0_ipv4_ipaddr" (AttrValue.str "") } ∧
    BIOSAttrUpdate sampleEnv (tableFail (tableOf sampleAttrs) "vmi_if0_ipv4_prefix_length")
      ["BaseBIOSTable"] (sampleMgr DHCPConf.none DHCPConf.none sampleAttrs) =
    Flow.raise (sampleMgr DHCPConf.none DHCPConf.none sampleAttrs) := by
  decide

/-- C6 (counterexample): the cached value of `vmi_if0_ipv4_ipaddr` is empty.
First input: the table's `vmi_if0_ipv4_gateway`, which the scan visits before
that key, has changed; the pass sets the gateway of the IPv4 record and the
cached gateway entry. Second input: the table's method attribute says
`IPv4DHCP` while `eth0` is in mode `none`; the pass sets the mode to `v4` and
stages an origin write before it reaches the empty value. -/
theorem C6_counterexample :
    StdMap.find (attrsWith sampleAttrs "vmi_if0_ipv4_ipaddr" (AttrValue.str ""))
      "vmi_if0_ipv4_ipaddr" = some (AttrValue.str "") ∧
    BIOSAttrUpdate sampleEnv
      (tableSet (tableOf sampleAttrs) "vmi_if0_ipv4_gateway" (AttrValue.str "10.10.10.254"))
      ["BaseBIOSTable"]
      (sampleMgr DHCPConf.none DHCPConf.none
        (attrsWith sampleAttrs "vmi_if0_ipv4_ipaddr" (AttrValue.str ""))) =
    Flow.ret
      { ethIntfList :=
          [("eth0", { sampleEth0 DHCPConf.none with
              addrs := [("10.10.10.10", { recV4 with gateway := "10.10.10.254" }),
                ("fe80::1", mkRec "eth0" "if0" "ipv6" Protocol.IPv6 "fe80::1" 64 "fe80::fe")] }),
           ("eth1", sampleEth1 DHCPConf.none)],
        biosTableAttrs :=
          attrsWith (attrsWith sampleAttrs "vmi_if0_ipv4_ipaddr" (AttrValue.str ""))
            "vmi_if0_ipv4_gateway" (AttrValue.str "10.10.10.254") } ∧
    BIOSAttrUpdate sampleEnv
      (tableSet (tableOf sampleAttrs) "vmi_if0_ipv4_method" (AttrValue.str "IPv4DHCP"))
      ["BaseBIOSTable"]
      (sampleMgr DHCPConf.none DHCPConf.none
        (attrsWith sampleAttrs "vmi_if0_ipv4_ipaddr" (AttrValue.str ""))) =
    Flow.ret
      { ethIntfList :=
          [("eth0", { sampleEth0 DHCPConf.v4 with
              staged := [BiosCall.updateBiosPendingAttrs recV4.objectPath
                [("vmi_if0_ipv4_method", (biosEnumType, AttrValue.str "IPv4DHCP"))]] }),
           ("eth1", sampleEth1 DHCPConf.none)],
        biosTableAttrs := attrsWith sampleAttrs "vmi_if0_ipv4_ipaddr" (AttrValue.str "") } := by
  decide

/-- C6 (amended): let the cached value of the managed ipaddr or gateway key
of the pair (`i`, `p`) be empty, let `pre` be the snapshot entries that
precede it in key order, and let nothing that the pass visits before that key
call for a change: the mode test is idle for every pair up to (`i`, `p`), the
pairs visited before (`i`, `p`) show no divergence, and no entry of `pre`
diverges for (`i`, `p`). Then the pass changes nothing at all, whatever the
attribute store returns for that key, for later entries and for later pairs. -/
theorem C6_empty_snapshot_guard (env : Env) (bios : BiosTable)
    (interfacesProperties : List String) (mgr : HypNetworkMgr) (i : Nat) (hi : i < 2)
    (p : Protocol) (fld : SyncField) (hfld : fld ≠ SyncField.prefixLength)
    (pre post : StdMap AttrValue)
    (hsnap : mgr.biosTableAttrs = pre ++ (managedKey i p fld, AttrValue.str "") :: post)
    (hmode : ∀ i1 p1, i1 < 2 → pairIndex i1 p1 ≤ pairIndex i p → ModeIdle bios mgr i1 p1)
    (hbefore : ∀ i1 p1, i1 < 2 → pairIndex i1 p1 < pairIndex i p →
      ∀ e ∈ mgr.biosTableAttrs, EntrySame bios (intfName i1) (protocolName p1) e)
    (hpre : ∀ e ∈ pre, EntrySame bios (intfName i) (protocolName p) e) :
    (BIOSAttrUpdate env bios interfacesProperties mgr).mgr = mgr := by
  have hg := syncPair_guard env bios i hi p fld hfld mgr pre post hsnap
    (hmode i p hi (Nat.le_refl _)) hpre
  exact handler_stable_until env bios interfacesProperties mgr i hi p
    (fun i1 p1 hi1 hlt =>
      syncPair_same env bios i1 p1 mgr (hmode i1 p1 hi1 (Nat.le_of_lt hlt))
        (hbefore i1 p1 hi1 hlt))
    hg.1 hg.2

/-- C6 (witness): the cached value of `vmi_if0_ipv6_ipaddr` is empty while the
table holds a new address for that key, a new prefix length for the same pair
and a new address for `if1`; nothing visited before the key diverges, and the
pass changes nothing. -/
theorem C6_empty_snapshot_guard_witness :
    (BIOSAttrUpdate sampleEnv
      (tableSet (tableSet (tableSet (tableOf sampleAttrs)
        "vmi_if0_ipv6_ipaddr" (AttrValue.str "fe80::9"))
        "vmi_if0_ipv6_prefix_length" (AttrValue.int 48))
        "vmi_if1_ipv4_ipaddr" (AttrValue.str "10.20.20.99"))
      ["BaseBIOSTable"]
      (sampleMgr DHCPConf.none DHCPConf.none
        (attrsWith sampleAttrs "vmi_if0_ipv6_ipaddr" (AttrValue.str "")))).mgr =
    sampleMgr DHCPConf.none DHCPConf.none
      (attrsWith sampleAttrs "vmi_if0_ipv6_ipaddr" (AttrValue.str "")) :=
  C6_empty_snapshot_guard sampleEnv
    (tableSet (tableSet (tableSet (tableOf sampleAttrs)
      "vmi_if0_ipv6_ipaddr" (AttrValue.str "fe80::9"))
      "vmi_if0_ipv6_prefix_length" (AttrValue.int 48))
      "vmi_if1_ipv4_ipaddr" (AttrValue.str "10.20.20.99"))
    ["BaseBIOSTable"]
    (sampleMgr DHCPConf.none DHCPConf.none
      (attrsWith sampleAttrs "vmi_if0_ipv6_ipaddr" (AttrValue.str "")))
    0 (by decide) Protocol.IPv6 SyncField.ipaddr (by decide)
    (sampleAttrs.take 6) (sampleAttrs.drop 7) (by decide)
    (fun i1 p1 h _ => modeIdle_of_calm _ _ i1 p1 (by
      interval_cases i1 <;> cases p1 <;> exact ⟨_, _, rfl, rfl, by decide, by decide⟩))
    (fun i1 p1 h hlt => by
      interval_cases i1 <;> cases p1 <;> first | decide | exact absurd hlt (by decide))
    (by decide)

/-- C7: whatever the state and the content of the attribute store, one run of
the table-change handler leaves the address sets of all interfaces as they
were except for at most one field (address, gateway or prefix length) of at
most one record, and leaves the cached snapshot as it was except for at most
one entry. -/
theorem C7_single_change_per_notification (env : Env) (bios : BiosTable)
    (interfacesProperties : List String) (mgr : HypNetworkMgr) :
    AtMostOneChange mgr (BIOSAttrUpdate env bios interfacesProperties mgr).mgr := by
  unfold BIOSAttrUpdate
  split
  · exact sameData_atMostOne mgr mgr (sameData_refl mgr)
  · have h := pairs_frame env bios mgr (List.range MAX_INTF_SUPPORTED) mgr (sameData_refl mgr)
    cases hr : forEach (fun i => forEach (syncPair env bios i) ["ipv4", "ipv6"])
        (List.range MAX_INTF_SUPPORTED) mgr with
    | next m1 => exact sameData_atMostOne mgr m1 (h.1 m1 hr)
    | ret m1 =>
      have h2 := h.2
      rw [hr] at h2
      exact h2 rfl
    | raise m1 =>
      have h2 := h.2
      rw [hr] at h2
      exact h2 rfl

/-- C8 (code at the failing input): `eth0` is in mode `v6`; the table says
`IPv4Static` for ipv4 and `IPv6DHCP` for ipv6, in agreement with that mode,
and answers every managed ipaddr, gateway and prefix_length read with the
cached value. The pass nevertheless sets the mode of `eth0` to `none` and
stages an origin write and a reset on its first record. -/
theorem C8_agreeing_table_resets_mode :
    (∀ q ∈ allPairs, ∀ fld ∈ [SyncField.ipaddr, SyncField.gateway, SyncField.prefixLength],
      some (getAttrFromBiosTable
        (tableSet (tableOf sampleAttrs) "vmi_if0_ipv6_method" (AttrValue.str "IPv6DHCP"))
        (managedKey q.1 q.2 fld)) = StdMap.find sampleAttrs (managedKey q.1 q.2 fld)) ∧
    getAttrFromBiosTable
      (tableSet (tableOf sampleAttrs) "vmi_if0_ipv6_method" (AttrValue.str "IPv6DHCP"))
      (methodKey 0 Protocol.IPv4) = AttrValue.str "IPv4Static" ∧
    getAttrFromBiosTable
      (tableSet (tableOf sampleAttrs) "vmi_if0_ipv6_method" (AttrValue.str "IPv6DHCP"))
      (methodKey 0 Protocol.IPv6) = AttrValue.str "IPv6DHCP" ∧
    HypEthInterface.isDHCPEnabled (sampleEth0 DHCPConf.v6) Protocol.IPv4 false = false ∧
    HypEthInterface.isDHCPEnabled (sampleEth0 DHCPConf.v6) Protocol.IPv6 false = true ∧
    BIOSAttrUpdate sampleEnv
      (tableSet (tableOf sampleAttrs) "vmi_if0_ipv6_method" (AttrValue.str "IPv6DHCP"))
      ["BaseBIOSTable"] (sampleMgr DHCPConf.v6 DHCPConf.none sampleAttrs) =
    Flow.ret
      { ethIntfList :=
          [("eth0", { sampleEth0 DHCPConf.none with
              staged := [BiosCall.updateBiosPendingAttrs recV4.objectPath
                  [("vmi_if0_ipv4_method", (biosEnumType, AttrValue.str "IPv4Static"))],
                BiosCall.resetBaseBiosTableAttrs recV4.objectPath] }),
           ("eth1", sampleEth1 DHCPConf.none)],
        biosTableAttrs := sampleAttrs } := by
  decide

/-- C9 (code at the failing inputs): with `eth0` in mode `none` and the
table's `vmi_if0_ipv6_method` saying `IPv6DHCP`, the pass leaves the mode
`none`; with `eth0` in mode `v6` and `vmi_if0_ipv4_method` saying `IPv4DHCP`,
it leaves the mode `v6`. In both cases nothing at all changes. Only the step
from `none` on `IPv4DHCP` is taken, to `v4`. -/
theorem C9_enable_only_ipv4_from_none :
    BIOSAttrUpdate sampleEnv
      (tableSet (tableOf sampleAttrs) "vmi_if0_ipv6_method" (AttrValue.str "IPv6DHCP"))
      ["BaseBIOSTable"] (sampleMgr DHCPConf.none DHCPConf.none sampleAttrs) =
    Flow.ret (sampleMgr DHCPConf.none DHCPConf.none sampleAttrs) ∧
    BIOSAttrUpdate sampleEnv
      (tableSet (tableSet (tableOf sampleAttrs) "vmi_if0_ipv6_method" (AttrValue.str "IPv6DHCP"))
        "vmi_if0_ipv4_method" (AttrValue.str "IPv4DHCP"))
      ["BaseBIOSTable"] (sampleMgr DHCPConf.v6 DHCPConf.none sampleAttrs) =
    Flow.ret (sampleMgr DHCPConf.v6 DHCPConf.none sampleAttrs) ∧
    ((BIOSAttrUpdate sampleEnv
      (tableSet (tableOf sampleAttrs) "vmi_if0_ipv4_method" (AttrValue.str "IPv4DHCP"))
      ["BaseBIOSTable"] (sampleMgr DHCPConf.none DHCPConf.none sampleAttrs)).mgr.ethIntfList.map
        (fun e => (e.1, e.2.dhcpConf))) = [("eth0", DHCPConf.v4), ("eth1", DHCPConf.none)] := by
  decide

/-- C10 (code at the failing inputs): with `eth0` in mode `both` and the
table saying `IPv4Static` and `IPv6DHCP`, the pass sets the mode to `none`,
not `v6`; with the table saying `IPv4DHCP` and `IPv6Static`, it leaves the
mode `both`, not `v4`. Only `v4` on `IPv4Static` ends as the claim says, in
`none`. -/
theorem C10_disable_clears_both :
    ((BIOSAttrUpdate sampleEnv
      (tableSet (tableOf sampleAttrs) "vmi_if0_ipv6_method" (AttrValue.str "IPv6DHCP"))
      ["BaseBIOSTable"] (sampleMgr DHCPConf.both DHCPConf.none sampleAttrs)).mgr.ethIntfList.map
        (fun e => (e.1, e.2.dhcpConf))) = [("eth0", DHCPConf.none), ("eth1", DHCPConf.none)] ∧
    BIOSAttrUpdate sampleEnv
      (tableSet (tableOf sampleAttrs) "vmi_if0_ipv4_method" (AttrValue.str "IPv4DHCP"))
      ["BaseBIOSTable"] (sampleMgr DHCPConf.both DHCPConf.none sampleAttrs) =
    Flow.ret (sampleMgr DHCPConf.both DHCPConf.none sampleAttrs) ∧
    ((BIOSAttrUpdate sampleEnv (tableOf sampleAttrs)
      ["BaseBIOSTable"] (sampleMgr DHCPConf.v4 DHCPConf.none sampleAttrs)).mgr.ethIntfList.map
        (fun e => (e.1, e.2.dhcpConf))) = [("eth0", DHCPConf.none), ("eth1", DHCPConf.none)] := by
  decide

/-! ## Claims on the mode setter, validation and labels -/

/-- C11: a call `dhcpEnabled(m)` made while the mode is already `m` returns
`m` and leaves the whole interface state (mode, address set, staged writes)
as it was; every call returns its argument; and a second call with the same
`m` right after the first returns `m` and changes nothing, so two calls in a
row leave the state and the staged writes of one call. -/
theorem C11_dhcpEnabled_idempotent (env : Env) (s : HypEthInterface) (m : DHCPConf) :
    (s.dhcpConf = m → dhcpEnabledCall env s m = (m, s)) ∧
    (dhcpEnabledCall env s m).1 = m ∧
    (dhcpEnabledCall env s m).2 = dhcpEnabled env s m ∧
    dhcpEnabledCall env (dhcpEnabledCall env s m).2 m = (m, (dhcpEnabledCall env s m).2) ∧
    dhcpEnabled env (dhcpEnabled env s m) m = dhcpEnabled env s m := by
  have h1 : ∀ t : HypEthInterface, t.dhcpConf = m → dhcpEnabledCall env t m = (m, t) := by
    intro t ht
    unfold dhcpEnabledCall
    rw [if_pos ht.symm]
  have h2 : ∀ t : HypEthInterface, (dhcpEnabledCall env t m).2 = dhcpEnabled env t m := by
    intro t
    unfold dhcpEnabledCall dhcpEnabled
    split <;> rfl
  have h3 : (dhcpEnabledCall env s m).1 = m := by
    unfold dhcpEnabledCall
    split <;> rfl
  refine ⟨h1 s, h3, h2 s, ?_, ?_⟩
  · rw [h2 s]
    exact h1 _ (dhcpEnabled_dhcpConf env s m)
  · rw [← h2 (dhcpEnabled env s m), h1 _ (dhcpEnabled_dhcpConf env s m)]

/-- C11 (witness): `dhcpEnabled(v6)` on `eth0` in mode `v6`. -/
theorem C11_dhcpEnabled_idempotent_witness :
    dhcpEnabledCall sampleEnv (sampleEth0 DHCPConf.v6) DHCPConf.v6 =
      (DHCPConf.v6, sampleEth0 DHCPConf.v6) :=
  (C11_dhcpEnabled_idempotent sampleEnv (sampleEth0 DHCPConf.v6) DHCPConf.v6).1 rfl

/-- C12 (code at the failing input): `eth0` is in mode `none` and holds an
IPv4 record under 10.10.10.10 and an IPv6 record under fe80::1. The call
`dhcpEnabled(v6)` stages its one origin write on the IPv4 record, the first of
the address set, with the method `IPv4DHCP`; nothing is staged on the IPv6
record. -/
theorem C12_origin_write_on_first_record :
    (StdMap.find (sampleEth0 DHCPConf.none).addrs "10.10.10.10").map (fun r => r.type)
      = some Protocol.IPv4 ∧
    (StdMap.find (sampleEth0 DHCPConf.none).addrs "fe80::1").map (fun r => r.type)
      = some Protocol.IPv6 ∧
    dhcpEnabled sampleEnv (sampleEth0 DHCPConf.none) DHCPConf.v6 =
      { sampleEth0 DHCPConf.v6 with
        staged := [BiosCall.updateBiosPendingAttrs recV4.objectPath
          [("vmi_if0_ipv4_method", (biosEnumType, AttrValue.str "IPv4DHCP"))]] } := by
  decide

/-- C13: on an interface labelled `if0` or `if1` with an empty address set,
`createIPAddressObjects` run on a snapshot of fewer than 16 entries leaves
exactly two records, stored under `eth<n>/v4` and `eth<n>/v6`: an IPv4 record
with address 0.0.0.0, prefix length 0 and origin Static and an IPv6 record
with address `::`, prefix length 128 and origin Static; it requests the
default attributes for ipv4 and for ipv6 of that label and changes nothing
else. For any other label it changes nothing and requests nothing. -/
theorem C13_default_bootstrap (s : HypEthInterface) (attrs : StdMap AttrValue)
    (u : Indeterminate) :
    ((getIntfLabel s = "if0" ∨ getIntfLabel s = "if1") → s.addrs = [] → attrs.length < 16 →
      ∃ eth : String,
        ((getIntfLabel s = "if0" ∧ eth = "eth0") ∨ (getIntfLabel s = "if1" ∧ eth = "eth1")) ∧
        (createIPAddressObjects s attrs u).st.addrs =
          [(eth ++ "/v4",
              { type := Protocol.IPv4, address := "0.0.0.0", origin := AddressOrigin.Static,
                prefixLength := 0, gateway := "0.0.0.0",
                objectPath := s.objectPath ++ "/ipv4/addr0", intf := getIntfLabel s }),
           (eth ++ "/v6",
              { type := Protocol.IPv6, address := "::", origin := AddressOrigin.Static,
                prefixLength := 128, gateway := "::",
                objectPath := s.objectPath ++ "/ipv6/addr0", intf := getIntfLabel s })] ∧
        (createIPAddressObjects s attrs u).st.dhcpConf = s.dhcpConf ∧
        (createIPAddressObjects s attrs u).st.staged = s.staged ∧
        (createIPAddressObjects s attrs u).defaults =
          [(getIntfLabel s, "ipv4"), (getIntfLabel s, "ipv6")] ∧
        (createIPAddressObjects s attrs u).raised = false) ∧
    (getIntfLabel s ≠ "if0" → getIntfLabel s ≠ "if1" →
      createIPAddressObjects s attrs u = { st := s, defaults := [], raised := false }) := by
  refine ⟨?_, ?_⟩
  · intro hlabel hempty hsize
    have h17 : attrs.length < 17 := by omega
    have k1 : ("eth0/v4" : String) ≠ "eth0/v6" := by decide
    have k2 : keyLt "eth0/v6" "eth0/v4" = false := by decide
    have k3 : ("eth1/v4" : String) ≠ "eth1/v6" := by decide
    have k4 : keyLt "eth1/v6" "eth1/v4" = false := by decide
    have n0 : ("if0" : String) ≠ "" := by decide
    have n1 : ("if1" : String) ≠ "" := by decide
    have n2 : ("if1" : String) ≠ "if0" := by decide
    rcases hlabel with h | h
    · refine ⟨"eth0", Or.inl ⟨h, rfl⟩, ?_⟩
      unfold createIPAddressObjects
      simp only [h, n0, if_false, h17, if_true]
      simp [bootstrapAddrs, hempty, StdMap.emplace, StdMap.find, StdMap.insert_or_assign, k1, k2]
    · refine ⟨"eth1", Or.inr ⟨h, rfl⟩, ?_⟩
      unfold createIPAddressObjects
      simp only [h, n1, n2, if_false, h17, if_true]
      simp [bootstrapAddrs, hempty, StdMap.emplace, StdMap.find, StdMap.insert_or_assign, k3, k4]
  · intro h0 h1
    rcases getIntfLabel_cases s with h | h | h
    · exact absurd h h0
    · exact absurd h h1
    · unfold createIPAddressObjects
      simp only [h, if_true]

/-- C13 (witness): `eth0` with an empty address set and an empty snapshot. -/
theorem C13_default_bootstrap_witness :
    (createIPAddressObjects eth0Both []
      { ipProtocol := Protocol.IPv4, ipOrigin := AddressOrigin.DHCP, ipPrefixLength := 7 }).st.addrs
      =
      [("eth0/v4",
          { type := Protocol.IPv4, address := "0.0.0.0", origin := AddressOrigin.Static,
            prefixLength := 0, gateway := "0.0.0.0",
            objectPath := "/xyz/openbmc_project/network/hypervisor/eth0/ipv4/addr0",
            intf := "if0" }),
       ("eth0/v6",
          { type := Protocol.IPv6, address := "::", origin := AddressOrigin.Static,
            prefixLength := 128, gateway := "::",
            objectPath := "/xyz/openbmc_project/network/hypervisor/eth0/ipv6/addr0",
            intf := "if0" })] := by
  obtain ⟨eth, h1, h2, _⟩ := (C13_default_bootstrap eth0Both []
    { ipProtocol := Protocol.IPv4, ipOrigin := AddressOrigin.DHCP, ipPrefixLength := 7 }).1
    (Or.inl (by decide)) rfl (by decide)
  rw [h2]
  rcases h1 with ⟨_, h⟩ | ⟨h, _⟩
  · rw [h]
    decide
  · exact absurd h (by decide)

/-- C14 (counterexample): `createIPAddressObjects` on `eth0` with an empty
address set and an empty snapshot takes its bootstrap branch and stores the
record with address 0.0.0.0 under the key `eth0/v4` and the record with
address `::` under `eth0/v6`: no entry is stored under its address. -/
theorem C14_counterexample :
    eth0Both.addrs = [] ∧
    (createIPAddressObjects eth0Both [] sampleIndeterminate).st.addrs.map
        (fun e => (e.1, e.2.address)) = [("eth0/v4", "0.0.0.0"), ("eth0/v6", "::")] ∧
    ¬ Keyed (createIPAddressObjects eth0Both [] sampleIndeterminate).st.addrs := by
  refine ⟨rfl, by decide, ?_⟩
  unfold Keyed
  decide

/-- C14 (amended): starting from an address set that is sorted and stored by
address (the empty set is one), every state reached by any sequence of `ip`
calls (accepted or rejected), `deleteObject` calls, runs of
`createIPAddressObjects` on a snapshot of at least 17 entries, and calls
`updateIPAddress(ip, updatedIp)` made when the record under `ip` has the
address `updatedIp`, stores every entry under the address of its record, in
key order, and no two of its records share an address. -/
theorem C14_address_keyed_invariant (env : Env) (s0 s : HypEthInterface)
    (h0 : Keyed s0.addrs ∧ StdMap.Sorted s0.addrs)
    (hr : Relation.ReflTransGen (AddrStep env) s0 s) :
    Keyed s.addrs ∧ StdMap.Sorted s.addrs ∧ DistinctAddresses s.addrs := by
  have h : Keyed s.addrs ∧ StdMap.Sorted s.addrs := by
    induction hr with
    | refl => exact h0
    | tail _ hstep ih => exact addrStep_inv env _ _ hstep ih
  exact ⟨h.1, h.2, distinct_of_keyed_sorted s.addrs h.1 h.2⟩

/-- C14 (witness): from the empty address set of `eth0`, an accepted `ip`
call followed by `deleteObject` of an absent key. -/
theorem C14_address_keyed_invariant_witness :
    Keyed (deleteObject
      (ip sampleEnv eth0Both Protocol.IPv4 "10.10.10.20" 24 "10.10.10.1").state
      "10.10.10.99").addrs :=
  (C14_address_keyed_invariant sampleEnv eth0Both _
    ⟨(fun _ he => nomatch he), List.Pairwise.nil⟩
    (Relation.ReflTransGen.tail
      (Relation.ReflTransGen.single
        (AddrStep.ip eth0Both Protocol.IPv4 "10.10.10.20" 24 "10.10.10.1"))
      (AddrStep.deleteObject _ "10.10.10.99"))).1

/-- C15 (counterexample): `eth0` holds no IPv4 record and one IPv6 record,
stored under the key 10.10.10.10. The accepted call
`ip(IPv4, "10.10.10.10", 16, "10.10.10.1")` assigns the new record to that
key: the IPv6 record is gone and the address set still has one entry. -/
theorem C15_counterexample :
    countOfType Protocol.IPv4 eth0OddV6.addrs = 0 ∧
    (ip sampleEnv eth0OddV6 Protocol.IPv4 "10.10.10.10" 16 "10.10.10.1").failed = false ∧
    (othersOf Protocol.IPv4 eth0OddV6.addrs).length = 1 ∧
    othersOf Protocol.IPv4
      (ip sampleEnv eth0OddV6 Protocol.IPv4 "10.10.10.10" 16 "10.10.10.1").state.addrs = [] ∧
    eth0OddV6.addrs.length = 1 ∧
    (ip sampleEnv eth0OddV6 Protocol.IPv4 "10.10.10.10" 16
      "10.10.10.1").state.addrs.length = 1 := by
  decide

/-- C15 (amended): let the address set, a map in key order, hold at most one
record of protocol `p`, and let the key `address` hold no record of the other
protocol. After an accepted `ip(p, address, prefixLength, gateway)` the set
holds exactly one record of protocol `p`, stored under `address`; the key of
the previous protocol-`p` record, if different, is no longer present; the
entries of the other protocol are the same as before; and when there was no
record of protocol `p` the set has exactly one entry more. -/
theorem C15_one_record_per_protocol (env : Env) (s : HypEthInterface) (p : Protocol)
    (a : String) (l : uint8_t) (g : String)
    (ha : env.isValidIP (familyOf p) a = true) (hg : env.isValidIP (familyOf p) g = true)
    (hl : env.isValidPrefix (familyOf p) l = true)
    (hs : StdMap.Sorted s.addrs) (hone : countOfType p s.addrs ≤ 1)
    (hfree : ∀ r, StdMap.find s.addrs a = some r → r.type = p) :
    countOfType p (ip env s p a l g).state.addrs = 1 ∧
    (∃ r, StdMap.find (ip env s p a l g).state.addrs a = some r ∧ r.type = p) ∧
    (∀ kold, firstOfType p s.addrs = some kold → kold ≠ a →
      StdMap.find (ip env s p a l g).state.addrs kold = none) ∧
    othersOf p (ip env s p a l g).state.addrs = othersOf p s.addrs ∧
    (countOfType p s.addrs = 0 →
      (ip env s p a l g).state.addrs.length = s.addrs.length + 1) := by
  obtain ⟨rec, hrt, _, hres⟩ := ip_accepted_addrs env s p a l g ha hg hl
  obtain ⟨b1, b2, b3, b4, b5⟩ := extracted_addrs p s.addrs a hs hone hfree
  obtain ⟨pre, post, e1, e2⟩ := StdMap.insert_or_assign_of_find_none _ a rec b3
  rw [e1, countOfType_append] at b1
  refine ⟨?_, ⟨rec, ?_, hrt⟩, ?_, ?_, ?_⟩
  · rw [hres, e2, countOfType_append, countOfType_cons]
    simp only [hrt, if_true]
    omega
  · rw [hres]
    exact StdMap.find_insert_or_assign_self _ _ _
  · intro kold hk hne
    rw [hres, StdMap.find_insert_or_assign_ne _ a kold rec hne]
    exact b4 kold hk
  · rw [hres, e2, othersOf_append, othersOf_cons_same p _ _ hrt, ← othersOf_append, ← e1, b2]
  · intro h0
    rw [hres, e2, ← b5 h0, e1]
    simp only [List.length_append, List.length_cons]
    omega

/-- C15 (witness): `ip(IPv4, "10.10.10.20", 24, "10.10.10.1")` on `eth0`,
which holds one IPv4 record under 10.10.10.10 and one IPv6 record. -/
theorem C15_one_record_per_protocol_witness :
    countOfType Protocol.IPv4
      (ip sampleEnv (sampleEth0 DHCPConf.none) Protocol.IPv4 "10.10.10.20" 24
        "10.10.10.1").state.addrs = 1 ∧
    StdMap.find
      (ip sampleEnv (sampleEth0 DHCPConf.none) Protocol.IPv4 "10.10.10.20" 24
        "10.10.10.1").state.addrs "10.10.10.10" = none :=
  ⟨(C15_one_record_per_protocol sampleEnv (sampleEth0 DHCPConf.none) Protocol.IPv4
      "10.10.10.20" 24 "10.10.10.1" (by decide) (by decide) (by decide)
      (by unfold StdMap.Sorted; decide) (by decide) (by decide)).1,
    (C15_one_record_per_protocol sampleEnv (sampleEth0 DHCPConf.none) Protocol.IPv4
      "10.10.10.20" 24 "10.10.10.1" (by decide) (by decide) (by decide)
      (by unfold StdMap.Sorted; decide) (by decide) (by decide)).2.2.1 "10.10.10.10"
      (by decide) (by decide)⟩

/-- C16: `ip` fails with `InvalidArgument` exactly when `isValidIP` rejects
the address or the gateway for the family of the protocol, or `isValidPrefix`
rejects the prefix length for it; in every other case it returns an object
path. -/
theorem C16_ip_fails_iff_invalid (env : Env) (s : HypEthInterface) (p : Protocol)
    (a : String) (l : uint8_t) (g : String) :
    ((ip env s p a l g).failed = true ↔
      (env.isValidIP (familyOf p) a = false ∨ env.isValidIP (familyOf p) g = false ∨
        env.isValidPrefix (familyOf p) l = false)) ∧
    ((ip env s p a l g).failed = false ↔ ∃ objPath st, ip env s p a l g = IpResult.ok objPath st) ∧
    ((ip env s p a l g).failed = true ↔
      ∃ n v st, ip env s p a l g = IpResult.InvalidArgument n v st) := by
  refine ⟨?_, ?_, ?_⟩
  · rcases ip_cases env s p a l g with ⟨h1, h2, _⟩ | ⟨⟨h1, h2, h3⟩, h4⟩
    · exact ⟨fun _ => h1, fun _ => h2⟩
    · rw [h4]
      simp [IpResult.failed, h1, h2, h3]
  · cases h : ip env s p a l g with
    | ok objPath st => simp [IpResult.failed]
    | InvalidArgument n v st => simp [IpResult.failed]
  · cases h : ip env s p a l g with
    | ok objPath st => simp [IpResult.failed]
    | InvalidArgument n v st => simp [IpResult.failed]

/-- C17 (code at the failing input): `ip(IPv4, "10.10.10.10", 16, "127.0.0.1")`
is rejected for its gateway alone; the error names the argument `Gateway` but
carries the address `10.10.10.10` as its value, not the gateway `127.0.0.1`. -/
theorem C17_gateway_error_carries_address :
    sampleEnv.isValidIP (familyOf Protocol.IPv4) "10.10.10.10" = true ∧
    sampleEnv.isValidIP (familyOf Protocol.IPv4) "127.0.0.1" = false ∧
    ip sampleEnv (eth0With DHCPConf.none) Protocol.IPv4 "10.10.10.10" 16 "127.0.0.1" =
      IpResult.InvalidArgument "Gateway" "10.10.10.10" (eth0With DHCPConf.none) := by
  decide

/-- C18 (counterexample): the snapshot holds a further entry under
`mgmt_if0_ipv4_ipaddr`, which is none of the composed managed keys. First
input: the table answers the read of that key with a new value; the pass
applies it to the IPv4 record of `eth0` and to the cached entry and ends.
Second input: the cached value of that entry is an integer; the pass fails
with `std::bad_variant_access`. -/
theorem C18_counterexample :
    (∀ q ∈ allPairs, ∀ fld ∈ [SyncField.ipaddr, SyncField.gateway, SyncField.prefixLength],
      managedKey q.1 q.2 fld ≠ "mgmt_if0_ipv4_ipaddr") ∧
    BIOSAttrUpdate sampleEnv
      (tableSet (tableOf sampleAttrs) "mgmt_if0_ipv4_ipaddr" (AttrValue.str "192.168.0.2"))
      ["BaseBIOSTable"]
      (sampleMgr DHCPConf.none DHCPConf.none
        (("mgmt_if0_ipv4_ipaddr", AttrValue.str "192.168.0.1") :: sampleAttrs)) =
    Flow.ret
      { ethIntfList :=
          [("eth0", { sampleEth0 DHCPConf.none with
              addrs := [("10.10.10.10", { recV4 with address := "192.168.0.2" }),
                ("fe80::1", mkRec "eth0" "if0" "ipv6" Protocol.IPv6 "fe80::1" 64 "fe80::fe")] }),
           ("eth1", sampleEth1 DHCPConf.none)],
        biosTableAttrs :=
          ("mgmt_if0_ipv4_ipaddr", AttrValue.str "192.168.0.2") :: sampleAttrs } ∧
    BIOSAttrUpdate sampleEnv (tableOf sampleAttrs) ["BaseBIOSTable"]
      (sampleMgr DHCPConf.none DHCPConf.none
        (("mgmt_if0_ipv4_ipaddr", AttrValue.int 5) :: sampleAttrs)) =
    Flow.raise
      (sampleMgr DHCPConf.none DHCPConf.none
        (("mgmt_if0_ipv4_ipaddr", AttrValue.int 5) :: sampleAttrs)) := by
  decide

/-- C18 (amended): a snapshot entry whose key ends in none of the suffixes
`<if0|if1>_<ipv4|ipv6>_<ipaddr|gateway|prefix_length>` is skipped by the scan
of every managed pair: whatever the attribute store holds, its round of the
loop passes on with the manager unchanged, and the scan of a snapshot that
contains the entry is the scan of the snapshot without it. -/
theorem C18_unmatched_keys_skipped (bios : BiosTable) (i : Nat) (hi : i < 2) (p : Protocol)
    (label : String) (ethObj : HypEthInterface) (e : String × AttrValue)
    (h : NoSuffix e) :
    (∀ m, checkEntry bios (intfName i) (protocolName p) label ethObj e m = Flow.next m) ∧
    (∀ pre post m,
      forEach (checkEntry bios (intfName i) (protocolName p) label ethObj) (pre ++ e :: post) m =
        forEach (checkEntry bios (intfName i) (protocolName p) label ethObj) (pre ++ post) m) := by
  have hq := entryQuiet_of_noSuffix bios i hi p e h
  have h1 : ∀ m, checkEntry bios (intfName i) (protocolName p) label ethObj e m = Flow.next m :=
    fun m => checkEntry_quiet bios _ _ label ethObj e m hq
  exact ⟨h1, fun pre post m => forEach_remove _ pre post e m h1⟩

/-- C18 (witness): the entry `vmi_hostname` in the scan of if0/ipv4, with a
table whose read of that key fails. -/
theorem C18_unmatched_keys_skipped_witness :
    NoSuffix ("vmi_hostname", AttrValue.str "host") ∧
    checkEntry (tableFail (tableOf sampleAttrs) "vmi_hostname") (intfName 0)
      (protocolName Protocol.IPv4) "eth0" (sampleEth0 DHCPConf.none)
      ("vmi_hostname", AttrValue.str "host")
      (sampleMgr DHCPConf.none DHCPConf.none sampleAttrs) =
    Flow.next (sampleMgr DHCPConf.none DHCPConf.none sampleAttrs) :=
  ⟨by unfold NoSuffix; decide,
    (C18_unmatched_keys_skipped (tableFail (tableOf sampleAttrs) "vmi_hostname") 0 (by decide)
      Protocol.IPv4 "eth0" (sampleEth0 DHCPConf.none) ("vmi_hostname", AttrValue.str "host")
      (by unfold NoSuffix; decide)).1 _⟩

/-- C19: in mode `m` the pair (`isDHCPEnabled(IPv4)`, `isDHCPEnabled(IPv6)`)
is (false, false) for `none`, (true, false) for `v4`, (false, true) for `v6`
and (true, true) for `both`; the map from modes to pairs is injective and
reaches every pair of booleans; and `isDHCPEnabled(p, true)` holds exactly
when the mode is not `none`. -/
theorem C19_mode_flags_bijection :
    (∀ s : HypEthInterface,
      (isDHCPEnabled s Protocol.IPv4 false, isDHCPEnabled s Protocol.IPv6 false) =
        specFlags s.dhcpConf) ∧
    (∀ s t : HypEthInterface,
      (isDHCPEnabled s Protocol.IPv4 false, isDHCPEnabled s Protocol.IPv6 false) =
        (isDHCPEnabled t Protocol.IPv4 false, isDHCPEnabled t Protocol.IPv6 false) →
      s.dhcpConf = t.dhcpConf) ∧
    (∀ (b4 b6 : Bool) (s : HypEthInterface), ∃ m : DHCPConf,
      (isDHCPEnabled { s with dhcpConf := m } Protocol.IPv4 false,
        isDHCPEnabled { s with dhcpConf := m } Protocol.IPv6 false) = (b4, b6)) ∧
    (∀ (s : HypEthInterface) (p : Protocol),
      isDHCPEnabled s p true = true ↔ s.dhcpConf ≠ DHCPConf.none) := by
  refine ⟨?_, ?_, ?_, ?_⟩
  · intro s
    obtain ⟨op, m, a, st⟩ := s
    cases m <;> rfl
  · intro s t h
    obtain ⟨op, m, a, st⟩ := s
    obtain ⟨op1, m1, a1, st1⟩ := t
    cases m <;> cases m1 <;> simp_all [isDHCPEnabled]
  · intro b4 b6 s
    cases b4 <;> cases b6
    · exact ⟨DHCPConf.none, rfl⟩
    · exact ⟨DHCPConf.v6, rfl⟩
    · exact ⟨DHCPConf.v4, rfl⟩
    · exact ⟨DHCPConf.both, rfl⟩
  · intro s p
    obtain ⟨op, m, a, st⟩ := s
    cases m <;> cases p <;> simp [isDHCPEnabled]

/-- C20: every object path has a last segment; for a path whose last segment
is `seg`, `getIntfLabel` returns `if0` when `seg` is `eth0`, `if1` when it is
`eth1` and the empty label otherwise; `if0` and `if1` differ; and on the two
managed interfaces the handler's labels `if<i>` and `eth<i>` invert it: the
label is `if<i>` exactly when the last segment is the interface name the
handler looks up for `if<i>`. -/
theorem C20_interface_label_mapping (s : HypEthInterface) :
    (∃ seg, LastSegment s.objectPath seg) ∧
    (∀ seg, LastSegment s.objectPath seg →
      getIntfLabel s = (if seg = "eth0" then "if0" else if seg = "eth1" then "if1" else "") ∧
      (∀ i, i < 2 → (getIntfLabel s = intfName i ↔ seg = ethLabel i)) ∧
      (getIntfLabel s = "" ↔ (seg ≠ "eth0" ∧ seg ≠ "eth1"))) ∧
    ("if0" : String) ≠ "if1" ∧
    (intfName 0 = "if0" ∧ intfName 1 = "if1" ∧ ethLabel 0 = "eth0" ∧ ethLabel 1 = "eth1") := by
  refine ⟨exists_lastSegment s.objectPath, ?_, by decide, by decide⟩
  intro seg h
  have hl := getIntfLabel_of_segment s seg h
  refine ⟨hl, ?_, ?_⟩
  · intro i hi
    have e0 : intfName 0 = "if0" := by decide
    have e1 : intfName 1 = "if1" := by decide
    have f0 : ethLabel 0 = "eth0" := by decide
    have f1 : ethLabel 1 = "eth1" := by decide
    rw [hl]
    interval_cases i
    · rw [e0, f0]
      by_cases h0 : seg = "eth0"
      · simp [h0]
      · by_cases h1 : seg = "eth1"
        · simp [h1]
        · simp [h0, h1]
    · rw [e1, f1]
      by_cases h0 : seg = "eth0"
      · simp [h0]
      · by_cases h1 : seg = "eth1"
        · simp [h1]
        · simp [h0, h1]
  · rw [hl]
    by_cases h0 : seg = "eth0"
    · simp [h0]
    · by_cases h1 : seg = "eth1"
      · simp [h1]
      · simp [h0, h1]

/-- C20 (witness): the object path of `eth0`, whose last segment is `eth0`. -/
theorem C20_interface_label_mapping_witness :
    LastSegment (eth0With DHCPConf.none).objectPath "eth0" ∧
    getIntfLabel (eth0With DHCPConf.none) = "if0" :=
  ⟨⟨by decide, Or.inr ⟨"/xyz/openbmc_project/network/hypervisor", by decide⟩⟩,
    ((C20_interface_label_mapping (eth0With DHCPConf.none)).2.1 "eth0"
      ⟨by decide, Or.inr ⟨"/xyz/openbmc_project/network/hypervisor", by decide⟩⟩).1⟩

/-! ## Lemmas on re-keying, pending-attribute sets and the binding -/

namespace StdMap

variable {V : Type}

theorem length_insert_or_assign_of_find_none (m : StdMap V) (k : String) (v : V)
    (h : find m k = none) : (insert_or_assign m k v).length = m.length + 1 := by
  obtain ⟨pre, post, e1, e2⟩ := insert_or_assign_of_find_none m k v h
  rw [e2, e1]
  simp only [List.length_append, List.length_cons]
  omega

theorem length_erase_of_find (m : StdMap V) (k : String) (v : V) (h : find m k = some v) :
    (erase m k).length + 1 = m.length := by
  induction m with
  | nil => cases h
  | cons hd t ih =>
    obtain ⟨k1, v1⟩ := hd
    by_cases h1 : k1 = k
    · simp [erase, h1]
    · simp only [find, h1, if_false] at h
      simp [erase, h1, ih h]

theorem erase_of_find_none (m : StdMap V) (k : String) (h : find m k = none) :
    erase m k = m := by
  induction m with
  | nil => rfl
  | cons hd t ih =>
    obtain ⟨k1, v1⟩ := hd
    by_cases h1 : k1 = k
    · simp [find, h1] at h
    · simp only [find, h1, if_false] at h
      simp [erase, h1, ih h]

end StdMap

theorem threeWrites_ipPending (env : Env) (r : HypIPAddress) (a : String) (l : uint8_t)
    (g : String)
    (h1 : env.mapDbusToBiosAttr r "address" ≠ env.mapDbusToBiosAttr r "gateway")
    (h2 : env.mapDbusToBiosAttr r "address" ≠ env.mapDbusToBiosAttr r "prefixLength")
    (h3 : env.mapDbusToBiosAttr r "gateway" ≠ env.mapDbusToBiosAttr r "prefixLength") :
    ThreeWrites (ipPending env r a l g) (env.mapDbusToBiosAttr r "address")
      (env.mapDbusToBiosAttr r "gateway") (env.mapDbusToBiosAttr r "prefixLength") a l g := by
  unfold ThreeWrites ipPending
  refine ⟨?_, ?_, ?_, ?_, ?_⟩
  · rw [StdMap.find_insert_or_assign_ne _ _ _ _ h2, StdMap.find_insert_or_assign_ne _ _ _ _ h1]
    exact StdMap.find_insert_or_assign_self _ _ _
  · rw [StdMap.find_insert_or_assign_ne _ _ _ _ h3]
    exact StdMap.find_insert_or_assign_self _ _ _
  · exact StdMap.find_insert_or_assign_self _ _ _
  · rw [StdMap.length_insert_or_assign_of_find_none, StdMap.length_insert_or_assign_of_find_none,
      StdMap.length_insert_or_assign_of_find_none]
    · rfl
    · rfl
    · rw [StdMap.find_insert_or_assign_ne _ _ _ _ (Ne.symm h1)]
      rfl
    · rw [StdMap.find_insert_or_assign_ne _ _ _ _ (Ne.symm h3),
        StdMap.find_insert_or_assign_ne _ _ _ _ (Ne.symm h2)]
      rfl
  · intro e he
    rcases StdMap.mem_insert_or_assign _ _ _ e he with h | he
    · exact Or.inr (Or.inr (by rw [h]))
    · rcases StdMap.mem_insert_or_assign _ _ _ e he with h | he
      · exact Or.inr (Or.inl (by rw [h]))
      · rcases StdMap.mem_insert_or_assign _ _ _ e he with h | he
        · exact Or.inl (by rw [h])
        · cases he

theorem sampleEnv_collisionFree : CollisionFree sampleEnv := by
  intro r
  have key : ∀ (x y z : String), y.data ≠ z.data → x ++ y ≠ x ++ z := by
    intro x y z hyz h
    apply hyz
    have h1 := congrArg String.data h
    simp only [String.data_append] at h1
    exact List.append_cancel_left h1
  have e1 : (if ("address" : String) = "address" then "ipaddr"
      else if ("address" : String) = "gateway" then "gateway"
      else if ("address" : String) = "prefixLength" then "prefix_length" else "method")
      = "ipaddr" := by decide
  have e2 : (if ("gateway" : String) = "address" then "ipaddr"
      else if ("gateway" : String) = "gateway" then "gateway"
      else if ("gateway" : String) = "prefixLength" then "prefix_length" else "method")
      = "gateway" := by decide
  have e3 : (if ("prefixLength" : String) = "address" then "ipaddr"
      else if ("prefixLength" : String) = "gateway" then "gateway"
      else if ("prefixLength" : String) = "prefixLength" then "prefix_length" else "method")
      = "prefix_length" := by decide
  simp only [sampleEnv, e1, e2, e3]
  exact ⟨key _ _ _ (by decide), key _ _ _ (by decide), key _ _ _ (by decide)⟩

/-- A round of `createIPAddressObjects` for which the snapshot holds the four
attributes with values of their types: it emplaces one record built from them. -/
theorem createForProtocol_of_entries (intfLabel protocol : String) (attrs : StdMap AttrValue)
    (self : HypEthInterface) (loc : CreateLocals) (m a g : String) (n : Int)
    (hm : StdMap.find attrs ("vmi_" ++ intfLabel ++ "_" ++ protocol ++ "_" ++ "method") =
      some (AttrValue.str m))
    (ha : StdMap.find attrs ("vmi_" ++ intfLabel ++ "_" ++ protocol ++ "_" ++ "ipaddr") =
      some (AttrValue.str a))
    (hn : StdMap.find attrs ("vmi_" ++ intfLabel ++ "_" ++ protocol ++ "_" ++ "prefix_length") =
      some (AttrValue.int n))
    (hg : StdMap.find attrs ("vmi_" ++ intfLabel ++ "_" ++ protocol ++ "_" ++ "gateway") =
      some (AttrValue.str g)) :
    ∃ (st : HypEthInterface) (loc1 : CreateLocals) (r : HypIPAddress),
      createForProtocol intfLabel attrs protocol self loc = CreateFlow.next st loc1 ∧
      st.addrs = StdMap.emplace self.addrs a r ∧
      r.address = a ∧ r.prefixLength = toUint8 n ∧ r.gateway = g ∧
      (protocol = "ipv4" → r.type = Protocol.IPv4) ∧
      (protocol = "ipv6" → r.type = Protocol.IPv6) ∧
      st.objectPath = self.objectPath ∧ st.staged = self.staged := by
  unfold createForProtocol
  simp only [hm, ha, hn, hg, getString, getInt64, readAttr, Option.map]
  split_ifs <;> refine ⟨_, _, _, rfl, rfl, rfl, rfl, rfl, ?_, ?_, rfl, rfl⟩ <;> intro h <;>
    simp_all

/-! ## Lemmas on the address set behind shared pointers -/

theorem viewOf_cons (heap : List HypIPAddress) (k : String) (id : ObjId) (o : HypIPAddress)
    (t : StdMap ObjId) (h : heap[id]? = some o) :
    viewOf heap ((k, id) :: t) = (k, o) :: viewOf heap t := by
  unfold viewOf
  simp [List.filterMap_cons, h]

theorem firstOfTypeShared_view (p : Protocol) (heap : List HypIPAddress) (addrs : StdMap ObjId)
    (hv : ∀ e ∈ addrs, e.2 < heap.length) :
    firstOfTypeShared p heap addrs = firstOfType p (viewOf heap addrs) := by
  induction addrs with
  | nil => rfl
  | cons hd t ih =>
    obtain ⟨k, id⟩ := hd
    have hid : id < heap.length := hv (k, id) (List.mem_cons_self _ _)
    have hget : heap[id]? = some heap[id] := List.getElem?_eq_getElem hid
    rw [viewOf_cons heap k id _ t hget]
    simp only [firstOfTypeShared, hget, firstOfType]
    rw [ih (fun e he => hv e (List.mem_cons_of_mem _ he))]

theorem viewOf_erase (heap : List HypIPAddress) (addrs : StdMap ObjId) (k : String)
    (hv : ∀ e ∈ addrs, e.2 < heap.length) :
    viewOf heap (StdMap.erase addrs k) = StdMap.erase (viewOf heap addrs) k := by
  induction addrs with
  | nil => rfl
  | cons hd t ih =>
    obtain ⟨k1, id⟩ := hd
    have hid : id < heap.length := hv (k1, id) (List.mem_cons_self _ _)
    have hget : heap[id]? = some heap[id] := List.getElem?_eq_getElem hid
    rw [viewOf_cons heap k1 id _ t hget]
    by_cases h1 : k1 = k
    · simp [StdMap.erase, h1]
    · simp only [StdMap.erase, h1, if_false]
      rw [viewOf_cons heap k1 id _ _ hget, ih (fun e he => hv e (List.mem_cons_of_mem _ he))]

theorem viewOf_grow (heap : List HypIPAddress) (o : HypIPAddress) (addrs : StdMap ObjId)
    (hv : ∀ e ∈ addrs, e.2 < heap.length) :
    viewOf (heap ++ [o]) addrs = viewOf heap addrs := by
  unfold viewOf
  apply List.filterMap_congr
  intro e he
  rw [List.getElem?_append_left (hv e he)]

theorem viewOf_insert_or_assign (heap : List HypIPAddress) (addrs : StdMap ObjId) (k : String)
    (id : ObjId) (o : HypIPAddress) (hid : heap[id]? = some o)
    (hv : ∀ e ∈ addrs, e.2 < heap.length) :
    viewOf heap (StdMap.insert_or_assign addrs k id) =
      StdMap.insert_or_assign (viewOf heap addrs) k o := by
  induction addrs with
  | nil => simp [StdMap.insert_or_assign, viewOf, hid]
  | cons hd t ih =>
    obtain ⟨k1, id1⟩ := hd
    have hid1 : id1 < heap.length := hv (k1, id1) (List.mem_cons_self _ _)
    have hget : heap[id1]? = some heap[id1] := List.getElem?_eq_getElem hid1
    rw [viewOf_cons heap k1 id1 _ t hget]
    unfold StdMap.insert_or_assign
    by_cases h1 : k1 = k
    · simp only [h1, if_true]
      exact viewOf_cons heap k id o t hid
    · simp only [h1, if_false]
      by_cases h2 : keyLt k k1 = true
      · simp only [h2, if_true]
        rw [viewOf_cons heap k id o _ hid, viewOf_cons heap k1 id1 _ t hget]
      · have h2f : keyLt k k1 = false := by simpa using h2
        simp only [h2f, Bool.false_eq_true, if_false]
        rw [viewOf_cons heap k1 id1 _ _ hget, ih (fun e he => hv e (List.mem_cons_of_mem _ he))]

theorem erase_valid (heap : List HypIPAddress) (addrs : StdMap ObjId) (k : String)
    (hv : ∀ e ∈ addrs, e.2 < heap.length) :
    ∀ e ∈ StdMap.erase addrs k, e.2 < heap.length :=
  fun e he => hv e ((StdMap.erase_sublist addrs k).subset he)

/-- The address set that `ipStoreShared` leaves, read through its pointers,
is the address set that `ipStore` leaves. -/
theorem ipStoreShared_view (env : Env) (s1 : HypEthInterface) (sh : SharedAddrs) (p : Protocol)
    (a : String) (l : uint8_t) (g : String) (hv : sh.Valid)
    (h : viewOf sh.heap sh.addrs = s1.addrs) :
    viewOf (ipStoreShared s1.objectPath (getIntfLabel s1) sh p a l g).heap
        (ipStoreShared s1.objectPath (getIntfLabel s1) sh p a l g).addrs =
      (ipStore env s1 p a l g).2.addrs := by
  unfold ipStoreShared ipStore make_shared
  simp only []
  have hnew : ∀ o : HypIPAddress, (sh.heap ++ [o])[sh.heap.length]? = some o := by
    intro o
    simp
  have hv1 : ∀ e ∈ (match firstOfTypeShared p sh.heap sh.addrs with
      | some k => StdMap.erase sh.addrs k
      | none => sh.addrs), e.2 < sh.heap.length := by
    split
    · exact erase_valid _ _ _ hv
    · exact hv
  have hv2 : ∀ o : HypIPAddress, ∀ e ∈ (match firstOfTypeShared p sh.heap sh.addrs with
      | some k => StdMap.erase sh.addrs k
      | none => sh.addrs), e.2 < (sh.heap ++ [o]).length := by
    intro o e he
    have := hv1 e he
    simp only [List.length_append, List.length_singleton]
    omega
  rw [viewOf_insert_or_assign _ _ a _ _ (hnew _) (hv2 _), viewOf_grow _ _ _ hv1]
  congr 1
  rw [firstOfTypeShared_view p sh.heap sh.addrs hv, h]
  cases hf : firstOfType p s1.addrs with
  | none => exact h
  | some k => 
    simp only []
    rw [viewOf_erase _ _ _ hv, h]

/-! ## Claims on the notification filter, staging, re-keying and binding -/

/-- C21: on a notification whose changed-properties mapping does not contain
the key `BaseBIOSTable` the handler returns with the manager as it was, so no
DHCP mode, address record or snapshot entry has changed; and the outcome is
the same whatever the attribute store holds, the store not being read. -/
theorem C21_notification_filter (env : Env) (bios : BiosTable)
    (interfacesProperties : List String) (mgr : HypNetworkMgr)
    (h : "BaseBIOSTable" ∉ interfacesProperties) :
    BIOSAttrUpdate env bios interfacesProperties mgr = Flow.ret mgr ∧
    ∀ bios1 : BiosTable,
      BIOSAttrUpdate env bios1 interfacesProperties mgr =
        BIOSAttrUpdate env bios interfacesProperties mgr := by
  have h1 : ∀ b : BiosTable, BIOSAttrUpdate env b interfacesProperties mgr = Flow.ret mgr := by
    intro b
    unfold BIOSAttrUpdate
    simp [h]
  exact ⟨h1 bios, fun b => (h1 b).trans (h1 bios).symm⟩

/-- C21 (witness): a notification for the properties `Pending` and
`ResetBIOSSettings`, with a table whose if0/ipv4 address differs from the
cached one. -/
theorem C21_notification_filter_witness :
    BIOSAttrUpdate sampleEnv
        (tableSet (tableOf sampleAttrs) "vmi_if0_ipv4_ipaddr" (AttrValue.str "10.10.10.20"))
        ["Pending", "ResetBIOSSettings"]
        (sampleMgr DHCPConf.none DHCPConf.none sampleAttrs) =
      Flow.ret (sampleMgr DHCPConf.none DHCPConf.none sampleAttrs) :=
  (C21_notification_filter sampleEnv _ ["Pending", "ResetBIOSSettings"] _ (by decide)).1

/-- C22: an accepted `ip(p, address, prefixLength, gateway)` returns the
object path of the record it stored under `address` and appends to the staged
calls exactly one `updateBiosPendingAttrs` on that record. Its set holds the
key mapped from `address` with the String type and the address, the key mapped
from `gateway` with the String type and the gateway, the key mapped from
`prefixLength` with the Integer type and the prefix length, three entries in
all and no other key. The key mapping is collision-free, as the spec has it. -/
theorem C22_ip_stages_three_writes (env : Env) (s : HypEthInterface) (p : Protocol)
    (a : String) (l : uint8_t) (g : String)
    (ha : env.isValidIP (familyOf p) a = true) (hg : env.isValidIP (familyOf p) g = true)
    (hl : env.isValidPrefix (familyOf p) l = true)
    (hd : CollisionFree env) :
    ∃ (objPath : String) (st : HypEthInterface) (rec : HypIPAddress)
        (pending : PendingAttributesType),
      ip env s p a l g = IpResult.ok objPath st ∧
      StdMap.find st.addrs a = some rec ∧ rec.objectPath = objPath ∧
      st.staged =
        (ipEntry env s p).staged ++ [BiosCall.updateBiosPendingAttrs rec.objectPath pending] ∧
      ThreeWrites pending (env.mapDbusToBiosAttr rec "address")
        (env.mapDbusToBiosAttr rec "gateway") (env.mapDbusToBiosAttr rec "prefixLength") a l g := by
  rw [ip_accepted env s p a l g ha hg hl]
  refine ⟨_, _, _, _, rfl, StdMap.find_insert_or_assign_self _ _ _, rfl, rfl, ?_⟩
  exact threeWrites_ipPending env _ a l g (hd _).1 (hd _).2.1 (hd _).2.2

/-- C22 (witness): `ip(IPv4, "10.10.10.20", 24, "10.10.10.1")` on `eth0`
with the sample key mapping, and the set it stages. -/
theorem C22_ip_stages_three_writes_witness :
    (∃ (objPath : String) (st : HypEthInterface) (rec : HypIPAddress)
        (pending : PendingAttributesType),
      ip sampleEnv (eth0With DHCPConf.none) Protocol.IPv4 "10.10.10.20" 24 "10.10.10.1" =
        IpResult.ok objPath st ∧
      StdMap.find st.addrs "10.10.10.20" = some rec ∧ rec.objectPath = objPath ∧
      st.staged =
        (ipEntry sampleEnv (eth0With DHCPConf.none) Protocol.IPv4).staged ++
          [BiosCall.updateBiosPendingAttrs rec.objectPath pending] ∧
      ThreeWrites pending (sampleEnv.mapDbusToBiosAttr rec "address")
        (sampleEnv.mapDbusToBiosAttr rec "gateway")
        (sampleEnv.mapDbusToBiosAttr rec "prefixLength") "10.10.10.20" 24 "10.10.10.1") ∧
    (ip sampleEnv (eth0With DHCPConf.none) Protocol.IPv4 "10.10.10.20" 24
        "10.10.10.1").state.staged =
      [BiosCall.updateBiosPendingAttrs "/xyz/openbmc_project/network/hypervisor/eth0/ipv4/addr0"
        [("vmi_if0_ipv4_gateway", (biosStrType, AttrValue.str "10.10.10.1")),
         ("vmi_if0_ipv4_ipaddr", (biosStrType, AttrValue.str "10.10.10.20")),
         ("vmi_if0_ipv4_prefix_length", (biosIntType, AttrValue.int 24))]] :=
  ⟨C22_ip_stages_three_writes sampleEnv (eth0With DHCPConf.none) Protocol.IPv4 "10.10.10.20" 24
      "10.10.10.1" (by decide) (by decide) (by decide) sampleEnv_collisionFree,
    by decide⟩

/-- C23 (code at the failing input): with the pointers of the address set
explicit, `ip` assigns to `addrs[ipaddress]` a pointer to a newly allocated
object, whose identity no object had before, and leaves every object that
existed as it was. On `eth0`, whose IPv4 record is object 0 under the key
10.10.10.10, the search of `ip(IPv4, "10.10.10.20", 24, "10.10.10.1")` finds
that record; after the call the key 10.10.10.20 holds object 2, and object 0
is no longer in the set and still has the address 10.10.10.10. -/
theorem C23_ip_stores_new_object :
    (∀ (objectPath intfLabel : String) (s : SharedAddrs) (p : Protocol) (a : String)
        (l : uint8_t) (g : String),
      StdMap.find (ipStoreShared objectPath intfLabel s p a l g).addrs a = some s.heap.length ∧
      ∀ (id : ObjId) (o : HypIPAddress), s.heap[id]? = some o →
        (ipStoreShared objectPath intfLabel s p a l g).heap[id]? = some o) ∧
    firstOfTypeShared Protocol.IPv4 sampleShared.heap sampleShared.addrs = some "10.10.10.10" ∧
    ipStoreShared "/xyz/openbmc_project/network/hypervisor/eth0" "if0" sampleShared
        Protocol.IPv4 "10.10.10.20" 24 "10.10.10.1" =
      { addrs := [("10.10.10.20", 2), ("fe80::1", 1)],
        heap := [recV4, mkRec "eth0" "if0" "ipv6" Protocol.IPv6 "fe80::1" 64 "fe80::fe",
          mkRec "eth0" "if0" "ipv4" Protocol.IPv4 "10.10.10.20" 24 "10.10.10.1"] } := by
  refine ⟨?_, by decide, by decide⟩
  intro objectPath intfLabel s p a l g
  refine ⟨?_, ?_⟩
  · unfold ipStoreShared make_shared
    exact StdMap.find_insert_or_assign_self _ _ _
  · intro id o h
    obtain ⟨hlt, _⟩ := List.getElem?_eq_some.mp h
    unfold ipStoreShared make_shared
    simp only []
    rw [List.getElem?_append_left hlt]
    exact h

/-- C24: a call `dhcpEnabled(value)` that changes the mode stages nothing
when the address set is empty. Otherwise it stages one origin write, on the
first record of the address set (whose key is below every other key), with
the method chosen by that record's protocol: `IPv4DHCP` or `IPv6DHCP` when
`value` is not `none`, `IPv4Static` or `IPv6Static` followed by a reset of
that record's staged attributes when `value` is `none`; nothing else is
staged. The mode becomes `value` and the address set is unchanged. -/
theorem C24_origin_staging_first_record (env : Env) (s : HypEthInterface) (value : DHCPConf)
    (h : value ≠ s.dhcpConf) :
    (s.addrs = [] → (dhcpEnabled env s value).staged = s.staged) ∧
    (∀ k r t, s.addrs = (k, r) :: t →
      (dhcpEnabled env s value).staged =
        s.staged ++
          (BiosCall.updateBiosPendingAttrs r.objectPath
              [(env.mapDbusToBiosAttr r "origin",
                (biosEnumType, AttrValue.str (specOriginMethod r.type value)))] ::
            (if value = DHCPConf.none then [BiosCall.resetBaseBiosTableAttrs r.objectPath]
              else [])) ∧
      (StdMap.Sorted s.addrs → ∀ e ∈ t, keyLt k e.1 = true)) ∧
    (dhcpEnabled env s value).dhcpConf = value ∧
    (dhcpEnabled env s value).addrs = s.addrs := by
  refine ⟨?_, ?_, dhcpEnabled_dhcpConf env s value, dhcpEnabled_addrs env s value⟩
  · intro he
    unfold dhcpEnabled
    simp [h, he, originCalls]
  · intro k r t he
    refine ⟨?_, ?_⟩
    · unfold dhcpEnabled
      rw [if_neg h]
      simp only [he, originCalls, StdMap.insert_or_assign]
      cases value <;> cases hr : r.type <;>
        simp [originMethod, specOriginMethod, hr] <;> rfl
    · intro hs e hmem
      rw [he] at hs
      exact ((StdMap.sorted_cons k r t).mp hs).1 e hmem

/-- C24 (witness): `dhcpEnabled(none)` on `eth0` in mode `v4`, whose first
record is the IPv4 record. -/
theorem C24_origin_staging_first_record_witness :
    (dhcpEnabled sampleEnv (sampleEth0 DHCPConf.v4) DHCPConf.none).staged =
      [BiosCall.updateBiosPendingAttrs recV4.objectPath
        [("vmi_if0_ipv4_method", (biosEnumType, AttrValue.str "IPv4Static"))],
       BiosCall.resetBaseBiosTableAttrs recV4.objectPath] :=
  ((C24_origin_staging_first_record sampleEnv (sampleEth0 DHCPConf.v4) DHCPConf.none
    (by decide)).2.1 "10.10.10.10" recV4 _ rfl).1

/-- C25 (counterexample): `eth0` holds its IPv4 record under 10.10.10.10 and
its IPv6 record under fe80::1. After `updateIPAddress("10.10.10.10",
"fe80::1")` the set holds the IPv6 record alone: the record formerly under
10.10.10.10 is not stored under fe80::1, and one record is left of two. -/
theorem C25_counterexample :
    StdMap.find (sampleEth0 DHCPConf.none).addrs "10.10.10.10" = some recV4 ∧
    (updateIPAddress (sampleEth0 DHCPConf.none) "10.10.10.10" "fe80::1").addrs =
      [("fe80::1", mkRec "eth0" "if0" "ipv6" Protocol.IPv6 "fe80::1" 64 "fe80::fe")] ∧
    StdMap.find (updateIPAddress (sampleEth0 DHCPConf.none) "10.10.10.10" "fe80::1").addrs
      "fe80::1" ≠ some recV4 ∧
    (sampleEth0 DHCPConf.none).addrs.length = 2 ∧
    (updateIPAddress (sampleEth0 DHCPConf.none) "10.10.10.10" "fe80::1").addrs.length = 1 := by
  decide

/-- C25 (amended): let the address set be a map in key order and let
`updatedIp` be `ip` itself or not a key of the set. If `ip` is present, then
after `updateIPAddress(ip, updatedIp)` the record formerly under `ip` is
stored under `updatedIp`, `ip` is no longer a key unless it equals `updatedIp`,
every other key holds what it held and the number of records is the same; if
`ip` is absent nothing changes. `deleteObject(k)` removes the entry under `k`,
and only it, when `k` is present, and changes nothing when `k` is absent. -/
theorem C25_rekey_keeps_record (s : HypEthInterface) (ip updatedIp k : String)
    (hs : StdMap.Sorted s.addrs)
    (hfree : updatedIp = ip ∨ StdMap.find s.addrs updatedIp = none) :
    (∀ r, StdMap.find s.addrs ip = some r →
      StdMap.find (updateIPAddress s ip updatedIp).addrs updatedIp = some r ∧
      (ip ≠ updatedIp → StdMap.find (updateIPAddress s ip updatedIp).addrs ip = none) ∧
      (∀ k1, k1 ≠ ip → k1 ≠ updatedIp →
        StdMap.find (updateIPAddress s ip updatedIp).addrs k1 = StdMap.find s.addrs k1) ∧
      (updateIPAddress s ip updatedIp).addrs.length = s.addrs.length) ∧
    (StdMap.find s.addrs ip = none → updateIPAddress s ip updatedIp = s) ∧
    (∀ r, StdMap.find s.addrs k = some r →
      StdMap.find (deleteObject s k).addrs k = none ∧
      (∀ k1, k1 ≠ k → StdMap.find (deleteObject s k).addrs k1 = StdMap.find s.addrs k1) ∧
      (deleteObject s k).addrs.length + 1 = s.addrs.length) ∧
    (StdMap.find s.addrs k = none → deleteObject s k = s) := by
  refine ⟨?_, ?_, ?_, ?_⟩
  · intro r hr
    have hdel : (deleteObject s ip).addrs = StdMap.erase s.addrs ip := by
      unfold deleteObject
      rw [hr]
    have hnone : StdMap.find (StdMap.erase s.addrs ip) updatedIp = none := by
      rcases hfree with h | h
      · rw [h]
        exact StdMap.find_erase_self _ _ hs
      · by_cases hk : updatedIp = ip
        · rw [hk]
          exact StdMap.find_erase_self _ _ hs
        · rw [StdMap.find_erase_ne _ _ _ hk]
          exact h
    have hupd : (updateIPAddress s ip updatedIp).addrs =
        StdMap.insert_or_assign (StdMap.erase s.addrs ip) updatedIp r := by
      unfold updateIPAddress
      rw [hr]
      simp only [hdel, StdMap.emplace, hnone]
    rw [hupd]
    refine ⟨StdMap.find_insert_or_assign_self _ _ _, ?_, ?_, ?_⟩
    · intro hne
      rw [StdMap.find_insert_or_assign_ne _ _ _ _ hne]
      exact StdMap.find_erase_self _ _ hs
    · intro k1 h1 h2
      rw [StdMap.find_insert_or_assign_ne _ _ _ _ h2, StdMap.find_erase_ne _ _ _ h1]
    · rw [StdMap.length_insert_or_assign_of_find_none _ _ _ hnone]
      exact StdMap.length_erase_of_find _ _ r hr
  · intro hn
    unfold updateIPAddress
    rw [hn]
  · intro r hr
    have hdel : (deleteObject s k).addrs = StdMap.erase s.addrs k := by
      unfold deleteObject
      rw [hr]
    rw [hdel]
    exact ⟨StdMap.find_erase_self _ _ hs, fun k1 h1 => StdMap.find_erase_ne _ _ _ h1,
      StdMap.length_erase_of_find _ _ r hr⟩
  · intro hn
    unfold deleteObject
    rw [hn]

/-- C25 (witness): `updateIPAddress("10.10.10.10", "10.10.10.20")` on
`eth0`, where 10.10.10.20 is not yet a key. -/
theorem C25_rekey_keeps_record_witness :
    StdMap.find (updateIPAddress (sampleEth0 DHCPConf.none) "10.10.10.10" "10.10.10.20").addrs
      "10.10.10.20" = some recV4 :=
  ((C25_rekey_keeps_record (sampleEth0 DHCPConf.none) "10.10.10.10" "10.10.10.20" "fe80::1"
    (by unfold StdMap.Sorted; decide) (Or.inr (by decide))).1 recV4 (by decide)).1

/-- C26 (counterexample): the snapshot holds all 16 managed keys, with values
of their types and distinct addresses, and nothing else. On the empty `eth0`
the method `createIPAddressObjects` takes its default values for ipv4 and
ipv6 and stores the records 0.0.0.0/0 and ::/128 under `eth0/v4` and
`eth0/v6`. -/
theorem C26_counterexample :
    (∀ t ∈ allTriples,
      (StdMap.find attrsManagedOnly (composedKey t.1 t.2.1 t.2.2)).isSome = true) ∧
    attrsManagedOnly.length = 16 ∧
    (createIPAddressObjects (eth0Empty DHCPConf.none) attrsManagedOnly sampleIndeterminate).defaults
      = [("if0", "ipv4"), ("if0", "ipv6")] ∧
    (createIPAddressObjects (eth0Empty DHCPConf.none) attrsManagedOnly
      sampleIndeterminate).st.addrs.map (fun e => (e.1, e.2.address, e.2.prefixLength, e.2.gateway))
      = [("eth0/v4", "0.0.0.0", 0, "0.0.0.0"), ("eth0/v6", "::", 128, "::")] := by
  decide

/-- C26 (amended): let the snapshot hold at least 17 entries and, for the
interface `if<i>` and each protocol, a string under the method, ipaddr and
gateway keys and an integer under the prefix_length key, the two ipaddr values
being different. Then `createIPAddressObjects` on the empty interface
`if<i>` takes no default values, does not fail, and leaves exactly two
records, one per protocol: the record of protocol `p` is stored under the
snapshot's ipaddr value and has that address, the snapshot's gateway and the
snapshot's prefix length converted to `uint8_t`. -/
theorem C26_table_driven_binding (s : HypEthInterface) (attrs : StdMap AttrValue)
    (u : Indeterminate) (i : Nat) (m a g : Protocol → String) (n : Protocol → Int)
    (hi : i < 2) (hlabel : getIntfLabel s = intfName i) (hempty : s.addrs = [])
    (hsize : 17 ≤ attrs.length)
    (hm : ∀ p, StdMap.find attrs (composedKey i p KeyField.method) = some (AttrValue.str (m p)))
    (ha : ∀ p, StdMap.find attrs (composedKey i p KeyField.ipaddr) = some (AttrValue.str (a p)))
    (hn : ∀ p,
      StdMap.find attrs (composedKey i p KeyField.prefixLength) = some (AttrValue.int (n p)))
    (hg : ∀ p, StdMap.find attrs (composedKey i p KeyField.gateway) = some (AttrValue.str (g p)))
    (hne : a Protocol.IPv4 ≠ a Protocol.IPv6) :
    (createIPAddressObjects s attrs u).defaults = [] ∧
    (createIPAddressObjects s attrs u).raised = false ∧
    (createIPAddressObjects s attrs u).st.addrs.length = 2 ∧
    ∀ p, countOfType p (createIPAddressObjects s attrs u).st.addrs = 1 ∧
      ∃ r, StdMap.find (createIPAddressObjects s attrs u).st.addrs (a p) = some r ∧
        r.type = p ∧ r.address = a p ∧ r.prefixLength = toUint8 (n p) ∧ r.gateway = g p := by
  have hl : intfName i ≠ "" := by
    interval_cases i <;> decide
  obtain ⟨st1, loc1, r4, e1, a1, b1, c1, d1, t1, _, _, _⟩ :=
    createForProtocol_of_entries (intfName i) "ipv4" attrs s
      { ipAddr := "", ipProtocol := u.ipProtocol, ipOrigin := u.ipOrigin,
        ipPrefixLength := u.ipPrefixLength, ipGateway := "" }
      (m Protocol.IPv4) (a Protocol.IPv4) (g Protocol.IPv4) (n Protocol.IPv4)
      (hm Protocol.IPv4) (ha Protocol.IPv4) (hn Protocol.IPv4) (hg Protocol.IPv4)
  obtain ⟨st2, loc2, r6, e2, a2, b2, c2, d2, _, t2, _, _⟩ :=
    createForProtocol_of_entries (intfName i) "ipv6" attrs st1 loc1
      (m Protocol.IPv6) (a Protocol.IPv6) (g Protocol.IPv6) (n Protocol.IPv6)
      (hm Protocol.IPv6) (ha Protocol.IPv6) (hn Protocol.IPv6) (hg Protocol.IPv6)
  have hres : createIPAddressObjects s attrs u = { st := st2, defaults := [], raised := false } := by
    unfold createIPAddressObjects
    simp only [hlabel, hl, if_false, Nat.not_lt.mpr hsize, createLoop, e1, e2]
  have hnone : StdMap.find [(a Protocol.IPv4, r4)] (a Protocol.IPv6) = none := by
    simp [StdMap.find, hne]
  have haddrs : st2.addrs = StdMap.insert_or_assign [(a Protocol.IPv4, r4)] (a Protocol.IPv6) r6 := by
    rw [a2, a1, hempty]
    show StdMap.emplace [(a Protocol.IPv4, r4)] (a Protocol.IPv6) r6 = _
    unfold StdMap.emplace
    rw [hnone]
  have h4 := t1 rfl
  have h6 := t2 rfl
  rw [hres]
  simp only []
  refine ⟨trivial, trivial, ?_, ?_⟩
  · rw [haddrs, StdMap.length_insert_or_assign_of_find_none _ _ _ hnone]
    rfl
  · intro p
    refine ⟨?_, ?_⟩
    · rw [haddrs]
      unfold StdMap.insert_or_assign
      simp only [hne, if_false, StdMap.insert_or_assign]
      cases p <;> split <;> simp [countOfType, h4, h6]
    · cases p
      · refine ⟨r4, ?_, h4, b1, c1, d1⟩
        rw [haddrs, StdMap.find_insert_or_assign_ne _ _ _ _ hne]
        simp [StdMap.find]
      · refine ⟨r6, ?_, h6, b2, c2, d2⟩
        rw [haddrs]
        exact StdMap.find_insert_or_assign_self _ _ _

/-- C26 (witness): the empty `eth0` and the sample snapshot of 17 entries. -/
theorem C26_table_driven_binding_witness :
    (createIPAddressObjects (eth0Empty DHCPConf.none) sampleAttrs sampleIndeterminate).defaults
      = [] ∧
    (createIPAddressObjects (eth0Empty DHCPConf.none) sampleAttrs
      sampleIndeterminate).st.addrs.length = 2 :=
  ⟨(C26_table_driven_binding (eth0Empty DHCPConf.none) sampleAttrs sampleIndeterminate 0
      (fun p => match p with
        | Protocol.IPv4 => "IPv4Static"
        | Protocol.IPv6 => "IPv6Static")
      (fun p => match p with
        | Protocol.IPv4 => "10.10.10.10"
        | Protocol.IPv6 => "fe80::1")
      (fun p => match p with
        | Protocol.IPv4 => "10.10.10.1"
        | Protocol.IPv6 => "fe80::fe")
      (fun p => match p with
        | Protocol.IPv4 => 16
        | Protocol.IPv6 => 64)
      (by decide) (by decide) rfl (by decide)
      (fun p => by cases p <;> decide) (fun p => by cases p <;> decide)
      (fun p => by cases p <;> decide) (fun p => by cases p <;> decide) (by decide)).1,
    (C26_table_driven_binding (eth0Empty DHCPConf.none) sampleAttrs sampleIndeterminate 0
      (fun p => match p with
        | Protocol.IPv4 => "IPv4Static"
        | Protocol.IPv6 => "IPv6Static")
      (fun p => match p with
        | Protocol.IPv4 => "10.10.10.10"
        | Protocol.IPv6 => "fe80::1")
      (fun p => match p with
        | Protocol.IPv4 => "10.10.10.1"
        | Protocol.IPv6 => "fe80::fe")
      (fun p => match p with
        | Protocol.IPv4 => 16
        | Protocol.IPv6 => 64)
      (by decide) (by decide) rfl (by decide)
      (fun p => by cases p <;> decide) (fun p => by cases p <;> decide)
      (fun p => by cases p <;> decide) (fun p => by cases p <;> decide) (by decide)).2.2.1⟩

/-- C27 (code at the failing input): the empty `eth0` is bound against a
snapshot of 17 entries. With the methods `IPv4DHCP` and `IPv6DHCP` the mode
after the table-driven path is `v6`, not `both`, and `isDHCPEnabled(IPv4)` is
false; with `IPv4DHCP` and `IPv6Static` the mode is `none`, not `v4`, and
`isDHCPEnabled(IPv4)` is false. -/
theorem C27_binding_mode_from_last_method :
    (createIPAddressObjects (eth0Empty DHCPConf.none) (attrsMethods "IPv4DHCP" "IPv6DHCP")
      sampleIndeterminate).st.dhcpConf = DHCPConf.v6 ∧
    isDHCPEnabled (createIPAddressObjects (eth0Empty DHCPConf.none)
      (attrsMethods "IPv4DHCP" "IPv6DHCP") sampleIndeterminate).st Protocol.IPv4 false = false ∧
    (createIPAddressObjects (eth0Empty DHCPConf.none) (attrsMethods "IPv4DHCP" "IPv6Static")
      sampleIndeterminate).st.dhcpConf = DHCPConf.none ∧
    isDHCPEnabled (createIPAddressObjects (eth0Empty DHCPConf.none)
      (attrsMethods "IPv4DHCP" "IPv6Static") sampleIndeterminate).st Protocol.IPv4 false = false := by
  decide

/-- C28: the 16 composed keys `vmi_<if0|if1>_<ipv4|ipv6>_<field>` are pairwise
different; a composed key ends with the suffix `<if>_<protocol>_<field>` of a
triple exactly when it was composed from that triple; hence a suffix test
passes for at most one of the 16 managed keys. The keys and suffixes are the
ones the handler builds: its method key, and the suffixes it tests for the
address, the gateway and the prefix length. -/
theorem C28_managed_keys_collision_free :
    allTriples.length = 16 ∧
    (∀ t ∈ allTriples, ∀ u ∈ allTriples,
      composedKey t.1 t.2.1 t.2.2 = composedKey u.1 u.2.1 u.2.2 → t = u) ∧
    (∀ t ∈ allTriples, ∀ u ∈ allTriples,
      ends_with (composedKey t.1 t.2.1 t.2.2) (keySuffix u.1 u.2.1 u.2.2) = true ↔ t = u) ∧
    (∀ u ∈ allTriples, ∀ t ∈ allTriples, ∀ t1 ∈ allTriples,
      ends_with (composedKey t.1 t.2.1 t.2.2) (keySuffix u.1 u.2.1 u.2.2) = true →
      ends_with (composedKey t1.1 t1.2.1 t1.2.2) (keySuffix u.1 u.2.1 u.2.2) = true → t = t1) ∧
    (∀ q ∈ allPairs,
      composedKey q.1 q.2 KeyField.method = methodKey q.1 q.2 ∧
      composedKey q.1 q.2 KeyField.ipaddr = managedKey q.1 q.2 SyncField.ipaddr ∧
      composedKey q.1 q.2 KeyField.gateway = managedKey q.1 q.2 SyncField.gateway ∧
      composedKey q.1 q.2 KeyField.prefixLength = managedKey q.1 q.2 SyncField.prefixLength ∧
      keySuffix q.1 q.2 KeyField.ipaddr =
        fieldSuffix (intfName q.1) (protocolName q.2) SyncField.ipaddr ∧
      keySuffix q.1 q.2 KeyField.gateway =
        fieldSuffix (intfName q.1) (protocolName q.2) SyncField.gateway ∧
      keySuffix q.1 q.2 KeyField.prefixLength =
        fieldSuffix (intfName q.1) (protocolName q.2) SyncField.prefixLength) := by
  have h2 : ∀ t ∈ allTriples, ∀ u ∈ allTriples,
      ends_with (composedKey t.1 t.2.1 t.2.2) (keySuffix u.1 u.2.1 u.2.2) = true ↔ t = u := by
    decide
  refine ⟨by decide, by decide, h2, ?_, by decide⟩
  intro u hu t ht t1 ht1 e e1
  exact ((h2 t ht u hu).mp e).trans ((h2 t1 ht1 u hu).mp e1).symm

end HypNet
